import Mathlib

/-!
# Verification of the rubiks-cube-solver core

A shallow embedding of `src/cube.c`, `src/solve.c` and `src/core.h`
(the container macros) of the rubiks-cube-solver repository, together
with proofs and refutations of the specified properties.

Machine integers (`u32` face words, `u8` tile values) are modelled as
`Nat` with explicit masking where the C code masks; a `Cube` is the
`faces` array, modelled as a total function from the face index to the
32-bit face word.
-/

set_option maxHeartbeats 1000000

/-! ## Definitions: a shallow embedding of the program -/

/-- The cube is `u32* faces`, indexed by colour 0..5. -/
abbrev Cube := Nat → Nat

/-- `BITMASK_TILE`: four bits set to true, 1111. -/
def BITMASK_TILE : Nat := 0xF

/-- `0xFFFFFFFF`; the value of `~0` at type `u32`, used to model the
C expression `~mask` on a `u32` as `UINT32_MAX ^^^ mask`. -/
def UINT32_MAX : Nat := 0xFFFFFFFF

/-- `FaceGetTile` (cube.c): extract the 4-bit tile at bit offset `position*4`. -/
def FaceGetTile (face : Nat) (position : Nat) : Nat :=
  let offset := position <<< 2
  (face &&& (BITMASK_TILE <<< offset)) >>> offset

/-- `FaceSetTile` (cube.c): clear the 4-bit tile at `position*4`, store
`colour` there, and return the previous tile value together with the new
face word (the C function mutates `*face` and returns the old colour). -/
def FaceSetTile (face : Nat) (colour : Nat) (position : Nat) : Nat × Nat :=
  let offset := position <<< 2
  let old_colour := (face &&& (BITMASK_TILE <<< offset)) >>> offset
  let cleared := face &&& (UINT32_MAX ^^^ (BITMASK_TILE <<< offset))
  (old_colour, cleared ||| (colour <<< offset))

def writeIdx {α : Type} (f : Nat → α) (i : Nat) (v : α) : Nat → α :=
  fun j => if j = i then v else f j

structure TypedStack (α : Type) where
  items : Nat → α
  head : Nat
  capacity : Nat

/-- `name##_append` of `DEFINE_TYPED_STACK`. -/
def TypedStack.append {α : Type} (stack : TypedStack α) (item : α) :
    TypedStack α × Bool :=
  if stack.head ≥ stack.capacity then (stack, false)
  else ({ stack with
            items := writeIdx stack.items stack.head item
            head := stack.head + 1 }, true)

/-- `name##_pop` of `DEFINE_TYPED_STACK`:
`*item = stack->items[stack->head--]` reads the entry at the OLD value of
`head` (post-decrement) and then decrements `head`. -/
def TypedStack.pop {α : Type} (stack : TypedStack α) :
    TypedStack α × Option α :=
  if stack.head = 0 then (stack, none)
  else ({ stack with head := stack.head - 1 }, some (stack.items stack.head))

/-- `name##_length` of `DEFINE_TYPED_STACK`. -/
def TypedStack.length {α : Type} (stack : TypedStack α) : Nat := stack.head

/-- `name##_clear` of `DEFINE_TYPED_STACK`. -/
def TypedStack.clear {α : Type} (stack : TypedStack α) : TypedStack α :=
  { stack with head := 0 }

/-- Modelled from the spec: `MoveStack_get` is called by `TidyMoveStack`
(solve.c line 195) but its definition is missing from src/ (the
`DEFINE_TYPED_STACK` macro in core.h does not generate a `get`).  The
spec says the tidy pass "inspects the two most recent moves", which are
read at indices `length-1` and `length-2`, so `get` reads the backing
array at the given index. -/
def TypedStack.get {α : Type} (stack : TypedStack α) (index : Nat) : α :=
  stack.items index

structure TypedQueue (α : Type) where
  items : Nat → α
  head : Nat
  tail : Nat
  capacity : Nat

/-- `name##_append` of `DEFINE_TYPED_QUEUE` (ring buffer). -/
def TypedQueue.append {α : Type} (queue : TypedQueue α) (item : α) :
    TypedQueue α × Bool :=
  let next := (queue.tail + 1) % queue.capacity
  if next = queue.head then (queue, false)
  else ({ queue with
            items := writeIdx queue.items queue.tail item
            tail := next }, true)

/-- `name##_pop` of `DEFINE_TYPED_QUEUE`. -/
def TypedQueue.pop {α : Type} (queue : TypedQueue α) :
    TypedQueue α × Option α :=
  if queue.tail = queue.head then (queue, none)
  else ({ queue with head := (queue.head + 1) % queue.capacity },
        some (queue.items queue.head))

/-- `name##_length` of `DEFINE_TYPED_QUEUE` (`u32` arithmetic never
wraps here because `head ≤ tail + capacity` under the ring invariant). -/
def TypedQueue.length {α : Type} (queue : TypedQueue α) : Nat :=
  ((queue.tail + queue.capacity) - queue.head) % queue.capacity

/-- `name##_clear` of `DEFINE_TYPED_QUEUE`. -/
def TypedQueue.clear {α : Type} (queue : TypedQueue α) : TypedQueue α :=
  { queue with head := 0, tail := 0 }

def TURN_FRONT : Nat := 0

def TURN_RIGHT : Nat := 1

def TURN_UP : Nat := 2

def TURN_BACK : Nat := 3

def TURN_LEFT : Nat := 4

def TURN_DOWN : Nat := 5

def TURN_FRONT_PRIME : Nat := 6

def TURN_DOWN_PRIME : Nat := 11

def TURN_FRONT_DOUBLE : Nat := 12

def TURN_TYPE_COUNT : Nat := 18

/-- The `MoveStack` instantiation `DEFINE_TYPED_STACK(TurnType, MoveStack)`. -/
abbrev MoveStack := TypedStack Nat

/-- `TidyMoveStack` (solve.c): checks whether the two most recent moves
share a face and, if so, pops them both (the pops overwrite `last_turn`
and `second_last_turn`!) and appends the algebraic combination, if any. -/
def TidyMoveStack (moves : MoveStack) : MoveStack :=
  let length := moves.length
  if length < 2 then moves else
  let last_turn := moves.get (length - 1)
  let last_face := last_turn % 6
  let second_last_turn := moves.get (length - 2)
  let second_last_face := second_last_turn % 6
  if last_face = second_last_face then
    let r1 := moves.pop
    let moves := r1.1
    let last_turn := r1.2.getD last_turn
    let r2 := moves.pop
    let moves := r2.1
    let second_last_turn := r2.2.getD second_last_turn
    let last_turn_dir := last_turn / 6
    let second_last_turn_dir := second_last_turn / 6
    let turn : Nat :=
      if last_turn_dir = 0 then
        if second_last_turn_dir = 0 then TURN_FRONT_DOUBLE + last_face
        else if second_last_turn_dir = 1 then TURN_TYPE_COUNT
        else TURN_FRONT_PRIME + last_face
      else if last_turn_dir = 1 then
        if second_last_turn_dir = 0 then TURN_TYPE_COUNT
        else if second_last_turn_dir = 1 then TURN_FRONT_DOUBLE + last_face
        else TURN_FRONT + last_face
      else
        if second_last_turn_dir = 0 then TURN_FRONT_PRIME + last_face
        else if second_last_turn_dir = 1 then TURN_FRONT + last_face
        else TURN_TYPE_COUNT
    if turn ≠ TURN_TYPE_COUNT then (moves.append turn).1 else moves
  else moves

/-- The stack half of `PerformTurn` (solve.c): append the executed move,
then run the tidy pass. -/
def appendAndTidy (moves : MoveStack) (turn : Nat) : MoveStack :=
  TidyMoveStack (moves.append turn).1

/-- `SolveOLL` (solve.c): prints a banner and returns before the
(unreachable) sanity check; neither the move stack nor the cube is read
or written. -/
def SolveOLL (moves : MoveStack) (cube : Cube) : MoveStack × Cube :=
  (moves, cube)

/-- `SolvePLL` (solve.c): prints a banner and returns before the
(unreachable) sanity check; neither the move stack nor the cube is read
or written. -/
def SolvePLL (moves : MoveStack) (cube : Cube) : MoveStack × Cube :=
  (moves, cube)

/-- `ModWrap` (core.c): `(((x) % (n)) + (n)) % (n)` on `int`. -/
def ModWrap (x n : Int) : Int := ((x % n) + n) % n

def CUBE_FACE_ROTATION_TABLE : Nat → Nat → Nat := fun j i =>
  (([[0, 2, 4, 6], [1, 3, 5, 7]].getD j []).getD i 0)

def CUBE_SIDE_COLOUR_TABLE : Nat → Nat → Nat := fun f i =>
  (([[4, 2, 1, 5],
     [0, 2, 3, 5],
     [4, 3, 1, 0],
     [4, 5, 1, 2],
     [3, 2, 0, 5],
     [4, 0, 1, 3]].getD f []).getD i 0)

def CUBE_SIDE_ROTATION_TABLE : Nat → Nat → Nat → Nat := fun f j i =>
  ((([[[4, 6, 0, 2], [3, 5, 7, 1], [2, 4, 6, 0]],
      [[4, 4, 0, 4], [3, 3, 7, 3], [2, 2, 6, 2]],
      [[2, 2, 2, 2], [1, 1, 1, 1], [0, 0, 0, 0]],
      [[0, 6, 4, 2], [7, 5, 3, 1], [6, 4, 2, 0]],
      [[4, 0, 0, 0], [3, 7, 7, 7], [2, 6, 6, 6]],
      [[6, 6, 6, 6], [5, 5, 5, 5], [4, 4, 4, 4]]].getD f []).getD j []).getD i 0)

def CUBE_EDGE_COLOUR_TABLE : Nat → Nat := fun i =>
  ([0, 2, 0, 1, 0, 5, 0, 4,
    1, 2, 5, 1, 4, 5, 2, 4,
    3, 2, 3, 4, 3, 5, 3, 1].getD i 0)

def CUBE_EDGE_POSITION_TABLE : Nat → Nat := fun i =>
  ([1, 5, 3, 7, 5, 1, 7, 3,
    1, 3, 3, 5, 5, 7, 7, 1,
    1, 1, 3, 7, 5, 5, 7, 3].getD i 0)

def CUBE_CORNER_COLOUR_TABLE : Nat → Nat := fun i =>
  ([0, 4, 2, 0, 2, 1, 0, 1, 5, 0, 5, 4,
    3, 1, 2, 3, 2, 4, 3, 4, 5, 3, 5, 1].getD i 0)

def CUBE_CORNER_POSITION_TABLE : Nat → Nat := fun i =>
  ([0, 2, 6, 2, 4, 0, 4, 6, 2, 6, 0, 4,
    0, 2, 2, 2, 0, 0, 4, 6, 6, 6, 4, 4].getD i 0)

/-- One iteration of the chained-temp rotation loop:
`temp = FaceSetTile(&cube->faces[c], temp, p)`. -/
def cycleStep (st : Cube × Nat) (c p : Nat) : Cube × Nat :=
  let r := FaceSetTile (st.1 c) st.2 p
  (writeIdx st.1 c r.2, r.1)

/-- The clockwise 4-cycle loop of `CubeFaceTurnClockwise`:
read the tile at entry 0, then write through entries 1,2,3,0. -/
def cycleCW (cube : Cube) (cs ps : Nat → Nat) : Cube :=
  let temp := FaceGetTile (cube (cs 0)) (ps 0)
  ([1, 2, 3, 4].foldl (fun st i => cycleStep st (cs (i % 4)) (ps (i % 4)))
    (cube, temp)).1

/-- The anticlockwise 4-cycle loop of `CubeFaceTurnAntiClockwise`:
`for (i = SIDE_TURN_COUNT; i > -1; i--)` with `ModWrap(i, 4)`. -/
def cycleCCW (cube : Cube) (cs ps : Nat → Nat) : Cube :=
  let temp := FaceGetTile (cube (cs 0)) (ps 0)
  ([4, 3, 2, 1, 0].foldl (fun st i =>
      cycleStep st (cs (ModWrap i 4).toNat) (ps (ModWrap i 4).toNat))
    (cube, temp)).1

/-- The swap used by `CubeFaceTurnDouble`: read `a`, write it to `b`
saving the old `b`, write that to `a`. -/
def swapStep (cube : Cube) (ac a bc b : Nat) : Cube :=
  let temp := FaceGetTile (cube ac) a
  let r := FaceSetTile (cube bc) temp b
  let cube := writeIdx cube bc r.2
  let r2 := FaceSetTile (cube ac) r.1 a
  writeIdx cube ac r2.2

/-- The double-turn loop of `CubeFaceTurnDouble`: two disjoint swaps
between entries `i` and `i+2`. -/
def cycleDouble (cube : Cube) (cs ps : Nat → Nat) : Cube :=
  [0, 1].foldl (fun cube i => swapStep cube (cs i) (ps i) (cs (i + 2)) (ps (i + 2))) cube

/-- `CubeFaceTurnClockwise` (cube.c): rotate the two 4-cycles of the
face itself, then the three side rings. -/
def CubeFaceTurnClockwise (cube : Cube) (face_colour : Nat) : Cube :=
  let cube := [0, 1].foldl (fun cube j =>
    cycleCW cube (fun _ => face_colour) (CUBE_FACE_ROTATION_TABLE j)) cube
  [0, 1, 2].foldl (fun cube j =>
    cycleCW cube (CUBE_SIDE_COLOUR_TABLE face_colour)
      (CUBE_SIDE_ROTATION_TABLE face_colour j)) cube

/-- `CubeFaceTurnAntiClockwise` (cube.c). -/
def CubeFaceTurnAntiClockwise (cube : Cube) (face_colour : Nat) : Cube :=
  let cube := [0, 1].foldl (fun cube j =>
    cycleCCW cube (fun _ => face_colour) (CUBE_FACE_ROTATION_TABLE j)) cube
  [0, 1, 2].foldl (fun cube j =>
    cycleCCW cube (CUBE_SIDE_COLOUR_TABLE face_colour)
      (CUBE_SIDE_ROTATION_TABLE face_colour j)) cube

/-- `CubeFaceTurnDouble` (cube.c). -/
def CubeFaceTurnDouble (cube : Cube) (face_colour : Nat) : Cube :=
  let cube := [0, 1].foldl (fun cube j =>
    cycleDouble cube (fun _ => face_colour) (CUBE_FACE_ROTATION_TABLE j)) cube
  [0, 1, 2].foldl (fun cube j =>
    cycleDouble cube (CUBE_SIDE_COLOUR_TABLE face_colour)
      (CUBE_SIDE_ROTATION_TABLE face_colour j)) cube

/-- `CubeTurn` (cube.c): dispatch on the turn type. -/
def CubeTurn (cube : Cube) (turn : Nat) : Cube :=
  if turn < 6 then CubeFaceTurnClockwise cube turn
  else if turn < 12 then CubeFaceTurnAntiClockwise cube (turn - TURN_FRONT_PRIME)
  else CubeFaceTurnDouble cube (turn - TURN_FRONT_DOUBLE)

/-- `CubeSetSolved` (cube.c): paint every face its own colour. -/
def CubeSetSolved (cube : Cube) : Cube :=
  (List.range 6).foldl (fun cube colour =>
    (List.range 8).foldl (fun cube position =>
      writeIdx cube colour (FaceSetTile (cube colour) colour position).2) cube) cube

/-- A cube freshly allocated by `CubeInit` (arena memory is zeroed) and
painted by `CubeSetSolved`. -/
def solvedCube : Cube := CubeSetSolved (fun _ => 0)

/-- One tile write `temp = FaceSetTile(&cube->faces[c], v, p)`, keeping
only the cube (the returned old colour is `FaceGetTile (cube c) p`). -/
def cwStep (cube : Cube) (c p v : Nat) : Cube :=
  writeIdx cube c (FaceSetTile (cube c) v p).2

/-- The slot that a clockwise 4-cycle pulls its new value from. -/
def cycSrc (cs ps : Nat → Nat) (g q : Nat) : Nat × Nat :=
  if g = cs 1 ∧ q = ps 1 then (cs 0, ps 0)
  else if g = cs 2 ∧ q = ps 2 then (cs 1, ps 1)
  else if g = cs 3 ∧ q = ps 3 then (cs 2, ps 2)
  else if g = cs 0 ∧ q = ps 0 then (cs 3, ps 3)
  else (g, q)

/-- `Agrees X F`: cube `X` reads tile `(a,b)` as `F a b` for all valid `b`. -/
def Agrees (X : Cube) (F : Nat → Nat → Nat) : Prop :=
  ∀ a b, b < 8 → FaceGetTile (X a) b = F a b

/-- The slot an anticlockwise 4-cycle pulls its new value from. -/
def cycSrcCCW (cs ps : Nat → Nat) (g q : Nat) : Nat × Nat :=
  if g = cs 0 ∧ q = ps 0 then (cs 1, ps 1)
  else if g = cs 1 ∧ q = ps 1 then (cs 2, ps 2)
  else if g = cs 2 ∧ q = ps 2 then (cs 3, ps 3)
  else if g = cs 3 ∧ q = ps 3 then (cs 0, ps 0)
  else (g, q)

/-- The slot a double turn (two disjoint swaps) pulls its new value from. -/
def cycSrcDouble (cs ps : Nat → Nat) (g q : Nat) : Nat × Nat :=
  if g = cs 0 ∧ q = ps 0 then (cs 2, ps 2)
  else if g = cs 2 ∧ q = ps 2 then (cs 0, ps 0)
  else if g = cs 1 ∧ q = ps 1 then (cs 3, ps 3)
  else if g = cs 3 ∧ q = ps 3 then (cs 1, ps 1)
  else (g, q)

/-- `T` reads every tile of its result from the slot given by `σ`. -/
def TurnChar (T : Cube → Cube) (σ : Nat → Nat → Nat × Nat) : Prop :=
  ∀ cube g q, q < 8 →
    FaceGetTile (T cube g) q = FaceGetTile (cube (σ g q).1) ((σ g q).2)

/-- `σ` keeps tile indices in range. -/
def SrcBounded (σ : Nat → Nat → Nat × Nat) : Prop :=
  ∀ g q, q < 8 → (σ g q).2 < 8

/-- Source map of a whole clockwise face turn. -/
def srcCW (f : Nat) (g q : Nat) : Nat × Nat :=
  let a := cycSrc (CUBE_SIDE_COLOUR_TABLE f) (CUBE_SIDE_ROTATION_TABLE f 2) g q
  let b := cycSrc (CUBE_SIDE_COLOUR_TABLE f) (CUBE_SIDE_ROTATION_TABLE f 1) a.1 a.2
  let c := cycSrc (CUBE_SIDE_COLOUR_TABLE f) (CUBE_SIDE_ROTATION_TABLE f 0) b.1 b.2
  let d := cycSrc (fun _ => f) (CUBE_FACE_ROTATION_TABLE 1) c.1 c.2
  cycSrc (fun _ => f) (CUBE_FACE_ROTATION_TABLE 0) d.1 d.2

/-- Source map of a whole anticlockwise face turn. -/
def srcCCW (f : Nat) (g q : Nat) : Nat × Nat :=
  let a := cycSrcCCW (CUBE_SIDE_COLOUR_TABLE f) (CUBE_SIDE_ROTATION_TABLE f 2) g q
  let b := cycSrcCCW (CUBE_SIDE_COLOUR_TABLE f) (CUBE_SIDE_ROTATION_TABLE f 1) a.1 a.2
  let c := cycSrcCCW (CUBE_SIDE_COLOUR_TABLE f) (CUBE_SIDE_ROTATION_TABLE f 0) b.1 b.2
  let d := cycSrcCCW (fun _ => f) (CUBE_FACE_ROTATION_TABLE 1) c.1 c.2
  cycSrcCCW (fun _ => f) (CUBE_FACE_ROTATION_TABLE 0) d.1 d.2

/-- Source map of a whole double face turn. -/
def srcDouble (f : Nat) (g q : Nat) : Nat × Nat :=
  let a := cycSrcDouble (CUBE_SIDE_COLOUR_TABLE f) (CUBE_SIDE_ROTATION_TABLE f 2) g q
  let b := cycSrcDouble (CUBE_SIDE_COLOUR_TABLE f) (CUBE_SIDE_ROTATION_TABLE f 1) a.1 a.2
  let c := cycSrcDouble (CUBE_SIDE_COLOUR_TABLE f) (CUBE_SIDE_ROTATION_TABLE f 0) b.1 b.2
  let d := cycSrcDouble (fun _ => f) (CUBE_FACE_ROTATION_TABLE 1) c.1 c.2
  cycSrcDouble (fun _ => f) (CUBE_FACE_ROTATION_TABLE 0) d.1 d.2

/-- The abstract FIFO contents of the ring buffer, head first. -/
def queueModel {α : Type} (q : TypedQueue α) : List α :=
  (List.range q.length).map (fun i => q.items ((q.head + i) % q.capacity))

/-- `Index2D` (core.c). -/
def Index2D (x y width _height : Nat) : Nat := y * width + x

/-- `CubeParityLookup` (cube.c): find the first `(i, j)` such that the
piece colours `temp` match row `i` of the table rotated by `j`; returns
the matched row and the rotation added to the running parity (row
`length` and rotation 0 when nothing matches). -/
def CubeParityLookup (table : Nat → Nat) (temp : Nat → Nat)
    (length count : Nat) : Nat × Nat :=
  (((List.range length).findSome? (fun i =>
    (List.range count).findSome? (fun j =>
      if (List.range count).all
          (fun k => table (Index2D ((k + j) % count) i count length) = temp k)
      then some (i, j) else none)))).getD (length, 0)

/-- One outer iteration of `CubePieceParity` plus the tail of the loop;
the first argument is the remaining iteration count `length - i`.
Returns the filled `pieces` array on success, `none` where the C code
returns false. -/
def pieceParityGo (cube : Cube) (ct pt : Nat → Nat) (length count : Nat) :
    Nat → Nat → Nat → Nat → (Nat → Nat) → Option (Nat → Nat)
  | 0, _, seen, parity, pieces =>
      if seen ≠ 0xFFFF then none
      else if parity % count ≠ 0 then none
      else some pieces
  | n + 1, i, seen, parity, pieces =>
      let temp : Nat → Nat := fun j =>
        FaceGetTile (cube (ct (Index2D j i count length)))
          (pt (Index2D j i count length))
      if (List.range count).any (fun j =>
          (List.range count).any (fun k =>
            decide (j < k) &&
              (decide (temp j = temp k)
               || decide ((temp j + 6 / 2) % 6 = temp k)))) then none
      else
        let r := CubeParityLookup ct temp length count
        let seen := seen ^^^ (1 <<< r.1)
        if seen &&& (1 <<< r.1) = 0 then none
        else pieceParityGo cube ct pt length count n (i + 1) seen
          (parity + r.2) (writeIdx pieces i r.1)

/-- `CubePieceParity` (cube.c). -/
def CubePieceParity (cube : Cube) (ct pt : Nat → Nat)
    (length count : Nat) : Option (Nat → Nat) :=
  pieceParityGo cube ct pt length count length 0
    ((0xFFFF <<< length) % 65536) 0 (fun _ => 0)

/-- The body of `CubePermutationParitySwaps` (cube.c) with explicit
fuel; one unit of fuel is one test of the inner `while`, so any fuel
above `count + 1 + count` more than covers a terminating run.  `none`
means the fuel ran out (the C loop would still be running); `some (-1)`
is the revisit abort; `some swaps` is normal termination. -/
def sweepGo (count : Nat) :
    Nat → (Nat → Nat) → Nat → Nat → Nat → Option Int
  | 0, _, _, _, _ => none
  | fuel + 1, pieces, seen, i, swaps =>
      if i < count then
        if pieces i ≠ i then
          if seen &&& (1 <<< i) ≠ 0 then some (-1)
          else
            let temp := pieces i
            let pieces2 := writeIdx (writeIdx pieces i (pieces temp)) temp temp
            sweepGo count fuel pieces2 (seen ||| (1 <<< temp)) i (swaps + 1)
        else sweepGo count fuel pieces seen (i + 1) swaps
      else some (swaps : Int)

/-- `CubePermutationParitySwaps` (cube.c).  The fuel `2*count + 2`
covers every terminating execution of the C loop (proved below for
permutation inputs; on inputs where the C loop would never terminate
this model returns `none`). -/
def CubePermutationParitySwaps (pieces : Nat → Nat) (count : Nat) : Option Int :=
  sweepGo count (2 * count + 2) pieces ((0xFFFF <<< count) % 65536) 0 0

/-- `CubeValid` (cube.c). -/
def CubeValid (cube : Cube) : Bool :=
  match CubePieceParity cube CUBE_EDGE_COLOUR_TABLE CUBE_EDGE_POSITION_TABLE 12 2 with
  | none => false
  | some edge_positions =>
    match CubePieceParity cube CUBE_CORNER_COLOUR_TABLE CUBE_CORNER_POSITION_TABLE 8 3 with
    | none => false
    | some corner_positions =>
      match CubePermutationParitySwaps edge_positions 12 with
      | none => false
      | some edge_swaps =>
        if edge_swaps < 0 then false
        else
          match CubePermutationParitySwaps corner_positions 8 with
          | none => false
          | some corner_swaps =>
            if corner_swaps < 0 then false
            else decide ((edge_swaps + corner_swaps) % 2 = 0)

/-- `CROSS_TURN_TABLE` (solve.c), verbatim. -/
def CROSS_TURN_TABLE : Nat → Nat → Nat := fun f i =>
  ([[2, 4, 8, 7], [1, 5, 9, 4], [0, 1, 2, 3],
    [0, 6, 10, 5], [3, 7, 11, 6], [8, 9, 10, 11]].getD f []).getD i 0

/-- `ConvertToCrossCube` (solve.c): scan the 12 edge slots, and for each
slot whose two tiles are (in either order) the colours of one of the four
white edges `j < 4`, pack `chunk = slot | (flip << 4)` into bits
`[5j, 5j+5)` of the state, where the flip bit is set iff the tile on the
first face of the slot is not white. -/
def ConvertToCrossCube (cube : Cube) : Nat :=
  (List.range 12).foldl (fun state i =>
    let current1 := FaceGetTile (cube (CUBE_EDGE_COLOUR_TABLE (i * 2)))
      (CUBE_EDGE_POSITION_TABLE (i * 2))
    let current2 := FaceGetTile (cube (CUBE_EDGE_COLOUR_TABLE (i * 2 + 1)))
      (CUBE_EDGE_POSITION_TABLE (i * 2 + 1))
    match (List.range 4).findSome? (fun j =>
      let target1 := CUBE_EDGE_COLOUR_TABLE (j * 2)
      let target2 := CUBE_EDGE_COLOUR_TABLE (j * 2 + 1)
      if (current1 = target1 ∧ current2 = target2)
          ∨ (current1 = target2 ∧ current2 = target1)
      then some j else none) with
    | none => state
    | some j =>
      let chunk := i ||| (if current1 ≠ 2 then 16 else 0)
      state ||| (chunk <<< (j * 5))) 0

/-- `TurnCrossCube` (solve.c): unpack the four 5-bit chunks into
position/orientation arrays, move every edge sitting on the turned
face's `CROSS_TURN_TABLE` cycle one (or two, or minus one) steps along
the cycle — toggling the flip bit for quarter turns of Green/Blue —
and repack. -/
def TurnCrossCube (state turn_type : Nat) : Nat :=
  let face := turn_type % 6
  let init : (Nat → Nat) × (Nat → Nat) × (Nat → Bool) :=
    (fun i => (state >>> (i * 5)) &&& 0xF,
     fun i => ((state >>> (i * 5)) &&& 0x1F) >>> 4,
     fun _ => false)
  let r := (List.range 4).foldl (fun acc i =>
    let target_pos := CROSS_TURN_TABLE face i
    (List.range 4).foldl
      (fun (acc2 : (Nat → Nat) × (Nat → Nat) × (Nat → Bool)) j =>
        let ep := acc2.1
        let eo := acc2.2.1
        let seen := acc2.2.2
        if seen j then acc2
        else if ep j ≠ target_pos then acc2
        else
          let eo2 := if turn_type < 12 ∧ (face = 0 ∨ face = 3)
            then writeIdx eo j (1 - eo j) else eo
          let newpos :=
            if turn_type < 6 then
              CROSS_TURN_TABLE face (ModWrap ((i : Int) + 1) 4).toNat
            else if turn_type < 12 then
              CROSS_TURN_TABLE face (ModWrap ((i : Int) - 1) 4).toNat
            else
              CROSS_TURN_TABLE face (ModWrap ((i : Int) + 2) 4).toNat
          (writeIdx ep j newpos, eo2, writeIdx seen j true)) acc) init
  (List.range 4).foldl (fun new_state i =>
    new_state ||| ((r.1 i ||| (r.2.1 i <<< 4)) <<< (i * 5))) 0

/-- `IsCrossSolved` (solve.c): the first four edge slots (the white
cross) each hold their own colours. -/
def IsCrossSolved (cube : Cube) : Bool :=
  (List.range 8).all (fun i =>
    FaceGetTile (cube (CUBE_EDGE_COLOUR_TABLE i)) (CUBE_EDGE_POSITION_TABLE i)
      == CUBE_EDGE_COLOUR_TABLE i)

/-- The cube half of `PerformTurn` together with the move-stack half
(solve.c): turn the face, append the move, tidy the log. -/
def PerformTurn (moves : MoveStack) (cube : Cube) (turn_type : Nat) :
    MoveStack × Cube :=
  let face := turn_type % 6
  let cube2 :=
    if turn_type < 6 then CubeFaceTurnClockwise cube face
    else if turn_type < 12 then CubeFaceTurnAntiClockwise cube face
    else CubeFaceTurnDouble cube face
  (appendAndTidy moves turn_type, cube2)

/-- The 18-child expansion inside the BFS loop of `CrossBFS` (solve.c):
`Sum.inl` carries the visited map at the early `return target_hash`,
`Sum.inr` the visited map and queue when all children were processed. -/
def crossBFSInner (current target : Nat) :
    List Nat → (Nat → Nat) → TypedQueue Nat →
    Sum (Nat → Nat) ((Nat → Nat) × TypedQueue Nat)
  | [], visited, queue => Sum.inr (visited, queue)
  | t :: ts, visited, queue =>
    let new_state := TurnCrossCube current t
    if visited new_state ≠ 0 then crossBFSInner current target ts visited queue
    else
      let queue2 := (TypedQueue.append queue new_state).1
      let visited2 := writeIdx visited new_state (current ||| (t <<< 20))
      if new_state = target then Sum.inl visited2
      else crossBFSInner current target ts visited2 queue2

/-- The `while (QueueU32_length(queue) > 0)` loop of `CrossBFS`
(solve.c); one unit of fuel per pop, `none` if the fuel runs out. -/
def crossBFSLoop (target : Nat) :
    Nat → (Nat → Nat) → TypedQueue Nat → Option (Nat × (Nat → Nat))
  | 0, visited, _ => some (UINT32_MAX, visited)
  | fuel + 1, visited, queue =>
    if TypedQueue.length queue > 0 then
      let r := TypedQueue.pop queue
      let current := r.2.getD 0
      match crossBFSInner current target (List.range 18) visited r.1 with
      | Sum.inl visited2 => some (target, visited2)
      | Sum.inr (visited2, queue3) => crossBFSLoop target fuel visited2 queue3
    else some (UINT32_MAX, visited)

/-- `CrossBFS` (solve.c): seed the queue and visited map with the start
state (parent = itself, turn = `TURN_TYPE_COUNT`) and search. -/
def CrossBFS (visited : Nat → Nat) (queue : TypedQueue Nat)
    (starting_state target_hash fuel : Nat) : Option (Nat × (Nat → Nat)) :=
  let queue2 := (TypedQueue.append queue starting_state).1
  let visited2 := writeIdx visited starting_state
    (starting_state ||| (TURN_TYPE_COUNT <<< 20))
  if starting_state = target_hash then some (target_hash, visited2)
  else crossBFSLoop target_hash fuel visited2 queue2

/-- The path-reconstruction loop of `SolveCross` (solve.c): walk at most
8 parent links back from the target, collecting the stored turn types;
`(pair << 12) >> 12` is 32-bit truncation of the shift, so the parent is
the low 20 bits of the stored pair. -/
def crossPathAux (visited : Nat → Nat) (start : Nat) :
    Nat → Nat → List Nat
  | 0, _ => []
  | n + 1, current =>
    if current = start then []
    else
      let pair := visited current
      (pair >>> 20) :: crossPathAux visited start n (((pair <<< 12) % 2 ^ 32) >>> 12)

/-- `SolveCross` (solve.c): BFS from the cube's cross state to the
solved cross state (arena memory is zeroed, the queue has capacity
`CROSS_EDGE_LEN = 95040`), reconstruct the path backwards from the
target, and perform it on the cube and move stack.  The BFS fuel
covers far more pops than distinct states exist; the `none` branch
models the non-terminating/assert-failing run and is never taken on
the inputs below. -/
def SolveCross (moves : MoveStack) (cube : Cube) : MoveStack × Cube :=
  let target := ConvertToCrossCube solvedCube
  let start := ConvertToCrossCube cube
  match CrossBFS (fun _ => 0) ⟨fun _ => 0, 0, 0, 95040⟩ start target 200000 with
  | none => (moves, cube)
  | some r =>
    let path := crossPathAux r.2 start 8 target
    path.reverse.foldl (fun mc t => PerformTurn mc.1 mc.2 t) (moves, cube)

/-- `p` restricted to `[0, n)` is a permutation: values stay in range
and are pairwise distinct. -/
def PermOn (p : Nat → Nat) (n : Nat) : Prop :=
  (∀ j, j < n → p j < n) ∧ ∀ j, j < n → ∀ k, k < n → p j = p k → j = k

instance (p : Nat → Nat) (n : Nat) : Decidable (PermOn p n) := by
  unfold PermOn; infer_instance

/-- The transposition of `a` and `b` as a function on `Nat`. -/
def swapFn (a b : Nat) : Nat → Nat := fun x =>
  if x = a then b else if x = b then a else x

/-- Apply a list of transpositions to `p` on the right, leftmost first:
`applySwapsR p [τ1, τ2] = p ∘ τ1 ∘ τ2`. -/
def applySwapsR (p : Nat → Nat) : List (Nat × Nat) → Nat → Nat
  | [] => p
  | ab :: l => applySwapsR (fun x => p (swapFn ab.1 ab.2 x)) l

/-- The number of non-fixed points of `p` below `n`. -/
def nonfixed (p : Nat → Nat) (n : Nat) : Nat :=
  ((Finset.range n).filter (fun j => p j ≠ j)).card

def tempOf (cube : Cube) (ct pt : Nat → Nat) (length count i : Nat) :
    Nat → Nat :=
  fun j => FaceGetTile (cube (ct (Index2D j i count length)))
    (pt (Index2D j i count length))

def dupB (temp : Nat → Nat) (count : Nat) : Bool :=
  (List.range count).any (fun j =>
    (List.range count).any (fun k =>
      decide (j < k) &&
        (decide (temp j = temp k)
         || decide ((temp j + 6 / 2) % 6 = temp k))))

def pinv (p : Nat → Nat) (n : Nat) (y : Nat) : Nat :=
  (((List.range n).find? (fun x => p x == y))).getD 0

/-- The computable inverse value of `pinv`, packaged with its defining
properties so that the `Equiv` below is self-contained. -/
def pinvF (p : Nat → Nat) (n : Nat) (h : PermOn p n) (y : Fin n) :
    { x : Fin n // p x.val = y.val } := by
  have hex : ∃ x, x < n ∧ p x = y.val := by
    have hmaps : ∀ a ∈ Finset.range n, p a ∈ Finset.range n := fun a ha =>
      Finset.mem_range.mpr (h.1 a (Finset.mem_range.mp ha))
    have hinj : ∀ a₁ ∈ Finset.range n, ∀ a₂ ∈ Finset.range n,
        p a₁ = p a₂ → a₁ = a₂ := fun a1 h1 a2 h2 he =>
      h.2 a1 (Finset.mem_range.mp h1) a2 (Finset.mem_range.mp h2) he
    have hsurj := Finset.surj_on_of_inj_on_of_card_le (s := Finset.range n)
      (t := Finset.range n) (f := fun a _ => p a) (fun a ha => hmaps a ha)
      (fun a1 a2 h1 h2 he => hinj a1 h1 a2 h2 he) (le_refl _)
    obtain ⟨x, hx, hxe⟩ := hsurj y.val (Finset.mem_range.mpr y.2)
    exact ⟨x, Finset.mem_range.mp hx, hxe.symm⟩
  have key : pinv p n y.val < n ∧ p (pinv p n y.val) = y.val := by
    obtain ⟨x, hx, hxe⟩ := hex
    rcases hfind : (List.range n).find? (fun z => p z == y.val) with _ | z
    · exfalso
      rw [List.find?_eq_none] at hfind
      exact absurd (by simpa using hxe)
        (by simpa using hfind x (List.mem_range.mpr hx))
    · have h1 := List.find?_some hfind
      have h2 := List.mem_of_find?_eq_some hfind
      unfold pinv
      rw [hfind]
      exact ⟨List.mem_range.mp h2, by simpa using h1⟩
  exact ⟨⟨pinv p n y.val, key.1⟩, key.2⟩

/-- A `PermOn` function as a permutation of `Fin n`. -/
def toPermFin (p : Nat → Nat) (n : Nat) (h : PermOn p n) :
    Equiv.Perm (Fin n) where
  toFun := fun x => ⟨p x, h.1 x x.2⟩
  invFun := fun y => (pinvF p n h y).1
  left_inv := by
    intro x
    apply Fin.ext
    have h2 := (pinvF p n h ⟨p x, h.1 x x.2⟩).2
    exact h.2 _ (pinvF p n h ⟨p x, h.1 x x.2⟩).1.2 _ x.2 h2
  right_inv := by
    intro y
    apply Fin.ext
    exact (pinvF p n h y).2

instance decPermOn (p : Nat → Nat) (n : Nat) : Decidable (PermOn p n) := by
  unfold PermOn; infer_instance

def srcTurn (t : Nat) : Nat → Nat → Nat × Nat :=
  if t < 6 then srcCW t else if t < 12 then srcCCW (t - 6) else srcDouble (t - 12)

/-- For each of the 18 turn types, the edge slot each slot reads its
piece from (computed from the turn engine's tile-source maps). -/
def EDGE_SLOT_SRC : Nat → Nat → Nat := fun t i =>
  ([[3, 0, 1, 2, 4, 5, 6, 7, 8, 9, 10, 11], [0, 5, 2, 3, 1, 11, 6, 7, 8, 9, 10, 4],
    [4, 1, 2, 3, 8, 5, 6, 0, 7, 9, 10, 11], [0, 1, 2, 3, 4, 5, 6, 7, 11, 8, 9, 10],
    [0, 1, 2, 7, 4, 5, 3, 9, 8, 6, 10, 11], [0, 1, 6, 3, 4, 2, 10, 7, 8, 9, 5, 11],
    [1, 2, 3, 0, 4, 5, 6, 7, 8, 9, 10, 11], [0, 4, 2, 3, 11, 1, 6, 7, 8, 9, 10, 5],
    [7, 1, 2, 3, 0, 5, 6, 8, 4, 9, 10, 11], [0, 1, 2, 3, 4, 5, 6, 7, 9, 10, 11, 8],
    [0, 1, 2, 6, 4, 5, 9, 3, 8, 7, 10, 11], [0, 1, 5, 3, 4, 10, 2, 7, 8, 9, 6, 11],
    [2, 3, 0, 1, 4, 5, 6, 7, 8, 9, 10, 11], [0, 11, 2, 3, 5, 4, 6, 7, 8, 9, 10, 1],
    [8, 1, 2, 3, 7, 5, 6, 4, 0, 9, 10, 11], [0, 1, 2, 3, 4, 5, 6, 7, 10, 11, 8, 9],
    [0, 1, 2, 9, 4, 5, 7, 6, 8, 3, 10, 11], [0, 1, 10, 3, 4, 6, 5, 7, 8, 9, 2, 11]].getD
    t []).getD i 0

/-- Tile-index rotation of the piece arriving in each edge slot. -/
def EDGE_SLOT_ROT : Nat → Nat → Nat := fun t i =>
  ([[0, 0, 0, 0, 0, 0, 0, 0, 0, 0, 0, 0], [0, 0, 0, 0, 1, 0, 0, 0, 0, 0, 0, 1],
    [0, 0, 0, 0, 0, 0, 0, 1, 1, 0, 0, 0], [0, 0, 0, 0, 0, 0, 0, 0, 0, 0, 0, 0],
    [0, 0, 0, 0, 0, 0, 1, 0, 0, 1, 0, 0], [0, 0, 0, 0, 0, 1, 0, 0, 0, 0, 1, 0],
    [0, 0, 0, 0, 0, 0, 0, 0, 0, 0, 0, 0], [0, 1, 0, 0, 1, 0, 0, 0, 0, 0, 0, 0],
    [1, 0, 0, 0, 0, 0, 0, 1, 0, 0, 0, 0], [0, 0, 0, 0, 0, 0, 0, 0, 0, 0, 0, 0],
    [0, 0, 0, 1, 0, 0, 1, 0, 0, 0, 0, 0], [0, 0, 1, 0, 0, 1, 0, 0, 0, 0, 0, 0],
    [0, 0, 0, 0, 0, 0, 0, 0, 0, 0, 0, 0], [0, 0, 0, 0, 1, 1, 0, 0, 0, 0, 0, 0],
    [0, 0, 0, 0, 1, 0, 0, 1, 0, 0, 0, 0], [0, 0, 0, 0, 0, 0, 0, 0, 0, 0, 0, 0],
    [0, 0, 0, 0, 0, 0, 1, 1, 0, 0, 0, 0], [0, 0, 0, 0, 0, 1, 1, 0, 0, 0, 0, 0]].getD
    t []).getD i 0

/-- Inverse of `EDGE_SLOT_SRC` per turn. -/
def EDGE_SLOT_SRC_INV : Nat → Nat → Nat := fun t i =>
  ([[1, 2, 3, 0, 4, 5, 6, 7, 8, 9, 10, 11], [0, 4, 2, 3, 11, 1, 6, 7, 8, 9, 10, 5],
    [7, 1, 2, 3, 0, 5, 6, 8, 4, 9, 10, 11], [0, 1, 2, 3, 4, 5, 6, 7, 9, 10, 11, 8],
    [0, 1, 2, 6, 4, 5, 9, 3, 8, 7, 10, 11], [0, 1, 5, 3, 4, 10, 2, 7, 8, 9, 6, 11],
    [3, 0, 1, 2, 4, 5, 6, 7, 8, 9, 10, 11], [0, 5, 2, 3, 1, 11, 6, 7, 8, 9, 10, 4],
    [4, 1, 2, 3, 8, 5, 6, 0, 7, 9, 10, 11], [0, 1, 2, 3, 4, 5, 6, 7, 11, 8, 9, 10],
    [0, 1, 2, 7, 4, 5, 3, 9, 8, 6, 10, 11], [0, 1, 6, 3, 4, 2, 10, 7, 8, 9, 5, 11],
    [2, 3, 0, 1, 4, 5, 6, 7, 8, 9, 10, 11], [0, 11, 2, 3, 5, 4, 6, 7, 8, 9, 10, 1],
    [8, 1, 2, 3, 7, 5, 6, 4, 0, 9, 10, 11], [0, 1, 2, 3, 4, 5, 6, 7, 10, 11, 8, 9],
    [0, 1, 2, 9, 4, 5, 7, 6, 8, 3, 10, 11], [0, 1, 10, 3, 4, 6, 5, 7, 8, 9, 2, 11]].getD
    t []).getD i 0

/-- For each turn type, the corner slot each slot reads its piece from. -/
def CORNER_SLOT_SRC : Nat → Nat → Nat := fun t i =>
  ([[3, 0, 1, 2, 4, 5, 6, 7], [0, 2, 7, 3, 1, 5, 6, 4], [1, 4, 2, 3, 5, 0, 6, 7],
    [0, 1, 2, 3, 7, 4, 5, 6], [5, 1, 2, 0, 4, 6, 3, 7], [0, 1, 3, 6, 4, 5, 7, 2],
    [1, 2, 3, 0, 4, 5, 6, 7], [0, 4, 1, 3, 7, 5, 6, 2], [5, 0, 2, 3, 1, 4, 6, 7],
    [0, 1, 2, 3, 5, 6, 7, 4], [3, 1, 2, 6, 4, 0, 5, 7], [0, 1, 7, 2, 4, 5, 3, 6],
    [2, 3, 0, 1, 4, 5, 6, 7], [0, 7, 4, 3, 2, 5, 6, 1], [4, 5, 2, 3, 0, 1, 6, 7],
    [0, 1, 2, 3, 6, 7, 4, 5], [6, 1, 2, 5, 4, 3, 0, 7], [0, 1, 6, 7, 4, 5, 2, 3]].getD
    t []).getD i 0

/-- Tile-index rotation (twist) of the piece arriving in each corner slot. -/
def CORNER_SLOT_ROT : Nat → Nat → Nat := fun t i =>
  ([[0, 0, 0, 0, 0, 0, 0, 0], [0, 2, 1, 0, 1, 0, 0, 2], [2, 1, 0, 0, 2, 1, 0, 0],
    [0, 0, 0, 0, 0, 0, 0, 0], [1, 0, 0, 2, 0, 2, 1, 0], [0, 0, 2, 1, 0, 0, 2, 1],
    [0, 0, 0, 0, 0, 0, 0, 0], [0, 2, 1, 0, 1, 0, 0, 2], [2, 1, 0, 0, 2, 1, 0, 0],
    [0, 0, 0, 0, 0, 0, 0, 0], [1, 0, 0, 2, 0, 2, 1, 0], [0, 0, 2, 1, 0, 0, 2, 1],
    [0, 0, 0, 0, 0, 0, 0, 0], [0, 0, 0, 0, 0, 0, 0, 0], [0, 0, 0, 0, 0, 0, 0, 0],
    [0, 0, 0, 0, 0, 0, 0, 0], [0, 0, 0, 0, 0, 0, 0, 0], [0, 0, 0, 0, 0, 0, 0, 0]].getD
    t []).getD i 0

/-- Inverse of `CORNER_SLOT_SRC` per turn. -/
def CORNER_SLOT_SRC_INV : Nat → Nat → Nat := fun t i =>
  ([[1, 2, 3, 0, 4, 5, 6, 7], [0, 4, 1, 3, 7, 5, 6, 2], [5, 0, 2, 3, 1, 4, 6, 7],
    [0, 1, 2, 3, 5, 6, 7, 4], [3, 1, 2, 6, 4, 0, 5, 7], [0, 1, 7, 2, 4, 5, 3, 6],
    [3, 0, 1, 2, 4, 5, 6, 7], [0, 2, 7, 3, 1, 5, 6, 4], [1, 4, 2, 3, 5, 0, 6, 7],
    [0, 1, 2, 3, 7, 4, 5, 6], [5, 1, 2, 0, 4, 6, 3, 7], [0, 1, 3, 6, 4, 5, 7, 2],
    [2, 3, 0, 1, 4, 5, 6, 7], [0, 7, 4, 3, 2, 5, 6, 1], [4, 5, 2, 3, 0, 1, 6, 7],
    [0, 1, 2, 3, 6, 7, 4, 5], [6, 1, 2, 5, 4, 3, 0, 7], [0, 1, 6, 7, 4, 5, 2, 3]].getD
    t []).getD i 0

/-- The per-turn slot permutations have an even combined swap parity
(evaluated through the sweep itself). -/
def sweepPairParityOK (t : Nat) : Bool :=
  match CubePermutationParitySwaps (EDGE_SLOT_SRC t) 12,
      CubePermutationParitySwaps (CORNER_SLOT_SRC t) 8 with
  | some a, some b => decide ((a + b) % 2 = 0)
  | _, _ => false

/-! ## Theorems -/

theorem FaceGetTile_eq_div_mod (face position : Nat) :
    FaceGetTile face position = face / 2 ^ (4 * position) % 16 := by
  unfold FaceGetTile BITMASK_TILE
  show (face &&& (15 <<< (position <<< 2))) >>> (position <<< 2) = _
  have h2 : position <<< 2 = 4 * position := by
    rw [Nat.shiftLeft_eq]; ring
  apply Nat.eq_of_testBit_eq
  intro i
  rw [Nat.testBit_shiftRight, Nat.testBit_and, Nat.testBit_shiftLeft]
  have h15 : (15 : Nat) = 2 ^ 4 - 1 := by norm_num
  rw [h15, Nat.testBit_two_pow_sub_one]
  rcases Nat.lt_or_ge i 4 with hi | hi
  · have : position <<< 2 + i - position <<< 2 = i := by omega
    rw [this]
    have hmod : (face / 2 ^ (4 * position) % 16).testBit i
        = (face / 2 ^ (4 * position)).testBit i := by
      have : (16 : Nat) = 2 ^ 4 := by norm_num
      rw [this, Nat.testBit_mod_two_pow, decide_eq_true hi, Bool.true_and]
    rw [hmod]
    have hdiv : (face / 2 ^ (4 * position)).testBit i = face.testBit (4 * position + i) := by
      rw [← Nat.testBit_shiftRight, Nat.shiftRight_eq_div_pow]
    rw [hdiv, h2]
    simp [Nat.le_add_right, hi]
  · have hge : ¬ (position <<< 2 + i - position <<< 2 < 4) := by omega
    simp only [decide_eq_false hge, Bool.and_false, Bool.false_and]
    have : (face / 2 ^ (4 * position) % 16).testBit i = false := by
      apply Nat.testBit_lt_two_pow
      calc face / 2 ^ (4 * position) % 16 < 16 := Nat.mod_lt _ (by norm_num)
        _ ≤ 2 ^ i := by
            calc (16:Nat) = 2 ^ 4 := by norm_num
              _ ≤ 2 ^ i := Nat.pow_le_pow_right (by norm_num) hi
    rw [this]

theorem FaceGetTile_lt_16 (face position : Nat) : FaceGetTile face position < 16 := by
  rw [FaceGetTile_eq_div_mod]; exact Nat.mod_lt _ (by norm_num)

theorem FaceSetTile_fst (face colour position : Nat) :
    (FaceSetTile face colour position).1 = FaceGetTile face position := rfl

theorem FaceGetTile_testBit (face position i : Nat) :
    (FaceGetTile face position).testBit i
      = (face.testBit (4 * position + i) && decide (i < 4)) := by
  unfold FaceGetTile BITMASK_TILE
  show ((face &&& (15 <<< (position <<< 2))) >>> (position <<< 2)).testBit i = _
  have h2 : position <<< 2 = 4 * position := by rw [Nat.shiftLeft_eq]; ring
  rw [Nat.testBit_shiftRight, Nat.testBit_and, Nat.testBit_shiftLeft]
  have h15 : (15 : Nat) = 2 ^ 4 - 1 := by norm_num
  rw [h15, Nat.testBit_two_pow_sub_one, h2]
  have ha : 4 * position + i - 4 * position = i := by omega
  have hb : (4 * position + i ≥ 4 * position) := by omega
  rw [ha, decide_eq_true hb, Bool.true_and]

theorem FaceSetTile_testBit (face colour position k : Nat) :
    ((FaceSetTile face colour position).2).testBit k
      = ((face.testBit k && (decide (k < 32)).xor (decide (4 * position ≤ k) && decide (k - 4 * position < 4)))
         || (decide (4 * position ≤ k) && colour.testBit (k - 4 * position))) := by
  unfold FaceSetTile BITMASK_TILE UINT32_MAX
  show ((face &&& ((2 ^ 32 - 1 : Nat) ^^^ (15 <<< (position <<< 2)))) ||| (colour <<< (position <<< 2))).testBit k = _
  have h2 : position <<< 2 = 4 * position := by rw [Nat.shiftLeft_eq]; ring
  have h15 : (15 : Nat) = 2 ^ 4 - 1 := by norm_num
  rw [Nat.testBit_or, Nat.testBit_and, Nat.testBit_xor, Nat.testBit_shiftLeft,
    Nat.testBit_shiftLeft, h15, Nat.testBit_two_pow_sub_one,
    Nat.testBit_two_pow_sub_one, h2]

theorem FaceSetTile_get_same (face colour position : Nat)
    (hp : position < 8) (hc : colour < 16) :
    FaceGetTile (FaceSetTile face colour position).2 position = colour := by
  apply Nat.eq_of_testBit_eq
  intro i
  rw [FaceGetTile_testBit, FaceSetTile_testBit]
  rcases Nat.lt_or_ge i 4 with hi | hi
  · have e1 : (4 * position + i < 32) := by omega
    have e2 : (4 * position ≤ 4 * position + i) := by omega
    have e3 : (4 * position + i - 4 * position < 4) := by omega
    have e4 : 4 * position + i - 4 * position = i := by omega
    simp [e1, e2, e3, e4, hi]
  · have e1 : ¬ (i < 4) := by omega
    have e2 : colour.testBit i = false := by
      apply Nat.testBit_lt_two_pow
      calc colour < 16 := hc
        _ ≤ 2 ^ i := by
          calc (16:Nat) = 2 ^ 4 := by norm_num
            _ ≤ 2 ^ i := Nat.pow_le_pow_right (by norm_num) hi
    simp [e1, e2]

theorem FaceSetTile_get_ne (face colour position q : Nat)
    (hc : colour < 16) (hq : q < 8) (hne : q ≠ position) :
    FaceGetTile (FaceSetTile face colour position).2 q = FaceGetTile face q := by
  apply Nat.eq_of_testBit_eq
  intro i
  rw [FaceGetTile_testBit, FaceGetTile_testBit, FaceSetTile_testBit]
  rcases Nat.lt_or_ge i 4 with hi | hi
  · have e1 : (4 * q + i < 32) := by omega
    rcases Nat.lt_or_ge q position with hqp | hqp
    · have e2 : ¬ (4 * position ≤ 4 * q + i) := by omega
      simp [e1, e2]
    · have hgt : position < q := by omega
      have e2 : (4 * position ≤ 4 * q + i) := by omega
      have e3 : ¬ (4 * q + i - 4 * position < 4) := by omega
      have e4 : colour.testBit (4 * q + i - 4 * position) = false := by
        apply Nat.testBit_lt_two_pow
        have h4 : 4 ≤ 4 * q + i - 4 * position := by omega
        calc colour < 16 := hc
          _ ≤ 2 ^ (4 * q + i - 4 * position) := by
            calc (16:Nat) = 2 ^ 4 := by norm_num
              _ ≤ _ := Nat.pow_le_pow_right (by norm_num) h4
      simp [e1, e2, e3, e4]
  · have e1 : ¬ (i < 4) := by omega
    simp [e1]

theorem FaceSetTile_lt (face colour position : Nat)
    (hf : face < 2 ^ 32) (hc : colour < 16) (hp : position < 8) :
    (FaceSetTile face colour position).2 < 2 ^ 32 := by
  apply Nat.lt_pow_two_of_testBit
  intro i hi
  rw [FaceSetTile_testBit]
  have e1 : face.testBit i = false := by
    apply Nat.testBit_lt_two_pow
    calc face < 2 ^ 32 := hf
      _ ≤ 2 ^ i := Nat.pow_le_pow_right (by norm_num) hi
  have e2 : colour.testBit (i - 4 * position) = false := by
    apply Nat.testBit_lt_two_pow
    have h4 : 4 ≤ i - 4 * position := by omega
    calc colour < 16 := hc
      _ ≤ 2 ^ (i - 4 * position) := by
        calc (16:Nat) = 2 ^ 4 := by norm_num
          _ ≤ _ := Nat.pow_le_pow_right (by norm_num) h4
  simp [e1, e2]

theorem FaceWord_ext (f g : Nat) (hf : f < 2 ^ 32) (hg : g < 2 ^ 32)
    (h : ∀ q < 8, FaceGetTile f q = FaceGetTile g q) : f = g := by
  apply Nat.eq_of_testBit_eq
  intro k
  rcases Nat.lt_or_ge k 32 with hk | hk
  · have hq : k / 4 < 8 := by omega
    have hi : k % 4 < 4 := Nat.mod_lt _ (by norm_num)
    have hsplit : 4 * (k / 4) + k % 4 = k := by omega
    have hone : f.testBit k = (FaceGetTile f (k / 4)).testBit (k % 4) := by
      rw [FaceGetTile_testBit, hsplit, decide_eq_true hi, Bool.and_true]
    have htwo : g.testBit k = (FaceGetTile g (k / 4)).testBit (k % 4) := by
      rw [FaceGetTile_testBit, hsplit, decide_eq_true hi, Bool.and_true]
    rw [hone, htwo, h _ hq]
  · have e1 : f.testBit k = false := by
      apply Nat.testBit_lt_two_pow
      calc f < 2 ^ 32 := hf
        _ ≤ 2 ^ k := Nat.pow_le_pow_right (by norm_num) hk
    have e2 : g.testBit k = false := by
      apply Nat.testBit_lt_two_pow
      calc g < 2 ^ 32 := hg
        _ ≤ 2 ^ k := Nat.pow_le_pow_right (by norm_num) hk
    rw [e1, e2]

theorem writeIdx_same {α : Type} (f : Nat → α) (i : Nat) (v : α) :
    writeIdx f i v i = v := by simp [writeIdx]

theorem writeIdx_ne {α : Type} (f : Nat → α) (i : Nat) (v : α) (j : Nat)
    (h : j ≠ i) : writeIdx f i v j = f j := by simp [writeIdx, h]

/-- C7: for every 32-bit face word, position in [0,8) and colour in
[0,6), `FaceSetTile` returns the 4-bit nibble previously stored at bit
offset `position*4`, after which `FaceGetTile` at that position returns
the new colour and the nibbles at all other positions are unchanged. -/
theorem C7_face_tile_codec (face colour position : Nat)
    (_hface : face < 2 ^ 32) (hc : colour < 6) (hp : position < 8) :
    (FaceSetTile face colour position).1 = face / 2 ^ (position * 4) % 16
    ∧ FaceGetTile (FaceSetTile face colour position).2 position = colour
    ∧ ∀ q, q < 8 → q ≠ position →
        FaceGetTile (FaceSetTile face colour position).2 q = FaceGetTile face q := by
  refine ⟨?_, ?_, ?_⟩
  · rw [FaceSetTile_fst, FaceGetTile_eq_div_mod, Nat.mul_comm]
  · exact FaceSetTile_get_same face colour position hp (by omega)
  · intro q hq hne
    exact FaceSetTile_get_ne face colour position q (by omega) hq hne

/-- Witness for C7 at the concrete word `0x00ABCDEF`, colour 3, position 2. -/
theorem C7_face_tile_codec_witness :
    (FaceSetTile 0x00ABCDEF 3 2).1 = 0x00ABCDEF / 2 ^ (2 * 4) % 16
    ∧ FaceGetTile (FaceSetTile 0x00ABCDEF 3 2).2 2 = 3
    ∧ ∀ q, q < 8 → q ≠ 2 →
        FaceGetTile (FaceSetTile 0x00ABCDEF 3 2).2 q = FaceGetTile 0x00ABCDEF q :=
  C7_face_tile_codec 0x00ABCDEF 3 2 (by norm_num) (by norm_num) (by norm_num)

/-- C8: `SolveOLL` and `SolvePLL` are no-ops: for every cube state and
move stack both return with the cube and the move log unchanged (the C
functions print and `return` before their dead sanity asserts, so
neither can fail). -/
theorem C8_oll_pll_noop (moves : MoveStack) (cube : Cube) :
    SolveOLL moves cube = (moves, cube) ∧ SolvePLL moves cube = (moves, cube) :=
  ⟨rfl, rfl⟩

/-- C6 (code bug): on the empty stack of capacity 2 with zeroed backing
memory, `append 5` succeeds, and the immediately following `pop`
succeeds and restores the length, but it stores 0, not 5, into the out
parameter: `*item = stack->items[stack->head--]` reads the slot one past
the top (post-decrement) instead of the top. -/
theorem C6_pop_wrong_element :
    (((⟨fun _ => 0, 0, 2⟩ : TypedStack Nat).append 5).2 = true)
    ∧ ((((⟨fun _ => 0, 0, 2⟩ : TypedStack Nat).append 5).1.pop).1.length = 0)
    ∧ ((((⟨fun _ => 0, 0, 2⟩ : TypedStack Nat).append 5).1.pop).2 = some 0) := by
  decide

/-- C5 (code bug): on a fresh zero-initialised move stack, appending F2
then F2 (each append followed by the tidy pass, as in `PerformTurn`)
leaves the stack holding the single move F' instead of collapsing to
nothing: the buggy `pop` feeds the tidy combination a stale array slot
(value 0 = clockwise F) in place of the most recent move. -/
theorem C5_tidy_miscombines :
    ((appendAndTidy (appendAndTidy ⟨fun _ => 0, 0, 300⟩ TURN_FRONT_DOUBLE)
        TURN_FRONT_DOUBLE).length = 1)
    ∧ ((appendAndTidy (appendAndTidy ⟨fun _ => 0, 0, 300⟩ TURN_FRONT_DOUBLE)
        TURN_FRONT_DOUBLE).get 0 = TURN_FRONT_PRIME) := by
  decide

theorem cycleStep_eq (cube : Cube) (t c p : Nat) :
    cycleStep (cube, t) c p = (cwStep cube c p t, FaceGetTile (cube c) p) := rfl

theorem get_cwStep (cube : Cube) (c p v : Nat) (hv : v < 16) (hp : p < 8)
    (g q : Nat) (hq : q < 8) :
    FaceGetTile (cwStep cube c p v g) q
      = if g = c ∧ q = p then v else FaceGetTile (cube g) q := by
  unfold cwStep
  by_cases hgc : g = c
  · subst hgc
    rw [writeIdx_same]
    by_cases hqp : q = p
    · subst hqp
      rw [FaceSetTile_get_same _ _ _ hp hv]
      simp
    · rw [FaceSetTile_get_ne _ _ _ _ hv hq hqp]
      simp [hqp]
  · rw [writeIdx_ne _ _ _ _ hgc]
    simp [hgc]

theorem cwStep_word_ne (cube : Cube) (c p v g : Nat) (h : g ≠ c) :
    cwStep cube c p v g = cube g := writeIdx_ne _ _ _ _ h

theorem cwStep_bound (cube : Cube) (c p v : Nat)
    (hb : ∀ x, x < 6 → cube x < 2 ^ 32) (hc : c < 6) (hv : v < 16) (hp : p < 8) :
    ∀ x, x < 6 → cwStep cube c p v x < 2 ^ 32 := by
  intro x hx
  unfold cwStep writeIdx
  by_cases hxc : x = c
  · simp only [hxc, if_pos rfl]
    exact FaceSetTile_lt _ _ _ (hb c hc) hv hp
  · simp only [if_neg hxc]
    exact hb x hx

theorem cycleCW_unfold (cube : Cube) (cs ps : Nat → Nat) :
    cycleCW cube cs ps =
      cwStep
        (cwStep
          (cwStep
            (cwStep cube (cs 1) (ps 1) (FaceGetTile (cube (cs 0)) (ps 0)))
            (cs 2) (ps 2) (FaceGetTile (cube (cs 1)) (ps 1)))
          (cs 3) (ps 3)
          (FaceGetTile
            ((cwStep cube (cs 1) (ps 1) (FaceGetTile (cube (cs 0)) (ps 0))) (cs 2))
            (ps 2)))
        (cs 0) (ps 0)
        (FaceGetTile
          ((cwStep
            (cwStep cube (cs 1) (ps 1) (FaceGetTile (cube (cs 0)) (ps 0)))
            (cs 2) (ps 2) (FaceGetTile (cube (cs 1)) (ps 1))) (cs 3))
          (ps 3)) := rfl

theorem getTile_cycleCW (cube : Cube) (cs ps : Nat → Nat)
    (hp0 : ps 0 < 8) (hp1 : ps 1 < 8) (hp2 : ps 2 < 8) (hp3 : ps 3 < 8)
    (d10 : ¬(cs 1 = cs 0 ∧ ps 1 = ps 0)) (d20 : ¬(cs 2 = cs 0 ∧ ps 2 = ps 0))
    (d30 : ¬(cs 3 = cs 0 ∧ ps 3 = ps 0)) (d21 : ¬(cs 2 = cs 1 ∧ ps 2 = ps 1))
    (d31 : ¬(cs 3 = cs 1 ∧ ps 3 = ps 1)) (d32 : ¬(cs 3 = cs 2 ∧ ps 3 = ps 2))
    (g q : Nat) (hq : q < 8) :
    FaceGetTile (cycleCW cube cs ps g) q
      = FaceGetTile (cube (cycSrc cs ps g q).1) ((cycSrc cs ps g q).2) := by
  rw [cycleCW_unfold]
  have W1 : ∀ a b, b < 8 →
      FaceGetTile ((cwStep cube (cs 1) (ps 1) (FaceGetTile (cube (cs 0)) (ps 0))) a) b
        = if a = cs 1 ∧ b = ps 1 then FaceGetTile (cube (cs 0)) (ps 0)
          else FaceGetTile (cube a) b :=
    fun a b hb => get_cwStep _ _ _ _ (FaceGetTile_lt_16 _ _) hp1 a b hb
  have W2 : ∀ a b, b < 8 →
      FaceGetTile ((cwStep
          (cwStep cube (cs 1) (ps 1) (FaceGetTile (cube (cs 0)) (ps 0)))
          (cs 2) (ps 2) (FaceGetTile (cube (cs 1)) (ps 1))) a) b
        = if a = cs 2 ∧ b = ps 2 then FaceGetTile (cube (cs 1)) (ps 1)
          else FaceGetTile
            ((cwStep cube (cs 1) (ps 1) (FaceGetTile (cube (cs 0)) (ps 0))) a) b :=
    fun a b hb => get_cwStep _ _ _ _ (FaceGetTile_lt_16 _ _) hp2 a b hb
  have W3 : ∀ a b, b < 8 →
      FaceGetTile ((cwStep
          (cwStep
            (cwStep cube (cs 1) (ps 1) (FaceGetTile (cube (cs 0)) (ps 0)))
            (cs 2) (ps 2) (FaceGetTile (cube (cs 1)) (ps 1)))
          (cs 3) (ps 3)
          (FaceGetTile
            ((cwStep cube (cs 1) (ps 1) (FaceGetTile (cube (cs 0)) (ps 0))) (cs 2))
            (ps 2))) a) b
        = if a = cs 3 ∧ b = ps 3 then
            FaceGetTile
              ((cwStep cube (cs 1) (ps 1) (FaceGetTile (cube (cs 0)) (ps 0))) (cs 2))
              (ps 2)
          else FaceGetTile ((cwStep
            (cwStep cube (cs 1) (ps 1) (FaceGetTile (cube (cs 0)) (ps 0)))
            (cs 2) (ps 2) (FaceGetTile (cube (cs 1)) (ps 1))) a) b :=
    fun a b hb => get_cwStep _ _ _ _ (FaceGetTile_lt_16 _ _) hp3 a b hb
  rw [get_cwStep _ _ _ _ (FaceGetTile_lt_16 _ _) hp0 g q hq]
  rw [W3 g q hq, W2 g q hq, W1 g q hq]
  rw [W2 (cs 3) (ps 3) hp3, W1 (cs 3) (ps 3) hp3, W1 (cs 2) (ps 2) hp2]
  simp only [if_neg d32, if_neg d31, if_neg d21]
  unfold cycSrc
  have d01 : ¬(cs 0 = cs 1 ∧ ps 0 = ps 1) := fun h => d10 ⟨h.1.symm, h.2.symm⟩
  have d02 : ¬(cs 0 = cs 2 ∧ ps 0 = ps 2) := fun h => d20 ⟨h.1.symm, h.2.symm⟩
  have d03 : ¬(cs 0 = cs 3 ∧ ps 0 = ps 3) := fun h => d30 ⟨h.1.symm, h.2.symm⟩
  have d12 : ¬(cs 1 = cs 2 ∧ ps 1 = ps 2) := fun h => d21 ⟨h.1.symm, h.2.symm⟩
  have d13 : ¬(cs 1 = cs 3 ∧ ps 1 = ps 3) := fun h => d31 ⟨h.1.symm, h.2.symm⟩
  have d23 : ¬(cs 2 = cs 3 ∧ ps 2 = ps 3) := fun h => d32 ⟨h.1.symm, h.2.symm⟩
  by_cases h1 : g = cs 1 ∧ q = ps 1
  · simp [h1, d10, d12, d13, d01, d21, d31]
  · by_cases h2 : g = cs 2 ∧ q = ps 2
    · simp [h1, h2, d20, d21, d23, d02, d12, d32]
    · by_cases h3 : g = cs 3 ∧ q = ps 3
      · simp [h1, h2, h3, d30, d31, d32, d03, d13, d23]
      · by_cases h0 : g = cs 0 ∧ q = ps 0
        · simp [h1, h2, h3, h0, d01, d02, d03, d10, d20, d30]
        · simp [h1, h2, h3, h0]

theorem Agrees.refl (X : Cube) : Agrees X (fun a b => FaceGetTile (X a) b) :=
  fun _ _ _ => rfl

theorem Agrees.step {X : Cube} {F : Nat → Nat → Nat} (h : Agrees X F)
    (c p v : Nat) (hv : v < 16) (hp : p < 8) :
    Agrees (cwStep X c p v) (fun a b => if a = c ∧ b = p then v else F a b) := by
  intro a b hb
  rw [get_cwStep _ _ _ _ hv hp a b hb]
  by_cases hc : a = c ∧ b = p
  · simp [hc]
  · simp only [if_neg hc]
    exact h a b hb

theorem Agrees.congr {X : Cube} {F G : Nat → Nat → Nat} (h : Agrees X F)
    (hFG : ∀ a b, b < 8 → F a b = G a b) : Agrees X G :=
  fun a b hb => (h a b hb).trans (hFG a b hb)

theorem cycleCCW_unfold (cube : Cube) (cs ps : Nat → Nat) :
    cycleCCW cube cs ps =
      (let t0 := FaceGetTile (cube (cs 0)) (ps 0)
       let D1 := cwStep cube (cs 0) (ps 0) t0
       let D2 := cwStep D1 (cs 3) (ps 3) t0
       let D3 := cwStep D2 (cs 2) (ps 2) (FaceGetTile (D1 (cs 3)) (ps 3))
       let D4 := cwStep D3 (cs 1) (ps 1) (FaceGetTile (D2 (cs 2)) (ps 2))
       cwStep D4 (cs 0) (ps 0) (FaceGetTile (D3 (cs 1)) (ps 1))) := rfl

theorem swapStep_unfold (cube : Cube) (ac a bc b : Nat) :
    swapStep cube ac a bc b =
      cwStep (cwStep cube bc b (FaceGetTile (cube ac) a)) ac a
        (FaceGetTile (cube bc) b) := rfl

theorem cycleDouble_unfold (cube : Cube) (cs ps : Nat → Nat) :
    cycleDouble cube cs ps =
      swapStep (swapStep cube (cs 0) (ps 0) (cs 2) (ps 2)) (cs 1) (ps 1)
        (cs 3) (ps 3) := rfl

theorem getTile_cycleCCW (cube : Cube) (cs ps : Nat → Nat)
    (hp0 : ps 0 < 8) (hp1 : ps 1 < 8) (hp2 : ps 2 < 8) (hp3 : ps 3 < 8)
    (d10 : ¬(cs 1 = cs 0 ∧ ps 1 = ps 0)) (d20 : ¬(cs 2 = cs 0 ∧ ps 2 = ps 0))
    (d30 : ¬(cs 3 = cs 0 ∧ ps 3 = ps 0)) (d21 : ¬(cs 2 = cs 1 ∧ ps 2 = ps 1))
    (d31 : ¬(cs 3 = cs 1 ∧ ps 3 = ps 1)) (d32 : ¬(cs 3 = cs 2 ∧ ps 3 = ps 2))
    (g q : Nat) (hq : q < 8) :
    FaceGetTile (cycleCCW cube cs ps g) q
      = FaceGetTile (cube (cycSrcCCW cs ps g q).1) ((cycSrcCCW cs ps g q).2) := by
  have d01 : ¬(cs 0 = cs 1 ∧ ps 0 = ps 1) := fun h => d10 ⟨h.1.symm, h.2.symm⟩
  have d02 : ¬(cs 0 = cs 2 ∧ ps 0 = ps 2) := fun h => d20 ⟨h.1.symm, h.2.symm⟩
  have d03 : ¬(cs 0 = cs 3 ∧ ps 0 = ps 3) := fun h => d30 ⟨h.1.symm, h.2.symm⟩
  have d12 : ¬(cs 1 = cs 2 ∧ ps 1 = ps 2) := fun h => d21 ⟨h.1.symm, h.2.symm⟩
  have d13 : ¬(cs 1 = cs 3 ∧ ps 1 = ps 3) := fun h => d31 ⟨h.1.symm, h.2.symm⟩
  have d23 : ¬(cs 2 = cs 3 ∧ ps 2 = ps 3) := fun h => d32 ⟨h.1.symm, h.2.symm⟩
  rw [cycleCCW_unfold]
  dsimp only
  set t0 := FaceGetTile (cube (cs 0)) (ps 0) with ht0
  set D1 := cwStep cube (cs 0) (ps 0) t0 with hD1
  set D2 := cwStep D1 (cs 3) (ps 3) t0 with hD2
  set D3 := cwStep D2 (cs 2) (ps 2) (FaceGetTile (D1 (cs 3)) (ps 3)) with hD3
  set D4 := cwStep D3 (cs 1) (ps 1) (FaceGetTile (D2 (cs 2)) (ps 2)) with hD4
  have A1 : Agrees D1 (fun a b => FaceGetTile (cube a) b) := by
    rw [hD1]
    refine ((Agrees.refl cube).step (cs 0) (ps 0) t0
      (ht0 ▸ FaceGetTile_lt_16 _ _) hp0).congr ?_
    intro a b _
    by_cases h : a = cs 0 ∧ b = ps 0
    · simp [ht0, h.1, h.2]
    · simp only [if_neg h]
  have A2 : Agrees D2 (fun a b =>
      if a = cs 3 ∧ b = ps 3 then t0 else FaceGetTile (cube a) b) := by
    rw [hD2]
    exact A1.step (cs 3) (ps 3) t0 (ht0 ▸ FaceGetTile_lt_16 _ _) hp3
  have A3 : Agrees D3 (fun a b =>
      if a = cs 2 ∧ b = ps 2 then FaceGetTile (cube (cs 3)) (ps 3)
      else if a = cs 3 ∧ b = ps 3 then t0 else FaceGetTile (cube a) b) := by
    rw [hD3]
    have hv : FaceGetTile (D1 (cs 3)) (ps 3) = FaceGetTile (cube (cs 3)) (ps 3) :=
      A1 (cs 3) (ps 3) hp3
    rw [hv]
    exact A2.step (cs 2) (ps 2) _ (FaceGetTile_lt_16 _ _) hp2
  have A4 : Agrees D4 (fun a b =>
      if a = cs 1 ∧ b = ps 1 then FaceGetTile (cube (cs 2)) (ps 2)
      else if a = cs 2 ∧ b = ps 2 then FaceGetTile (cube (cs 3)) (ps 3)
      else if a = cs 3 ∧ b = ps 3 then t0 else FaceGetTile (cube a) b) := by
    rw [hD4]
    have hv : FaceGetTile (D2 (cs 2)) (ps 2) = FaceGetTile (cube (cs 2)) (ps 2) := by
      rw [A2 (cs 2) (ps 2) hp2]; simp [d23]
    rw [hv]
    exact A3.step (cs 1) (ps 1) _ (FaceGetTile_lt_16 _ _) hp1
  have hv : FaceGetTile (D3 (cs 1)) (ps 1) = FaceGetTile (cube (cs 1)) (ps 1) := by
    rw [A3 (cs 1) (ps 1) hp1]; simp [d12, d13]
  rw [hv, get_cwStep _ _ _ _ (FaceGetTile_lt_16 _ _) hp0 g q hq, A4 g q hq]
  unfold cycSrcCCW
  by_cases h0 : g = cs 0 ∧ q = ps 0
  · simp [h0, d01, d02, d03]
  · by_cases h1 : g = cs 1 ∧ q = ps 1
    · simp [h0, h1, d10, d12, d13]
    · by_cases h2 : g = cs 2 ∧ q = ps 2
      · simp [h0, h1, h2, d20, d21, d23]
      · by_cases h3 : g = cs 3 ∧ q = ps 3
        · simp [h0, h1, h2, h3, d30, d31, d32, ht0]
        · simp [h0, h1, h2, h3]

theorem getTile_cycleDouble (cube : Cube) (cs ps : Nat → Nat)
    (hp0 : ps 0 < 8) (hp1 : ps 1 < 8) (hp2 : ps 2 < 8) (hp3 : ps 3 < 8)
    (d10 : ¬(cs 1 = cs 0 ∧ ps 1 = ps 0)) (d20 : ¬(cs 2 = cs 0 ∧ ps 2 = ps 0))
    (d30 : ¬(cs 3 = cs 0 ∧ ps 3 = ps 0)) (d21 : ¬(cs 2 = cs 1 ∧ ps 2 = ps 1))
    (d31 : ¬(cs 3 = cs 1 ∧ ps 3 = ps 1)) (d32 : ¬(cs 3 = cs 2 ∧ ps 3 = ps 2))
    (g q : Nat) (hq : q < 8) :
    FaceGetTile (cycleDouble cube cs ps g) q
      = FaceGetTile (cube (cycSrcDouble cs ps g q).1) ((cycSrcDouble cs ps g q).2) := by
  have d01 : ¬(cs 0 = cs 1 ∧ ps 0 = ps 1) := fun h => d10 ⟨h.1.symm, h.2.symm⟩
  have d02 : ¬(cs 0 = cs 2 ∧ ps 0 = ps 2) := fun h => d20 ⟨h.1.symm, h.2.symm⟩
  have d03 : ¬(cs 0 = cs 3 ∧ ps 0 = ps 3) := fun h => d30 ⟨h.1.symm, h.2.symm⟩
  have d12 : ¬(cs 1 = cs 2 ∧ ps 1 = ps 2) := fun h => d21 ⟨h.1.symm, h.2.symm⟩
  have d13 : ¬(cs 1 = cs 3 ∧ ps 1 = ps 3) := fun h => d31 ⟨h.1.symm, h.2.symm⟩
  have d23 : ¬(cs 2 = cs 3 ∧ ps 2 = ps 3) := fun h => d32 ⟨h.1.symm, h.2.symm⟩
  rw [cycleDouble_unfold, swapStep_unfold, swapStep_unfold]
  set S1 := cwStep cube (cs 2) (ps 2) (FaceGetTile (cube (cs 0)) (ps 0)) with hS1
  set S2 := cwStep S1 (cs 0) (ps 0) (FaceGetTile (cube (cs 2)) (ps 2)) with hS2
  set S3 := cwStep S2 (cs 3) (ps 3) (FaceGetTile (S2 (cs 1)) (ps 1)) with hS3
  have A1 : Agrees S1 (fun a b =>
      if a = cs 2 ∧ b = ps 2 then FaceGetTile (cube (cs 0)) (ps 0)
      else FaceGetTile (cube a) b) := by
    rw [hS1]
    exact (Agrees.refl cube).step (cs 2) (ps 2) _ (FaceGetTile_lt_16 _ _) hp2
  have A2 : Agrees S2 (fun a b =>
      if a = cs 0 ∧ b = ps 0 then FaceGetTile (cube (cs 2)) (ps 2)
      else if a = cs 2 ∧ b = ps 2 then FaceGetTile (cube (cs 0)) (ps 0)
      else FaceGetTile (cube a) b) := by
    rw [hS2]
    exact A1.step (cs 0) (ps 0) _ (FaceGetTile_lt_16 _ _) hp0
  have A3 : Agrees S3 (fun a b =>
      if a = cs 3 ∧ b = ps 3 then FaceGetTile (cube (cs 1)) (ps 1)
      else if a = cs 0 ∧ b = ps 0 then FaceGetTile (cube (cs 2)) (ps 2)
      else if a = cs 2 ∧ b = ps 2 then FaceGetTile (cube (cs 0)) (ps 0)
      else FaceGetTile (cube a) b) := by
    rw [hS3]
    have hv : FaceGetTile (S2 (cs 1)) (ps 1) = FaceGetTile (cube (cs 1)) (ps 1) := by
      rw [A2 (cs 1) (ps 1) hp1]; simp [d10, d12]
    rw [hv]
    exact A2.step (cs 3) (ps 3) _ (FaceGetTile_lt_16 _ _) hp3
  have hv : FaceGetTile (S2 (cs 3)) (ps 3) = FaceGetTile (cube (cs 3)) (ps 3) := by
    rw [A2 (cs 3) (ps 3) hp3]; simp [d30, d32]
  rw [hv, get_cwStep _ _ _ _ (FaceGetTile_lt_16 _ _) hp1 g q hq, A3 g q hq]
  unfold cycSrcDouble
  by_cases h1 : g = cs 1 ∧ q = ps 1
  · simp [h1, d10, d12, d13]
  · by_cases h3 : g = cs 3 ∧ q = ps 3
    · simp [h1, h3, d30, d31, d32]
    · by_cases h0 : g = cs 0 ∧ q = ps 0
      · simp [h1, h3, h0, d01, d03]
      · by_cases h2 : g = cs 2 ∧ q = ps 2
        · simp [h1, h3, h0, h2, d20, d21, d23]
        · simp [h1, h3, h0, h2]

theorem cycSrc_snd_lt (cs ps : Nat → Nat) (hp : ∀ i, i < 4 → ps i < 8)
    (g q : Nat) (hq : q < 8) : (cycSrc cs ps g q).2 < 8 := by
  unfold cycSrc
  split_ifs
  · exact hp 0 (by norm_num)
  · exact hp 1 (by norm_num)
  · exact hp 2 (by norm_num)
  · exact hp 3 (by norm_num)
  · exact hq

theorem cycSrcCCW_snd_lt (cs ps : Nat → Nat) (hp : ∀ i, i < 4 → ps i < 8)
    (g q : Nat) (hq : q < 8) : (cycSrcCCW cs ps g q).2 < 8 := by
  unfold cycSrcCCW
  split_ifs
  · exact hp 1 (by norm_num)
  · exact hp 2 (by norm_num)
  · exact hp 3 (by norm_num)
  · exact hp 0 (by norm_num)
  · exact hq

theorem cycSrcDouble_snd_lt (cs ps : Nat → Nat) (hp : ∀ i, i < 4 → ps i < 8)
    (g q : Nat) (hq : q < 8) : (cycSrcDouble cs ps g q).2 < 8 := by
  unfold cycSrcDouble
  split_ifs
  · exact hp 2 (by norm_num)
  · exact hp 0 (by norm_num)
  · exact hp 3 (by norm_num)
  · exact hp 1 (by norm_num)
  · exact hq

theorem TurnChar.comp {T U : Cube → Cube} {σ τ : Nat → Nat → Nat × Nat}
    (hT : TurnChar T σ) (hU : TurnChar U τ) (hτ : SrcBounded τ) :
    TurnChar (fun cube => U (T cube)) (fun g q => σ (τ g q).1 (τ g q).2) := by
  intro cube g q hq
  rw [hU (T cube) g q hq]
  exact hT cube (τ g q).1 (τ g q).2 (hτ g q hq)

theorem TurnChar_cycleCW (cs ps : Nat → Nat)
    (hp0 : ps 0 < 8) (hp1 : ps 1 < 8) (hp2 : ps 2 < 8) (hp3 : ps 3 < 8)
    (d10 : ¬(cs 1 = cs 0 ∧ ps 1 = ps 0)) (d20 : ¬(cs 2 = cs 0 ∧ ps 2 = ps 0))
    (d30 : ¬(cs 3 = cs 0 ∧ ps 3 = ps 0)) (d21 : ¬(cs 2 = cs 1 ∧ ps 2 = ps 1))
    (d31 : ¬(cs 3 = cs 1 ∧ ps 3 = ps 1)) (d32 : ¬(cs 3 = cs 2 ∧ ps 3 = ps 2)) :
    TurnChar (fun cube => cycleCW cube cs ps) (cycSrc cs ps) :=
  fun cube g q hq =>
    getTile_cycleCW cube cs ps hp0 hp1 hp2 hp3 d10 d20 d30 d21 d31 d32 g q hq

theorem TurnChar_cycleCCW (cs ps : Nat → Nat)
    (hp0 : ps 0 < 8) (hp1 : ps 1 < 8) (hp2 : ps 2 < 8) (hp3 : ps 3 < 8)
    (d10 : ¬(cs 1 = cs 0 ∧ ps 1 = ps 0)) (d20 : ¬(cs 2 = cs 0 ∧ ps 2 = ps 0))
    (d30 : ¬(cs 3 = cs 0 ∧ ps 3 = ps 0)) (d21 : ¬(cs 2 = cs 1 ∧ ps 2 = ps 1))
    (d31 : ¬(cs 3 = cs 1 ∧ ps 3 = ps 1)) (d32 : ¬(cs 3 = cs 2 ∧ ps 3 = ps 2)) :
    TurnChar (fun cube => cycleCCW cube cs ps) (cycSrcCCW cs ps) :=
  fun cube g q hq =>
    getTile_cycleCCW cube cs ps hp0 hp1 hp2 hp3 d10 d20 d30 d21 d31 d32 g q hq

theorem TurnChar_cycleDouble (cs ps : Nat → Nat)
    (hp0 : ps 0 < 8) (hp1 : ps 1 < 8) (hp2 : ps 2 < 8) (hp3 : ps 3 < 8)
    (d10 : ¬(cs 1 = cs 0 ∧ ps 1 = ps 0)) (d20 : ¬(cs 2 = cs 0 ∧ ps 2 = ps 0))
    (d30 : ¬(cs 3 = cs 0 ∧ ps 3 = ps 0)) (d21 : ¬(cs 2 = cs 1 ∧ ps 2 = ps 1))
    (d31 : ¬(cs 3 = cs 1 ∧ ps 3 = ps 1)) (d32 : ¬(cs 3 = cs 2 ∧ ps 3 = ps 2)) :
    TurnChar (fun cube => cycleDouble cube cs ps) (cycSrcDouble cs ps) :=
  fun cube g q hq =>
    getTile_cycleDouble cube cs ps hp0 hp1 hp2 hp3 d10 d20 d30 d21 d31 d32 g q hq

theorem turnCW_eq_cycles (cube : Cube) (f : Nat) :
    CubeFaceTurnClockwise cube f =
      cycleCW (cycleCW (cycleCW (cycleCW (cycleCW cube
        (fun _ => f) (CUBE_FACE_ROTATION_TABLE 0))
        (fun _ => f) (CUBE_FACE_ROTATION_TABLE 1))
        (CUBE_SIDE_COLOUR_TABLE f) (CUBE_SIDE_ROTATION_TABLE f 0))
        (CUBE_SIDE_COLOUR_TABLE f) (CUBE_SIDE_ROTATION_TABLE f 1))
        (CUBE_SIDE_COLOUR_TABLE f) (CUBE_SIDE_ROTATION_TABLE f 2) := rfl

theorem turnCCW_eq_cycles (cube : Cube) (f : Nat) :
    CubeFaceTurnAntiClockwise cube f =
      cycleCCW (cycleCCW (cycleCCW (cycleCCW (cycleCCW cube
        (fun _ => f) (CUBE_FACE_ROTATION_TABLE 0))
        (fun _ => f) (CUBE_FACE_ROTATION_TABLE 1))
        (CUBE_SIDE_COLOUR_TABLE f) (CUBE_SIDE_ROTATION_TABLE f 0))
        (CUBE_SIDE_COLOUR_TABLE f) (CUBE_SIDE_ROTATION_TABLE f 1))
        (CUBE_SIDE_COLOUR_TABLE f) (CUBE_SIDE_ROTATION_TABLE f 2) := rfl

theorem turnDouble_eq_cycles (cube : Cube) (f : Nat) :
    CubeFaceTurnDouble cube f =
      cycleDouble (cycleDouble (cycleDouble (cycleDouble (cycleDouble cube
        (fun _ => f) (CUBE_FACE_ROTATION_TABLE 0))
        (fun _ => f) (CUBE_FACE_ROTATION_TABLE 1))
        (CUBE_SIDE_COLOUR_TABLE f) (CUBE_SIDE_ROTATION_TABLE f 0))
        (CUBE_SIDE_COLOUR_TABLE f) (CUBE_SIDE_ROTATION_TABLE f 1))
        (CUBE_SIDE_COLOUR_TABLE f) (CUBE_SIDE_ROTATION_TABLE f 2) := rfl

theorem side_table_pos_lt :
    ∀ f, f < 6 → ∀ j, j < 3 → ∀ i, i < 4 → CUBE_SIDE_ROTATION_TABLE f j i < 8 := by
  decide

theorem side_table_distinct :
    ∀ f : Fin 6, ∀ j : Fin 3, ∀ i : Fin 4, ∀ k : Fin 4, (i : Nat) = k ∨
      ¬(CUBE_SIDE_COLOUR_TABLE f i = CUBE_SIDE_COLOUR_TABLE f k
        ∧ CUBE_SIDE_ROTATION_TABLE f j i = CUBE_SIDE_ROTATION_TABLE f j k) := by
  decide

theorem face_table_pos_lt :
    ∀ j, j < 2 → ∀ i, i < 4 → CUBE_FACE_ROTATION_TABLE j i < 8 := by
  decide

theorem face_table_distinct :
    ∀ j : Fin 2, ∀ i : Fin 4, ∀ k : Fin 4, (i : Nat) = k ∨
      CUBE_FACE_ROTATION_TABLE j i ≠ CUBE_FACE_ROTATION_TABLE j k := by
  decide

theorem TurnChar_turnCW (f : Nat) (hf : f < 6) :
    TurnChar (fun cube => CubeFaceTurnClockwise cube f) (srcCW f) := by
  have hS : ∀ j, j < 3 → ∀ i, i < 4 → CUBE_SIDE_ROTATION_TABLE f j i < 8 :=
    side_table_pos_lt f hf
  have hD : ∀ j, j < 3 → ∀ i, i < 4 → ∀ k, k < 4 → i ≠ k →
      ¬(CUBE_SIDE_COLOUR_TABLE f i = CUBE_SIDE_COLOUR_TABLE f k
        ∧ CUBE_SIDE_ROTATION_TABLE f j i = CUBE_SIDE_ROTATION_TABLE f j k) :=
    fun j hj i hi k hk hik =>
      (side_table_distinct ⟨f, hf⟩ ⟨j, hj⟩ ⟨i, hi⟩ ⟨k, hk⟩).resolve_left hik
  have hFD : ∀ j, j < 2 → ∀ i, i < 4 → ∀ k, k < 4 → i ≠ k →
      ¬((fun _ => f) i = (fun _ => f) k
        ∧ CUBE_FACE_ROTATION_TABLE j i = CUBE_FACE_ROTATION_TABLE j k) :=
    fun j hj i hi k hk hik h =>
      ((face_table_distinct ⟨j, hj⟩ ⟨i, hi⟩ ⟨k, hk⟩).resolve_left hik) h.2
  intro cube g q hq
  show FaceGetTile (CubeFaceTurnClockwise cube f g) q = _
  rw [turnCW_eq_cycles]
  rw [getTile_cycleCW _ (CUBE_SIDE_COLOUR_TABLE f) (CUBE_SIDE_ROTATION_TABLE f 2)
    (hS 2 (by norm_num) 0 (by norm_num)) (hS 2 (by norm_num) 1 (by norm_num))
    (hS 2 (by norm_num) 2 (by norm_num)) (hS 2 (by norm_num) 3 (by norm_num))
    (hD 2 (by norm_num) 1 (by norm_num) 0 (by norm_num) (by norm_num))
    (hD 2 (by norm_num) 2 (by norm_num) 0 (by norm_num) (by norm_num))
    (hD 2 (by norm_num) 3 (by norm_num) 0 (by norm_num) (by norm_num))
    (hD 2 (by norm_num) 2 (by norm_num) 1 (by norm_num) (by norm_num))
    (hD 2 (by norm_num) 3 (by norm_num) 1 (by norm_num) (by norm_num))
    (hD 2 (by norm_num) 3 (by norm_num) 2 (by norm_num) (by norm_num)) g q hq]
  rw [getTile_cycleCW _ (CUBE_SIDE_COLOUR_TABLE f) (CUBE_SIDE_ROTATION_TABLE f 1)
    (hS 1 (by norm_num) 0 (by norm_num)) (hS 1 (by norm_num) 1 (by norm_num))
    (hS 1 (by norm_num) 2 (by norm_num)) (hS 1 (by norm_num) 3 (by norm_num))
    (hD 1 (by norm_num) 1 (by norm_num) 0 (by norm_num) (by norm_num))
    (hD 1 (by norm_num) 2 (by norm_num) 0 (by norm_num) (by norm_num))
    (hD 1 (by norm_num) 3 (by norm_num) 0 (by norm_num) (by norm_num))
    (hD 1 (by norm_num) 2 (by norm_num) 1 (by norm_num) (by norm_num))
    (hD 1 (by norm_num) 3 (by norm_num) 1 (by norm_num) (by norm_num))
    (hD 1 (by norm_num) 3 (by norm_num) 2 (by norm_num) (by norm_num)) _ _
    (cycSrc_snd_lt _ _ (fun i hi => hS 2 (by norm_num) i hi) g q hq)]
  rw [getTile_cycleCW _ (CUBE_SIDE_COLOUR_TABLE f) (CUBE_SIDE_ROTATION_TABLE f 0)
    (hS 0 (by norm_num) 0 (by norm_num)) (hS 0 (by norm_num) 1 (by norm_num))
    (hS 0 (by norm_num) 2 (by norm_num)) (hS 0 (by norm_num) 3 (by norm_num))
    (hD 0 (by norm_num) 1 (by norm_num) 0 (by norm_num) (by norm_num))
    (hD 0 (by norm_num) 2 (by norm_num) 0 (by norm_num) (by norm_num))
    (hD 0 (by norm_num) 3 (by norm_num) 0 (by norm_num) (by norm_num))
    (hD 0 (by norm_num) 2 (by norm_num) 1 (by norm_num) (by norm_num))
    (hD 0 (by norm_num) 3 (by norm_num) 1 (by norm_num) (by norm_num))
    (hD 0 (by norm_num) 3 (by norm_num) 2 (by norm_num) (by norm_num)) _ _
    (cycSrc_snd_lt _ _ (fun i hi => hS 1 (by norm_num) i hi) _ _
      (cycSrc_snd_lt _ _ (fun i hi => hS 2 (by norm_num) i hi) g q hq))]
  rw [getTile_cycleCW _ (fun _ => f) (CUBE_FACE_ROTATION_TABLE 1)
    (face_table_pos_lt 1 (by norm_num) 0 (by norm_num))
    (face_table_pos_lt 1 (by norm_num) 1 (by norm_num))
    (face_table_pos_lt 1 (by norm_num) 2 (by norm_num))
    (face_table_pos_lt 1 (by norm_num) 3 (by norm_num))
    (hFD 1 (by norm_num) 1 (by norm_num) 0 (by norm_num) (by norm_num))
    (hFD 1 (by norm_num) 2 (by norm_num) 0 (by norm_num) (by norm_num))
    (hFD 1 (by norm_num) 3 (by norm_num) 0 (by norm_num) (by norm_num))
    (hFD 1 (by norm_num) 2 (by norm_num) 1 (by norm_num) (by norm_num))
    (hFD 1 (by norm_num) 3 (by norm_num) 1 (by norm_num) (by norm_num))
    (hFD 1 (by norm_num) 3 (by norm_num) 2 (by norm_num) (by norm_num)) _ _
    (cycSrc_snd_lt _ _ (fun i hi => hS 0 (by norm_num) i hi) _ _
      (cycSrc_snd_lt _ _ (fun i hi => hS 1 (by norm_num) i hi) _ _
        (cycSrc_snd_lt _ _ (fun i hi => hS 2 (by norm_num) i hi) g q hq)))]
  rw [getTile_cycleCW _ (fun _ => f) (CUBE_FACE_ROTATION_TABLE 0)
    (face_table_pos_lt 0 (by norm_num) 0 (by norm_num))
    (face_table_pos_lt 0 (by norm_num) 1 (by norm_num))
    (face_table_pos_lt 0 (by norm_num) 2 (by norm_num))
    (face_table_pos_lt 0 (by norm_num) 3 (by norm_num))
    (hFD 0 (by norm_num) 1 (by norm_num) 0 (by norm_num) (by norm_num))
    (hFD 0 (by norm_num) 2 (by norm_num) 0 (by norm_num) (by norm_num))
    (hFD 0 (by norm_num) 3 (by norm_num) 0 (by norm_num) (by norm_num))
    (hFD 0 (by norm_num) 2 (by norm_num) 1 (by norm_num) (by norm_num))
    (hFD 0 (by norm_num) 3 (by norm_num) 1 (by norm_num) (by norm_num))
    (hFD 0 (by norm_num) 3 (by norm_num) 2 (by norm_num) (by norm_num)) _ _
    (cycSrc_snd_lt _ _ (fun i hi => face_table_pos_lt 1 (by norm_num) i hi) _ _
      (cycSrc_snd_lt _ _ (fun i hi => hS 0 (by norm_num) i hi) _ _
        (cycSrc_snd_lt _ _ (fun i hi => hS 1 (by norm_num) i hi) _ _
          (cycSrc_snd_lt _ _ (fun i hi => hS 2 (by norm_num) i hi) g q hq))))]
  rfl

theorem TurnChar_turnCCW (f : Nat) (hf : f < 6) :
    TurnChar (fun cube => CubeFaceTurnAntiClockwise cube f) (srcCCW f) := by
  have hS : ∀ j, j < 3 → ∀ i, i < 4 → CUBE_SIDE_ROTATION_TABLE f j i < 8 :=
    side_table_pos_lt f hf
  have hD : ∀ j, j < 3 → ∀ i, i < 4 → ∀ k, k < 4 → i ≠ k →
      ¬(CUBE_SIDE_COLOUR_TABLE f i = CUBE_SIDE_COLOUR_TABLE f k
        ∧ CUBE_SIDE_ROTATION_TABLE f j i = CUBE_SIDE_ROTATION_TABLE f j k) :=
    fun j hj i hi k hk hik =>
      (side_table_distinct ⟨f, hf⟩ ⟨j, hj⟩ ⟨i, hi⟩ ⟨k, hk⟩).resolve_left hik
  have hFD : ∀ j, j < 2 → ∀ i, i < 4 → ∀ k, k < 4 → i ≠ k →
      ¬((fun _ => f) i = (fun _ => f) k
        ∧ CUBE_FACE_ROTATION_TABLE j i = CUBE_FACE_ROTATION_TABLE j k) :=
    fun j hj i hi k hk hik h =>
      ((face_table_distinct ⟨j, hj⟩ ⟨i, hi⟩ ⟨k, hk⟩).resolve_left hik) h.2
  intro cube g q hq
  show FaceGetTile (CubeFaceTurnAntiClockwise cube f g) q = _
  rw [turnCCW_eq_cycles]
  rw [getTile_cycleCCW _ (CUBE_SIDE_COLOUR_TABLE f) (CUBE_SIDE_ROTATION_TABLE f 2)
    (hS 2 (by norm_num) 0 (by norm_num)) (hS 2 (by norm_num) 1 (by norm_num))
    (hS 2 (by norm_num) 2 (by norm_num)) (hS 2 (by norm_num) 3 (by norm_num))
    (hD 2 (by norm_num) 1 (by norm_num) 0 (by norm_num) (by norm_num))
    (hD 2 (by norm_num) 2 (by norm_num) 0 (by norm_num) (by norm_num))
    (hD 2 (by norm_num) 3 (by norm_num) 0 (by norm_num) (by norm_num))
    (hD 2 (by norm_num) 2 (by norm_num) 1 (by norm_num) (by norm_num))
    (hD 2 (by norm_num) 3 (by norm_num) 1 (by norm_num) (by norm_num))
    (hD 2 (by norm_num) 3 (by norm_num) 2 (by norm_num) (by norm_num)) g q hq]
  rw [getTile_cycleCCW _ (CUBE_SIDE_COLOUR_TABLE f) (CUBE_SIDE_ROTATION_TABLE f 1)
    (hS 1 (by norm_num) 0 (by norm_num)) (hS 1 (by norm_num) 1 (by norm_num))
    (hS 1 (by norm_num) 2 (by norm_num)) (hS 1 (by norm_num) 3 (by norm_num))
    (hD 1 (by norm_num) 1 (by norm_num) 0 (by norm_num) (by norm_num))
    (hD 1 (by norm_num) 2 (by norm_num) 0 (by norm_num) (by norm_num))
    (hD 1 (by norm_num) 3 (by norm_num) 0 (by norm_num) (by norm_num))
    (hD 1 (by norm_num) 2 (by norm_num) 1 (by norm_num) (by norm_num))
    (hD 1 (by norm_num) 3 (by norm_num) 1 (by norm_num) (by norm_num))
    (hD 1 (by norm_num) 3 (by norm_num) 2 (by norm_num) (by norm_num)) _ _
    (cycSrcCCW_snd_lt _ _ (fun i hi => hS 2 (by norm_num) i hi) g q hq)]
  rw [getTile_cycleCCW _ (CUBE_SIDE_COLOUR_TABLE f) (CUBE_SIDE_ROTATION_TABLE f 0)
    (hS 0 (by norm_num) 0 (by norm_num)) (hS 0 (by norm_num) 1 (by norm_num))
    (hS 0 (by norm_num) 2 (by norm_num)) (hS 0 (by norm_num) 3 (by norm_num))
    (hD 0 (by norm_num) 1 (by norm_num) 0 (by norm_num) (by norm_num))
    (hD 0 (by norm_num) 2 (by norm_num) 0 (by norm_num) (by norm_num))
    (hD 0 (by norm_num) 3 (by norm_num) 0 (by norm_num) (by norm_num))
    (hD 0 (by norm_num) 2 (by norm_num) 1 (by norm_num) (by norm_num))
    (hD 0 (by norm_num) 3 (by norm_num) 1 (by norm_num) (by norm_num))
    (hD 0 (by norm_num) 3 (by norm_num) 2 (by norm_num) (by norm_num)) _ _
    (cycSrcCCW_snd_lt _ _ (fun i hi => hS 1 (by norm_num) i hi) _ _
      (cycSrcCCW_snd_lt _ _ (fun i hi => hS 2 (by norm_num) i hi) g q hq))]
  rw [getTile_cycleCCW _ (fun _ => f) (CUBE_FACE_ROTATION_TABLE 1)
    (face_table_pos_lt 1 (by norm_num) 0 (by norm_num))
    (face_table_pos_lt 1 (by norm_num) 1 (by norm_num))
    (face_table_pos_lt 1 (by norm_num) 2 (by norm_num))
    (face_table_pos_lt 1 (by norm_num) 3 (by norm_num))
    (hFD 1 (by norm_num) 1 (by norm_num) 0 (by norm_num) (by norm_num))
    (hFD 1 (by norm_num) 2 (by norm_num) 0 (by norm_num) (by norm_num))
    (hFD 1 (by norm_num) 3 (by norm_num) 0 (by norm_num) (by norm_num))
    (hFD 1 (by norm_num) 2 (by norm_num) 1 (by norm_num) (by norm_num))
    (hFD 1 (by norm_num) 3 (by norm_num) 1 (by norm_num) (by norm_num))
    (hFD 1 (by norm_num) 3 (by norm_num) 2 (by norm_num) (by norm_num)) _ _
    (cycSrcCCW_snd_lt _ _ (fun i hi => hS 0 (by norm_num) i hi) _ _
      (cycSrcCCW_snd_lt _ _ (fun i hi => hS 1 (by norm_num) i hi) _ _
        (cycSrcCCW_snd_lt _ _ (fun i hi => hS 2 (by norm_num) i hi) g q hq)))]
  rw [getTile_cycleCCW _ (fun _ => f) (CUBE_FACE_ROTATION_TABLE 0)
    (face_table_pos_lt 0 (by norm_num) 0 (by norm_num))
    (face_table_pos_lt 0 (by norm_num) 1 (by norm_num))
    (face_table_pos_lt 0 (by norm_num) 2 (by norm_num))
    (face_table_pos_lt 0 (by norm_num) 3 (by norm_num))
    (hFD 0 (by norm_num) 1 (by norm_num) 0 (by norm_num) (by norm_num))
    (hFD 0 (by norm_num) 2 (by norm_num) 0 (by norm_num) (by norm_num))
    (hFD 0 (by norm_num) 3 (by norm_num) 0 (by norm_num) (by norm_num))
    (hFD 0 (by norm_num) 2 (by norm_num) 1 (by norm_num) (by norm_num))
    (hFD 0 (by norm_num) 3 (by norm_num) 1 (by norm_num) (by norm_num))
    (hFD 0 (by norm_num) 3 (by norm_num) 2 (by norm_num) (by norm_num)) _ _
    (cycSrcCCW_snd_lt _ _ (fun i hi => face_table_pos_lt 1 (by norm_num) i hi) _ _
      (cycSrcCCW_snd_lt _ _ (fun i hi => hS 0 (by norm_num) i hi) _ _
        (cycSrcCCW_snd_lt _ _ (fun i hi => hS 1 (by norm_num) i hi) _ _
          (cycSrcCCW_snd_lt _ _ (fun i hi => hS 2 (by norm_num) i hi) g q hq))))]
  rfl

theorem TurnChar_turnDouble (f : Nat) (hf : f < 6) :
    TurnChar (fun cube => CubeFaceTurnDouble cube f) (srcDouble f) := by
  have hS : ∀ j, j < 3 → ∀ i, i < 4 → CUBE_SIDE_ROTATION_TABLE f j i < 8 :=
    side_table_pos_lt f hf
  have hD : ∀ j, j < 3 → ∀ i, i < 4 → ∀ k, k < 4 → i ≠ k →
      ¬(CUBE_SIDE_COLOUR_TABLE f i = CUBE_SIDE_COLOUR_TABLE f k
        ∧ CUBE_SIDE_ROTATION_TABLE f j i = CUBE_SIDE_ROTATION_TABLE f j k) :=
    fun j hj i hi k hk hik =>
      (side_table_distinct ⟨f, hf⟩ ⟨j, hj⟩ ⟨i, hi⟩ ⟨k, hk⟩).resolve_left hik
  have hFD : ∀ j, j < 2 → ∀ i, i < 4 → ∀ k, k < 4 → i ≠ k →
      ¬((fun _ => f) i = (fun _ => f) k
        ∧ CUBE_FACE_ROTATION_TABLE j i = CUBE_FACE_ROTATION_TABLE j k) :=
    fun j hj i hi k hk hik h =>
      ((face_table_distinct ⟨j, hj⟩ ⟨i, hi⟩ ⟨k, hk⟩).resolve_left hik) h.2
  intro cube g q hq
  show FaceGetTile (CubeFaceTurnDouble cube f g) q = _
  rw [turnDouble_eq_cycles]
  rw [getTile_cycleDouble _ (CUBE_SIDE_COLOUR_TABLE f) (CUBE_SIDE_ROTATION_TABLE f 2)
    (hS 2 (by norm_num) 0 (by norm_num)) (hS 2 (by norm_num) 1 (by norm_num))
    (hS 2 (by norm_num) 2 (by norm_num)) (hS 2 (by norm_num) 3 (by norm_num))
    (hD 2 (by norm_num) 1 (by norm_num) 0 (by norm_num) (by norm_num))
    (hD 2 (by norm_num) 2 (by norm_num) 0 (by norm_num) (by norm_num))
    (hD 2 (by norm_num) 3 (by norm_num) 0 (by norm_num) (by norm_num))
    (hD 2 (by norm_num) 2 (by norm_num) 1 (by norm_num) (by norm_num))
    (hD 2 (by norm_num) 3 (by norm_num) 1 (by norm_num) (by norm_num))
    (hD 2 (by norm_num) 3 (by norm_num) 2 (by norm_num) (by norm_num)) g q hq]
  rw [getTile_cycleDouble _ (CUBE_SIDE_COLOUR_TABLE f) (CUBE_SIDE_ROTATION_TABLE f 1)
    (hS 1 (by norm_num) 0 (by norm_num)) (hS 1 (by norm_num) 1 (by norm_num))
    (hS 1 (by norm_num) 2 (by norm_num)) (hS 1 (by norm_num) 3 (by norm_num))
    (hD 1 (by norm_num) 1 (by norm_num) 0 (by norm_num) (by norm_num))
    (hD 1 (by norm_num) 2 (by norm_num) 0 (by norm_num) (by norm_num))
    (hD 1 (by norm_num) 3 (by norm_num) 0 (by norm_num) (by norm_num))
    (hD 1 (by norm_num) 2 (by norm_num) 1 (by norm_num) (by norm_num))
    (hD 1 (by norm_num) 3 (by norm_num) 1 (by norm_num) (by norm_num))
    (hD 1 (by norm_num) 3 (by norm_num) 2 (by norm_num) (by norm_num)) _ _
    (cycSrcDouble_snd_lt _ _ (fun i hi => hS 2 (by norm_num) i hi) g q hq)]
  rw [getTile_cycleDouble _ (CUBE_SIDE_COLOUR_TABLE f) (CUBE_SIDE_ROTATION_TABLE f 0)
    (hS 0 (by norm_num) 0 (by norm_num)) (hS 0 (by norm_num) 1 (by norm_num))
    (hS 0 (by norm_num) 2 (by norm_num)) (hS 0 (by norm_num) 3 (by norm_num))
    (hD 0 (by norm_num) 1 (by norm_num) 0 (by norm_num) (by norm_num))
    (hD 0 (by norm_num) 2 (by norm_num) 0 (by norm_num) (by norm_num))
    (hD 0 (by norm_num) 3 (by norm_num) 0 (by norm_num) (by norm_num))
    (hD 0 (by norm_num) 2 (by norm_num) 1 (by norm_num) (by norm_num))
    (hD 0 (by norm_num) 3 (by norm_num) 1 (by norm_num) (by norm_num))
    (hD 0 (by norm_num) 3 (by norm_num) 2 (by norm_num) (by norm_num)) _ _
    (cycSrcDouble_snd_lt _ _ (fun i hi => hS 1 (by norm_num) i hi) _ _
      (cycSrcDouble_snd_lt _ _ (fun i hi => hS 2 (by norm_num) i hi) g q hq))]
  rw [getTile_cycleDouble _ (fun _ => f) (CUBE_FACE_ROTATION_TABLE 1)
    (face_table_pos_lt 1 (by norm_num) 0 (by norm_num))
    (face_table_pos_lt 1 (by norm_num) 1 (by norm_num))
    (face_table_pos_lt 1 (by norm_num) 2 (by norm_num))
    (face_table_pos_lt 1 (by norm_num) 3 (by norm_num))
    (hFD 1 (by norm_num) 1 (by norm_num) 0 (by norm_num) (by norm_num))
    (hFD 1 (by norm_num) 2 (by norm_num) 0 (by norm_num) (by norm_num))
    (hFD 1 (by norm_num) 3 (by norm_num) 0 (by norm_num) (by norm_num))
    (hFD 1 (by norm_num) 2 (by norm_num) 1 (by norm_num) (by norm_num))
    (hFD 1 (by norm_num) 3 (by norm_num) 1 (by norm_num) (by norm_num))
    (hFD 1 (by norm_num) 3 (by norm_num) 2 (by norm_num) (by norm_num)) _ _
    (cycSrcDouble_snd_lt _ _ (fun i hi => hS 0 (by norm_num) i hi) _ _
      (cycSrcDouble_snd_lt _ _ (fun i hi => hS 1 (by norm_num) i hi) _ _
        (cycSrcDouble_snd_lt _ _ (fun i hi => hS 2 (by norm_num) i hi) g q hq)))]
  rw [getTile_cycleDouble _ (fun _ => f) (CUBE_FACE_ROTATION_TABLE 0)
    (face_table_pos_lt 0 (by norm_num) 0 (by norm_num))
    (face_table_pos_lt 0 (by norm_num) 1 (by norm_num))
    (face_table_pos_lt 0 (by norm_num) 2 (by norm_num))
    (face_table_pos_lt 0 (by norm_num) 3 (by norm_num))
    (hFD 0 (by norm_num) 1 (by norm_num) 0 (by norm_num) (by norm_num))
    (hFD 0 (by norm_num) 2 (by norm_num) 0 (by norm_num) (by norm_num))
    (hFD 0 (by norm_num) 3 (by norm_num) 0 (by norm_num) (by norm_num))
    (hFD 0 (by norm_num) 2 (by norm_num) 1 (by norm_num) (by norm_num))
    (hFD 0 (by norm_num) 3 (by norm_num) 1 (by norm_num) (by norm_num))
    (hFD 0 (by norm_num) 3 (by norm_num) 2 (by norm_num) (by norm_num)) _ _
    (cycSrcDouble_snd_lt _ _ (fun i hi => face_table_pos_lt 1 (by norm_num) i hi) _ _
      (cycSrcDouble_snd_lt _ _ (fun i hi => hS 0 (by norm_num) i hi) _ _
        (cycSrcDouble_snd_lt _ _ (fun i hi => hS 1 (by norm_num) i hi) _ _
          (cycSrcDouble_snd_lt _ _ (fun i hi => hS 2 (by norm_num) i hi) g q hq))))]
  rfl

theorem side_colour_lt :
    ∀ f, f < 6 → ∀ i, i < 4 → CUBE_SIDE_COLOUR_TABLE f i < 6 := by
  decide

theorem cycleCW_bound (cube : Cube) (cs ps : Nat → Nat)
    (hb : ∀ x, x < 6 → cube x < 2 ^ 32)
    (hc : ∀ i, i < 4 → cs i < 6) (hp : ∀ i, i < 4 → ps i < 8) :
    ∀ x, x < 6 → cycleCW cube cs ps x < 2 ^ 32 := by
  rw [cycleCW_unfold]
  exact cwStep_bound _ (cs 0) (ps 0) _
    (cwStep_bound _ (cs 3) (ps 3) _
      (cwStep_bound _ (cs 2) (ps 2) _
        (cwStep_bound _ (cs 1) (ps 1) _ hb (hc 1 (by norm_num))
          (FaceGetTile_lt_16 _ _) (hp 1 (by norm_num)))
        (hc 2 (by norm_num)) (FaceGetTile_lt_16 _ _) (hp 2 (by norm_num)))
      (hc 3 (by norm_num)) (FaceGetTile_lt_16 _ _) (hp 3 (by norm_num)))
    (hc 0 (by norm_num)) (FaceGetTile_lt_16 _ _) (hp 0 (by norm_num))

theorem cycleCCW_bound (cube : Cube) (cs ps : Nat → Nat)
    (hb : ∀ x, x < 6 → cube x < 2 ^ 32)
    (hc : ∀ i, i < 4 → cs i < 6) (hp : ∀ i, i < 4 → ps i < 8) :
    ∀ x, x < 6 → cycleCCW cube cs ps x < 2 ^ 32 := by
  rw [cycleCCW_unfold]
  dsimp only
  exact cwStep_bound _ (cs 0) (ps 0) _
    (cwStep_bound _ (cs 1) (ps 1) _
      (cwStep_bound _ (cs 2) (ps 2) _
        (cwStep_bound _ (cs 3) (ps 3) _
          (cwStep_bound _ (cs 0) (ps 0) _ hb (hc 0 (by norm_num))
            (FaceGetTile_lt_16 _ _) (hp 0 (by norm_num)))
          (hc 3 (by norm_num)) (FaceGetTile_lt_16 _ _) (hp 3 (by norm_num)))
        (hc 2 (by norm_num)) (FaceGetTile_lt_16 _ _) (hp 2 (by norm_num)))
      (hc 1 (by norm_num)) (FaceGetTile_lt_16 _ _) (hp 1 (by norm_num)))
    (hc 0 (by norm_num)) (FaceGetTile_lt_16 _ _) (hp 0 (by norm_num))

theorem cycleDouble_bound (cube : Cube) (cs ps : Nat → Nat)
    (hb : ∀ x, x < 6 → cube x < 2 ^ 32)
    (hc : ∀ i, i < 4 → cs i < 6) (hp : ∀ i, i < 4 → ps i < 8) :
    ∀ x, x < 6 → cycleDouble cube cs ps x < 2 ^ 32 := by
  rw [cycleDouble_unfold, swapStep_unfold, swapStep_unfold]
  exact cwStep_bound _ (cs 1) (ps 1) _
    (cwStep_bound _ (cs 3) (ps 3) _
      (cwStep_bound _ (cs 0) (ps 0) _
        (cwStep_bound _ (cs 2) (ps 2) _ hb (hc 2 (by norm_num))
          (FaceGetTile_lt_16 _ _) (hp 2 (by norm_num)))
        (hc 0 (by norm_num)) (FaceGetTile_lt_16 _ _) (hp 0 (by norm_num)))
      (hc 3 (by norm_num)) (FaceGetTile_lt_16 _ _) (hp 3 (by norm_num)))
    (hc 1 (by norm_num)) (FaceGetTile_lt_16 _ _) (hp 1 (by norm_num))

theorem turnCW_bound (cube : Cube) (f : Nat) (hf : f < 6)
    (hb : ∀ x, x < 6 → cube x < 2 ^ 32) :
    ∀ x, x < 6 → CubeFaceTurnClockwise cube f x < 2 ^ 32 := by
  rw [turnCW_eq_cycles]
  exact cycleCW_bound _ _ _
    (cycleCW_bound _ _ _
      (cycleCW_bound _ _ _
        (cycleCW_bound _ _ _
          (cycleCW_bound _ _ _ hb (fun i _ => hf)
            (fun i hi => face_table_pos_lt 0 (by norm_num) i hi))
          (fun i _ => hf) (fun i hi => face_table_pos_lt 1 (by norm_num) i hi))
        (fun i hi => side_colour_lt f hf i hi)
        (fun i hi => side_table_pos_lt f hf 0 (by norm_num) i hi))
      (fun i hi => side_colour_lt f hf i hi)
      (fun i hi => side_table_pos_lt f hf 1 (by norm_num) i hi))
    (fun i hi => side_colour_lt f hf i hi)
    (fun i hi => side_table_pos_lt f hf 2 (by norm_num) i hi)

theorem turnCCW_bound (cube : Cube) (f : Nat) (hf : f < 6)
    (hb : ∀ x, x < 6 → cube x < 2 ^ 32) :
    ∀ x, x < 6 → CubeFaceTurnAntiClockwise cube f x < 2 ^ 32 := by
  rw [turnCCW_eq_cycles]
  exact cycleCCW_bound _ _ _
    (cycleCCW_bound _ _ _
      (cycleCCW_bound _ _ _
        (cycleCCW_bound _ _ _
          (cycleCCW_bound _ _ _ hb (fun i _ => hf)
            (fun i hi => face_table_pos_lt 0 (by norm_num) i hi))
          (fun i _ => hf) (fun i hi => face_table_pos_lt 1 (by norm_num) i hi))
        (fun i hi => side_colour_lt f hf i hi)
        (fun i hi => side_table_pos_lt f hf 0 (by norm_num) i hi))
      (fun i hi => side_colour_lt f hf i hi)
      (fun i hi => side_table_pos_lt f hf 1 (by norm_num) i hi))
    (fun i hi => side_colour_lt f hf i hi)
    (fun i hi => side_table_pos_lt f hf 2 (by norm_num) i hi)

theorem turnDouble_bound (cube : Cube) (f : Nat) (hf : f < 6)
    (hb : ∀ x, x < 6 → cube x < 2 ^ 32) :
    ∀ x, x < 6 → CubeFaceTurnDouble cube f x < 2 ^ 32 := by
  rw [turnDouble_eq_cycles]
  exact cycleDouble_bound _ _ _
    (cycleDouble_bound _ _ _
      (cycleDouble_bound _ _ _
        (cycleDouble_bound _ _ _
          (cycleDouble_bound _ _ _ hb (fun i _ => hf)
            (fun i hi => face_table_pos_lt 0 (by norm_num) i hi))
          (fun i _ => hf) (fun i hi => face_table_pos_lt 1 (by norm_num) i hi))
        (fun i hi => side_colour_lt f hf i hi)
        (fun i hi => side_table_pos_lt f hf 0 (by norm_num) i hi))
      (fun i hi => side_colour_lt f hf i hi)
      (fun i hi => side_table_pos_lt f hf 1 (by norm_num) i hi))
    (fun i hi => side_colour_lt f hf i hi)
    (fun i hi => side_table_pos_lt f hf 2 (by norm_num) i hi)

theorem srcCW_snd_lt (f : Nat) (hf : f < 6) : SrcBounded (srcCW f) := by
  intro g q hq
  exact cycSrc_snd_lt _ _ (fun i hi => face_table_pos_lt 0 (by norm_num) i hi) _ _
    (cycSrc_snd_lt _ _ (fun i hi => face_table_pos_lt 1 (by norm_num) i hi) _ _
      (cycSrc_snd_lt _ _ (fun i hi => side_table_pos_lt f hf 0 (by norm_num) i hi) _ _
        (cycSrc_snd_lt _ _ (fun i hi => side_table_pos_lt f hf 1 (by norm_num) i hi) _ _
          (cycSrc_snd_lt _ _ (fun i hi => side_table_pos_lt f hf 2 (by norm_num) i hi)
            g q hq))))

theorem srcCCW_snd_lt (f : Nat) (hf : f < 6) : SrcBounded (srcCCW f) := by
  intro g q hq
  exact cycSrcCCW_snd_lt _ _ (fun i hi => face_table_pos_lt 0 (by norm_num) i hi) _ _
    (cycSrcCCW_snd_lt _ _ (fun i hi => face_table_pos_lt 1 (by norm_num) i hi) _ _
      (cycSrcCCW_snd_lt _ _ (fun i hi => side_table_pos_lt f hf 0 (by norm_num) i hi) _ _
        (cycSrcCCW_snd_lt _ _ (fun i hi => side_table_pos_lt f hf 1 (by norm_num) i hi) _ _
          (cycSrcCCW_snd_lt _ _ (fun i hi => side_table_pos_lt f hf 2 (by norm_num) i hi)
            g q hq))))

theorem srcDouble_snd_lt (f : Nat) (hf : f < 6) : SrcBounded (srcDouble f) := by
  intro g q hq
  exact cycSrcDouble_snd_lt _ _ (fun i hi => face_table_pos_lt 0 (by norm_num) i hi) _ _
    (cycSrcDouble_snd_lt _ _ (fun i hi => face_table_pos_lt 1 (by norm_num) i hi) _ _
      (cycSrcDouble_snd_lt _ _ (fun i hi => side_table_pos_lt f hf 0 (by norm_num) i hi) _ _
        (cycSrcDouble_snd_lt _ _ (fun i hi => side_table_pos_lt f hf 1 (by norm_num) i hi) _ _
          (cycSrcDouble_snd_lt _ _ (fun i hi => side_table_pos_lt f hf 2 (by norm_num) i hi)
            g q hq))))

theorem srcCW_iter4_id_fin :
    ∀ (f : Fin 6) (c : Fin 6) (q : Fin 8),
      srcCW f.val (srcCW f.val (srcCW f.val (srcCW f.val c.val q.val).1 (srcCW f.val c.val q.val).2).1 (srcCW f.val (srcCW f.val c.val q.val).1 (srcCW f.val c.val q.val).2).2).1 (srcCW f.val (srcCW f.val (srcCW f.val c.val q.val).1 (srcCW f.val c.val q.val).2).1 (srcCW f.val (srcCW f.val c.val q.val).1 (srcCW f.val c.val q.val).2).2).2 = (c.val, q.val) := by
  decide

theorem srcCW_iter4_id (f c q : Nat) (hf : f < 6) (hc : c < 6) (hq : q < 8) :
    srcCW f (srcCW f (srcCW f (srcCW f c q).1 (srcCW f c q).2).1 (srcCW f (srcCW f c q).1 (srcCW f c q).2).2).1 (srcCW f (srcCW f (srcCW f c q).1 (srcCW f c q).2).1 (srcCW f (srcCW f c q).1 (srcCW f c q).2).2).2 = (c, q) :=
  srcCW_iter4_id_fin ⟨f, hf⟩ ⟨c, hc⟩ ⟨q, hq⟩

theorem srcCW_iter2_eq_double_fin :
    ∀ (f : Fin 6) (c : Fin 6) (q : Fin 8),
      srcCW f.val (srcCW f.val c.val q.val).1 (srcCW f.val c.val q.val).2 = srcDouble f.val c.val q.val := by
  decide

theorem srcCW_iter2_eq_double (f c q : Nat) (hf : f < 6) (hc : c < 6) (hq : q < 8) :
    srcCW f (srcCW f c q).1 (srcCW f c q).2 = srcDouble f c q :=
  srcCW_iter2_eq_double_fin ⟨f, hf⟩ ⟨c, hc⟩ ⟨q, hq⟩

theorem srcCW_after_CCW_id_fin :
    ∀ (f : Fin 6) (c : Fin 6) (q : Fin 8),
      srcCW f.val (srcCCW f.val c.val q.val).1 (srcCCW f.val c.val q.val).2
        = (c.val, q.val) := by
  decide

theorem srcCW_after_CCW_id (f c q : Nat) (hf : f < 6) (hc : c < 6) (hq : q < 8) :
    srcCW f (srcCCW f c q).1 (srcCCW f c q).2 = (c, q) :=
  srcCW_after_CCW_id_fin ⟨f, hf⟩ ⟨c, hc⟩ ⟨q, hq⟩

/-- C1: for every cube state (six 32-bit face words) and every face `f`,
four clockwise turns of `f` restore the cube bit-for-bit, two clockwise
turns equal one double turn, and a clockwise turn followed by an
anticlockwise turn of `f` is the identity on the whole cube. -/
theorem C1_turn_group_laws (cube : Cube) (hb : ∀ c, c < 6 → cube c < 2 ^ 32)
    (f : Nat) (hf : f < 6) :
    (∀ c, c < 6 →
      CubeFaceTurnClockwise (CubeFaceTurnClockwise (CubeFaceTurnClockwise
        (CubeFaceTurnClockwise cube f) f) f) f c = cube c)
    ∧ (∀ c, c < 6 →
      CubeFaceTurnClockwise (CubeFaceTurnClockwise cube f) f c
        = CubeFaceTurnDouble cube f c)
    ∧ (∀ c, c < 6 →
      CubeFaceTurnAntiClockwise (CubeFaceTurnClockwise cube f) f c = cube c) := by
  have hb1 := turnCW_bound cube f hf hb
  have hb2 := turnCW_bound _ f hf hb1
  have hb3 := turnCW_bound _ f hf hb2
  have hb4 := turnCW_bound _ f hf hb3
  have hchar := TurnChar_turnCW f hf
  have hsb := srcCW_snd_lt f hf
  refine ⟨?_, ?_, ?_⟩
  · intro c hc
    apply FaceWord_ext _ _ (hb4 c hc) (hb c hc)
    intro q hq
    rw [hchar _ c q hq, hchar _ _ _ (hsb c q hq), hchar _ _ _ (hsb _ _ (hsb c q hq)),
      hchar _ _ _ (hsb _ _ (hsb _ _ (hsb c q hq))),
      srcCW_iter4_id f c q hf hc hq]
  · intro c hc
    apply FaceWord_ext _ _ (hb2 c hc) (turnDouble_bound cube f hf hb c hc)
    intro q hq
    rw [hchar _ c q hq, hchar _ _ _ (hsb c q hq),
      TurnChar_turnDouble f hf cube c q hq,
      srcCW_iter2_eq_double f c q hf hc hq]
  · intro c hc
    apply FaceWord_ext _ _ (turnCCW_bound _ f hf hb1 c hc) (hb c hc)
    intro q hq
    rw [TurnChar_turnCCW f hf _ c q hq, hchar _ _ _ (srcCCW_snd_lt f hf c q hq),
      srcCW_after_CCW_id f c q hf hc hq]

/-- Witness for C1 at the all-zero six-face cube and face 0. -/
theorem C1_turn_group_laws_witness :
    (∀ c, c < 6 →
      CubeFaceTurnClockwise (CubeFaceTurnClockwise (CubeFaceTurnClockwise
        (CubeFaceTurnClockwise (fun _ => 0) 0) 0) 0) 0 c = (fun _ => (0 : Nat)) c)
    ∧ (∀ c, c < 6 →
      CubeFaceTurnClockwise (CubeFaceTurnClockwise (fun _ => 0) 0) 0 c
        = CubeFaceTurnDouble (fun _ => 0) 0 c)
    ∧ (∀ c, c < 6 →
      CubeFaceTurnAntiClockwise (CubeFaceTurnClockwise (fun _ => 0) 0) 0 c
        = (fun _ => (0 : Nat)) c) :=
  C1_turn_group_laws (fun _ => 0) (fun _ _ => by norm_num) 0 (by norm_num)

theorem TypedQueue.length_eq {α : Type} (q : TypedQueue α)
    (hh : q.head < q.capacity) (ht : q.tail < q.capacity) :
    q.length = if q.head ≤ q.tail then q.tail - q.head
               else q.tail + q.capacity - q.head := by
  unfold TypedQueue.length
  split_ifs with h
  · have e : q.tail + q.capacity - q.head = (q.tail - q.head) + q.capacity := by
      omega
    rw [e, Nat.add_mod_right]
    exact Nat.mod_eq_of_lt (by omega)
  · exact Nat.mod_eq_of_lt (by omega)

theorem TypedQueue.append_false_iff {α : Type} (q : TypedQueue α) (x : α)
    (hh : q.head < q.capacity) (ht : q.tail < q.capacity) :
    ((q.append x).2 = false ↔ (q.tail + 1) % q.capacity = q.head)
    ∧ ((q.append x).2 = true ↔ q.length < q.capacity - 1) := by
  have hLen := q.length_eq hh ht
  have hmod : (q.tail + 1) % q.capacity
      = if q.tail + 1 = q.capacity then 0 else q.tail + 1 := by
    split_ifs with hc
    · rw [hc, Nat.mod_self]
    · exact Nat.mod_eq_of_lt (by omega)
  constructor
  · unfold TypedQueue.append
    dsimp only
    split_ifs with h
    · simp [h]
    · simp [h]
  · unfold TypedQueue.append
    dsimp only
    split_ifs with h
    · simp only [Bool.false_eq_true, false_iff]
      rw [hLen]
      rw [hmod] at h
      split_ifs at h ⊢ <;> omega
    · simp only [true_iff]
      rw [hLen]
      rw [hmod] at h
      split_ifs at h ⊢ <;> omega

theorem mod_add_split (head i cap : Nat) (hh : head < cap) (hi : i < cap) :
    (head + i) % cap = if head + i < cap then head + i else head + i - cap := by
  split_ifs with hc
  · exact Nat.mod_eq_of_lt hc
  · have hlt : head + i - cap < cap := by omega
    have e : head + i = (head + i - cap) + cap := by omega
    calc (head + i) % cap = ((head + i - cap) + cap) % cap := by rw [← e]
      _ = (head + i - cap) % cap := Nat.add_mod_right _ _
      _ = head + i - cap := Nat.mod_eq_of_lt hlt

theorem ring_mod (h t cap : Nat) (hh : h < cap) (ht : t < cap) :
    (t + cap - h) % cap = if h ≤ t then t - h else t + cap - h := by
  split_ifs with hle
  · have e : t + cap - h = (t - h) + cap := by omega
    rw [e, Nat.add_mod_right]
    apply Nat.mod_eq_of_lt
    omega
  · apply Nat.mod_eq_of_lt
    omega

theorem TypedQueue.length_lt {α : Type} (q : TypedQueue α)
    (hh : q.head < q.capacity) (ht : q.tail < q.capacity) :
    q.length < q.capacity := by
  rw [q.length_eq hh ht]
  split_ifs <;> omega

theorem TypedQueue.tail_eq_head_add_len {α : Type} (q : TypedQueue α)
    (hh : q.head < q.capacity) (ht : q.tail < q.capacity) :
    (q.head + q.length) % q.capacity = q.tail := by
  rw [q.length_eq hh ht]
  split_ifs with h
  · have e : q.head + (q.tail - q.head) = q.tail := by omega
    rw [e]
    exact Nat.mod_eq_of_lt ht
  · have e : q.head + (q.tail + q.capacity - q.head) = q.tail + q.capacity := by
      omega
    rw [e, Nat.add_mod_right]
    exact Nat.mod_eq_of_lt ht

theorem TypedQueue.slot_ne_tail {α : Type} (q : TypedQueue α)
    (hh : q.head < q.capacity) (ht : q.tail < q.capacity)
    (i : Nat) (hi : i < q.length) :
    (q.head + i) % q.capacity ≠ q.tail := by
  intro hcontra
  have hL := q.tail_eq_head_add_len hh ht
  have hLlt := q.length_lt hh ht
  rw [mod_add_split _ _ _ hh (by omega)] at hcontra
  rw [mod_add_split _ _ _ hh (by omega)] at hL
  split_ifs at hcontra hL <;> omega

theorem TypedQueue.append_model {α : Type} (q : TypedQueue α) (x : α)
    (hh : q.head < q.capacity) (ht : q.tail < q.capacity)
    (hs : (q.append x).2 = true) :
    (q.append x).1.length = q.length + 1
    ∧ queueModel (q.append x).1 = queueModel q ++ [x] := by
  have hLen := q.length_eq hh ht
  have hfull := (q.append_false_iff x hh ht).2.1 hs
  have hnext : ¬ (q.tail + 1) % q.capacity = q.head := by
    intro hc
    have := (q.append_false_iff x hh ht).1.2 hc
    rw [hs] at this
    exact Bool.true_eq_false.mp this
  have happ : (q.append x).1 =
      { items := writeIdx q.items q.tail x, head := q.head,
        tail := (q.tail + 1) % q.capacity, capacity := q.capacity } := by
    unfold TypedQueue.append
    dsimp only
    rw [if_neg hnext]
  have hmod : (q.tail + 1) % q.capacity
      = if q.tail + 1 = q.capacity then 0 else q.tail + 1 := by
    split_ifs with hc
    · rw [hc, Nat.mod_self]
    · exact Nat.mod_eq_of_lt (by omega)
  have hnext2 : (if q.tail + 1 = q.capacity then 0 else q.tail + 1) ≠ q.head := by
    rw [← hmod]; exact hnext
  have hlen2 : (q.append x).1.length = q.length + 1 := by
    rw [happ]
    show ((q.tail + 1) % q.capacity + q.capacity - q.head) % q.capacity = _
    rw [hmod]
    split_ifs at hnext2 ⊢ with hc
    · have e : 0 + q.capacity - q.head = q.capacity - q.head := by omega
      rw [e]
      rw [Nat.mod_eq_of_lt (by omega : q.capacity - q.head < q.capacity)]
      rw [hLen]
      split_ifs <;> omega
    · rw [ring_mod _ _ _ hh (by omega)]
      rw [hLen]
      split_ifs <;> omega
  refine ⟨hlen2, ?_⟩
  unfold queueModel
  rw [hlen2, happ]
  show (List.range (q.length + 1)).map
      (fun i => writeIdx q.items q.tail x ((q.head + i) % q.capacity)) = _
  rw [List.range_succ, List.map_append]
  congr 1
  · apply List.map_congr_left
    intro i hi
    rw [List.mem_range] at hi
    exact writeIdx_ne _ _ _ _ (q.slot_ne_tail hh ht i hi)
  · show [writeIdx q.items q.tail x ((q.head + q.length) % q.capacity)] = [x]
    rw [q.tail_eq_head_add_len hh ht, writeIdx_same]

theorem TypedQueue.pop_model {α : Type} (q : TypedQueue α)
    (hh : q.head < q.capacity) (ht : q.tail < q.capacity) (hne : 0 < q.length) :
    (q.pop).2 = (queueModel q).head?
    ∧ (q.pop).1.length = q.length - 1
    ∧ queueModel (q.pop).1 = (queueModel q).tail := by
  have hLen := q.length_eq hh ht
  have hth : ¬ q.tail = q.head := by
    intro hc
    rw [hc] at hLen
    split_ifs at hLen <;> omega
  have hpop : q.pop
      = (⟨q.items, (q.head + 1) % q.capacity, q.tail, q.capacity⟩,
         some (q.items q.head)) := by
    unfold TypedQueue.pop
    rw [if_neg hth]
  have hmod : (q.head + 1) % q.capacity
      = if q.head + 1 = q.capacity then 0 else q.head + 1 := by
    split_ifs with hc
    · rw [hc, Nat.mod_self]
    · exact Nat.mod_eq_of_lt (by omega)
  have hlen2 : (q.pop).1.length = q.length - 1 := by
    rw [hpop]
    show (q.tail + q.capacity - (q.head + 1) % q.capacity) % q.capacity = _
    rw [hmod]
    split_ifs with hc
    · have e : q.tail + q.capacity - 0 = q.tail + q.capacity := by omega
      rw [e, Nat.add_mod_right, Nat.mod_eq_of_lt ht, hLen]
      split_ifs <;> omega
    · rw [ring_mod _ _ _ (by omega) ht, hLen]
      split_ifs <;> omega
  have hL1 : q.length = (q.length - 1) + 1 := by omega
  have hmodel : queueModel q
      = q.items q.head :: (List.range (q.length - 1)).map
          (fun i => q.items ((q.head + (i + 1)) % q.capacity)) := by
    unfold queueModel
    rw [hL1, List.range_succ_eq_map, List.map_cons]
    congr 1
    · rw [Nat.add_zero, Nat.mod_eq_of_lt hh]
    · rw [List.map_map]
      apply List.map_congr_left
      intro i _
      rfl
  refine ⟨?_, hlen2, ?_⟩
  · rw [hpop, hmodel]
    rfl
  · rw [hmodel]
    show queueModel (q.pop).1 = _
    unfold queueModel
    rw [hlen2, hpop]
    show (List.range (q.length - 1)).map
        (fun i => q.items (((q.head + 1) % q.capacity + i) % q.capacity)) = _
    dsimp only [List.tail_cons]
    apply List.map_congr_left
    intro i hi
    rw [List.mem_range] at hi
    have e1 : ((q.head + 1) % q.capacity + i) % q.capacity
        = (q.head + 1 + i) % q.capacity := Nat.mod_add_mod _ _ _
    rw [e1]
    have e2 : q.head + 1 + i = q.head + (i + 1) := by omega
    rw [e2]

/-- C10: the ring-buffer queue with capacity `n` holds at most `n-1`
elements; `append` succeeds and enqueues exactly when fewer than `n-1`
elements are held, a failed `append` leaves the queue untouched, and
`pop` on a non-empty queue dequeues in first-in-first-out order across
wraparound (head element first, remainder shifted up). -/
theorem C10_queue_ring_contract (α : Type) (q : TypedQueue α) (x : α)
    (hh : q.head < q.capacity) (ht : q.tail < q.capacity) :
    (q.length ≤ q.capacity - 1)
    ∧ ((q.append x).2 = true ↔ q.length < q.capacity - 1)
    ∧ ((q.append x).2 = true →
        (q.append x).1.length = q.length + 1
        ∧ queueModel (q.append x).1 = queueModel q ++ [x])
    ∧ ((q.append x).2 = false → (q.append x).1 = q)
    ∧ (0 < q.length →
        (q.pop).2 = (queueModel q).head?
        ∧ (q.pop).1.length = q.length - 1
        ∧ queueModel (q.pop).1 = (queueModel q).tail) := by
  refine ⟨?_, (q.append_false_iff x hh ht).2, ?_, ?_, ?_⟩
  · have := q.length_lt hh ht
    omega
  · exact fun hs => q.append_model x hh ht hs
  · intro hfail
    unfold TypedQueue.append
    unfold TypedQueue.append at hfail
    dsimp only at hfail ⊢
    split_ifs at hfail ⊢ with h
    · rfl
  · exact fun hne => q.pop_model hh ht hne

/-- Witness for C10: a wrapped-around queue of capacity 3 holding one
element. -/
theorem C10_queue_ring_contract_witness :
    let q : TypedQueue Nat := ⟨fun i => i + 10, 2, 0, 3⟩
    (q.length ≤ q.capacity - 1)
    ∧ ((q.append 99).2 = true ↔ q.length < q.capacity - 1)
    ∧ ((q.append 99).2 = true →
        (q.append 99).1.length = q.length + 1
        ∧ queueModel (q.append 99).1 = queueModel q ++ [99])
    ∧ ((q.append 99).2 = false → (q.append 99).1 = q)
    ∧ (0 < q.length →
        (q.pop).2 = (queueModel q).head?
        ∧ (q.pop).1.length = q.length - 1
        ∧ queueModel (q.pop).1 = (queueModel q).tail) :=
  C10_queue_ring_contract Nat ⟨fun i => i + 10, 2, 0, 3⟩ 99
    (by norm_num) (by norm_num)

/-- C4: the 20-bit cross abstraction does not commute with the real turn
engine: already on the solved cube and the clockwise Front (Green) turn,
converting after the turn and turning the converted state disagree
(`0x84e51` vs `0x99230`) — the rows of `CROSS_TURN_TABLE` do not match
the slot cycles the turn engine actually performs. -/
theorem C4_cross_abstraction_mismatch :
    ConvertToCrossCube (CubeTurn solvedCube TURN_FRONT) ≠
      TurnCrossCube (ConvertToCrossCube solvedCube) TURN_FRONT := by
  decide

/-- C3: `SolveCross` fails on a solved cube scrambled by one clockwise
Front turn: the BFS over the corrupted cross abstraction returns a
1-move "path" (the up-anticlockwise turn) after which the four white
edges are not in place, so `IsCrossSolved` is false — contradicting the
claim that the appended sequence always solves the cross. -/
theorem C3_solve_cross_unsolved :
    (SolveCross ⟨fun _ => 0, 0, 300⟩ (CubeTurn solvedCube TURN_FRONT)).1.length = 1 ∧
    IsCrossSolved (SolveCross ⟨fun _ => 0, 0, 300⟩ (CubeTurn solvedCube TURN_FRONT)).2
      = false := by
  constructor
  · decide
  · decide

theorem swapFn_left (a b : Nat) : swapFn a b a = b := by simp [swapFn]

theorem swapFn_right (a b : Nat) : swapFn a b b = a := by
  unfold swapFn
  split_ifs with h1 h2
  · exact h1
  · rfl
  · exact absurd rfl h2

theorem swapFn_other (a b x : Nat) (h1 : x ≠ a) (h2 : x ≠ b) :
    swapFn a b x = x := by simp [swapFn, h1, h2]

theorem swapFn_lt (a b x n : Nat) (ha : a < n) (hb : b < n) (hx : x < n) :
    swapFn a b x < n := by
  unfold swapFn; split_ifs <;> assumption

theorem swapFn_invol (a b x : Nat) : swapFn a b (swapFn a b x) = x := by
  unfold swapFn
  by_cases h1 : x = a
  · by_cases h2 : b = a <;> simp [h1, h2]
  · by_cases h2 : x = b
    · simp [h1, h2]
    · simp [h1, h2]

theorem PermOn.congr_fn {p q : Nat → Nat} {n : Nat} (h : ∀ x, q x = p x)
    (hp : PermOn p n) : PermOn q n := by
  constructor
  · intro j hj; rw [h]; exact hp.1 j hj
  · intro j hj k hk hjk; rw [h, h] at hjk; exact hp.2 j hj k hk hjk

theorem PermOn.comp_swap {p : Nat → Nat} {n a b : Nat} (hp : PermOn p n)
    (ha : a < n) (hb : b < n) : PermOn (fun x => p (swapFn a b x)) n := by
  constructor
  · intro j hj; exact hp.1 _ (swapFn_lt a b j n ha hb hj)
  · intro j hj k hk hjk
    have h2 := hp.2 _ (swapFn_lt a b j n ha hb hj) _
      (swapFn_lt a b k n ha hb hk) hjk
    have := congrArg (swapFn a b) h2
    rwa [swapFn_invol, swapFn_invol] at this

/-- The in-place double write of the sweep body equals composing with a
transposition: with `t = pieces i ≠ i`, writing `pieces[i] := pieces[t]`
and `pieces[t] := t` yields `pieces ∘ (i t)`. -/
theorem swap_write_eq (p : Nat → Nat) (i t : Nat) (ht : p i = t)
    (hne : t ≠ i) (x : Nat) :
    writeIdx (writeIdx p i (p t)) t t x = p (swapFn i t x) := by
  by_cases h1 : x = t
  · subst h1
    rw [writeIdx_same, swapFn_right, ht]
  · by_cases h2 : x = i
    · subst h2
      rw [writeIdx_ne _ _ _ _ h1, writeIdx_same, swapFn_left]
    · rw [writeIdx_ne _ _ _ _ h1, writeIdx_ne _ _ _ _ h2,
        swapFn_other _ _ _ h2 h1]

theorem applySwapsR_congr (l : List (Nat × Nat)) (p q : Nat → Nat)
    (h : ∀ x, p x = q x) (j : Nat) :
    applySwapsR p l j = applySwapsR q l j := by
  induction l generalizing p q with
  | nil => exact h j
  | cons ab l ih => exact ih _ _ (fun x => h _)

theorem and_one_shiftLeft_ne_zero (x b : Nat) :
    x &&& (1 <<< b) ≠ 0 ↔ x.testBit b = true := by
  rw [Nat.one_shiftLeft]
  constructor
  · intro h
    by_contra hb
    rw [Bool.not_eq_true] at hb
    apply h
    apply Nat.eq_of_testBit_eq
    intro j
    simp only [Nat.testBit_and, Nat.zero_testBit]
    rcases eq_or_ne j b with rfl | hj
    · simp [hb]
    · simp [Nat.testBit_two_pow_of_ne (Ne.symm hj)]
  · intro h hz
    have h2 := congrArg (fun y => y.testBit b) hz
    simp only [Nat.testBit_and, Nat.zero_testBit, h,
      Nat.testBit_two_pow_self, Bool.and_self] at h2
    exact Bool.noConfusion h2

theorem nonfixed_le (p : Nat → Nat) (n : Nat) : nonfixed p n ≤ n := by
  calc ((Finset.range n).filter (fun j => p j ≠ j)).card
      ≤ (Finset.range n).card := Finset.card_filter_le _ _
    _ = n := Finset.card_range n

/-- Core sweep lemma: on a permutation, the loop of
`CubePermutationParitySwaps` never takes the `-1` branch and terminates
(within the stated fuel) having performed a list of transpositions that
sorts the array to the identity. -/
theorem sweepGo_spec (n : Nat) :
    ∀ (fuel : Nat) (p : Nat → Nat) (seen i swaps : Nat),
    PermOn p n → (∀ j, j < i → p j = j) →
    (∀ b, b < n → seen &&& (1 <<< b) ≠ 0 → p b = b) →
    i ≤ n → (n + 1 - i) + nonfixed p n ≤ fuel →
    ∃ (s : Nat) (l : List (Nat × Nat)),
      sweepGo n fuel p seen i swaps = some ((swaps + s : Nat) : Int) ∧
      l.length = s ∧
      (∀ ab ∈ l, ab.1 < n ∧ ab.2 < n ∧ ab.1 ≠ ab.2) ∧
      (∀ j, j < n → applySwapsR p l j = j) := by
  intro fuel
  induction fuel with
  | zero =>
    intro p seen i swaps _ _ _ hi hfuel
    exact absurd hfuel (by omega)
  | succ fuel ih =>
    intro p seen i swaps hperm hfix hseen hi hfuel
    by_cases hin : i < n
    · by_cases hpii : p i = i
      · -- fixed point: step to i+1
        have hfix2 : ∀ j, j < i + 1 → p j = j := by
          intro j hj
          rcases Nat.lt_succ_iff_lt_or_eq.mp hj with h | h
          · exact hfix j h
          · exact h ▸ hpii
        obtain ⟨s, l, h1, h2, h3, h4⟩ :=
          ih p seen (i + 1) swaps hperm hfix2 hseen (by omega) (by omega)
        refine ⟨s, l, ?_, h2, h3, h4⟩
        rw [sweepGo, if_pos hin, if_neg (by simpa using hpii)]
        exact h1
      · -- non-fixed point: swap p i home
        have hti : p i < n := hperm.1 i hin
        have htne : p i ≠ i := hpii
        have hsbit : ¬(seen &&& (1 <<< i) ≠ 0) := fun h => hpii (hseen i hin h)
        -- the written array equals p composed with the transposition
        have hpw : ∀ x, writeIdx (writeIdx p i (p (p i))) (p i) (p i) x
            = p (swapFn i (p i) x) :=
          swap_write_eq p i (p i) rfl htne
        have htgt : i < p i := by
          rcases Nat.lt_trichotomy (p i) i with h | h | h
          · exact absurd (hperm.2 _ hti _ hin (by rw [hfix _ h]))
              (by intro he; exact htne he)
          · exact absurd h htne
          · exact h
        have hperm2 : PermOn (writeIdx (writeIdx p i (p (p i))) (p i) (p i)) n :=
          PermOn.congr_fn hpw (hperm.comp_swap hin hti)
        have hfix2 : ∀ j, j < i →
            writeIdx (writeIdx p i (p (p i))) (p i) (p i) j = j := by
          intro j hj
          rw [hpw, swapFn_other _ _ _ (by omega) (by omega)]
          exact hfix j hj
        have hseen2 : ∀ b, b < n →
            (seen ||| (1 <<< p i)) &&& (1 <<< b) ≠ 0 →
            writeIdx (writeIdx p i (p (p i))) (p i) (p i) b = b := by
          intro b hb hbit
          rw [and_one_shiftLeft_ne_zero, Nat.testBit_or] at hbit
          rcases eq_or_ne b (p i) with rfl | hbne
          · rw [hpw, swapFn_right]
          · have hbit2 : seen.testBit b = true := by
              rcases Bool.or_eq_true_iff.mp hbit with h | h
              · exact h
              · rw [Nat.one_shiftLeft] at h
                exact absurd h (by simp [Nat.testBit_two_pow_of_ne
                    (fun he => hbne he.symm)])
            have hpb : p b = b :=
              hseen b hb ((and_one_shiftLeft_ne_zero seen b).mpr hbit2)
            have hbi : b ≠ i := fun he => hpii (he ▸ hpb)
            rw [hpw, swapFn_other _ _ _ hbi hbne]
            exact hpb
        have hnf : nonfixed (writeIdx (writeIdx p i (p (p i))) (p i) (p i)) n
            < nonfixed p n := by
          apply Finset.card_lt_card
          constructor
          · intro j hj
            simp only [Finset.mem_filter, Finset.mem_range] at hj ⊢
            refine ⟨hj.1, ?_⟩
            have hj2 := hj.2
            rw [hpw] at hj2
            rcases eq_or_ne j (p i) with rfl | hjt
            · rw [swapFn_right] at hj2; exact absurd rfl hj2
            · rcases eq_or_ne j i with rfl | hji
              · exact htne
              · rwa [swapFn_other _ _ _ hji hjt] at hj2
          · intro hsub
            have hmem : p i ∈ (Finset.range n).filter (fun j => p j ≠ j) := by
              simp only [Finset.mem_filter, Finset.mem_range]
              refine ⟨hti, fun he => htne (hperm.2 _ hti _ hin he)⟩
            have hmem2 := hsub hmem
            simp only [Finset.mem_filter, Finset.mem_range] at hmem2
            have := hmem2.2
            rw [hpw, swapFn_right] at this
            exact this rfl
        obtain ⟨s, l, h1, h2, h3, h4⟩ :=
          ih (writeIdx (writeIdx p i (p (p i))) (p i) (p i))
            (seen ||| (1 <<< p i)) i (swaps + 1) hperm2 hfix2 hseen2 hi
            (by omega)
        refine ⟨s + 1, (i, p i) :: l, ?_, by simp [h2], ?_, ?_⟩
        · rw [sweepGo, if_pos hin, if_pos hpii, if_neg hsbit]
          simp only []
          rw [h1]
          congr 1
          push_cast
          ring
        · intro ab hab
          rcases List.mem_cons.mp hab with rfl | h
          · exact ⟨hin, hti, fun he => htne he.symm⟩
          · exact h3 ab h
        · intro j hj
          show applySwapsR (fun x => p (swapFn i (p i) x)) l j = j
          rw [applySwapsR_congr l _ _ (fun x => (hpw x).symm)]
          exact h4 j hj
    · -- i = n: loop done
      have hieq : i = n := by omega
      refine ⟨0, [], ?_, rfl, by intro ab hab; exact absurd hab (by simp), ?_⟩
      · rw [sweepGo, if_neg hin]
        simp
      · intro j hj
        exact hfix j (hieq ▸ hj)

/-- `CubePermutationParitySwaps` on a permutation of `[0, n)`, `n < 16`:
no `-1`, termination, and the result counts a transposition
decomposition that sorts the permutation. -/
theorem sweep_total (p : Nat → Nat) (n : Nat) (hn : n < 16)
    (hperm : PermOn p n) :
    ∃ (s : Nat) (l : List (Nat × Nat)),
      CubePermutationParitySwaps p n = some ((s : Nat) : Int) ∧
      l.length = s ∧
      (∀ ab ∈ l, ab.1 < n ∧ ab.2 < n ∧ ab.1 ≠ ab.2) ∧
      (∀ j, j < n → applySwapsR p l j = j) := by
  have hseen0 : ∀ b, b < n →
      ((0xFFFF <<< n) % 65536) &&& (1 <<< b) ≠ 0 → p b = b := by
    intro b hb hbit
    rw [and_one_shiftLeft_ne_zero] at hbit
    have h65536 : (65536 : Nat) = 2 ^ 16 := by norm_num
    rw [h65536, Nat.testBit_mod_two_pow, Nat.testBit_shiftLeft] at hbit
    simp only [Bool.and_eq_true, decide_eq_true_eq] at hbit
    omega
  obtain ⟨s, l, h1, h2, h3, h4⟩ :=
    sweepGo_spec n (2 * n + 2) p ((0xFFFF <<< n) % 65536) 0 0 hperm
      (by intro j hj; omega) hseen0 (Nat.zero_le n)
      (by have := nonfixed_le p n; omega)
  exact ⟨s, l, by simpa using h1, h2, h3, h4⟩

/-- `CubeParityLookup` returns a row index of the table or `length`
(the no-match sentinel), never more. -/
theorem lookup_fst_le (table temp : Nat → Nat) (length count : Nat) :
    (CubeParityLookup table temp length count).1 ≤ length := by
  unfold CubeParityLookup
  cases hfs : (List.range length).findSome? (fun i =>
    (List.range count).findSome? (fun j =>
      if (List.range count).all
          (fun k => table (Index2D ((k + j) % count) i count length) = temp k)
      then some (i, j) else none)) with
  | none => simp
  | some b =>
    obtain ⟨a, ha, hfa⟩ := List.exists_of_findSome?_eq_some hfs
    obtain ⟨j, _, hfj⟩ := List.exists_of_findSome?_eq_some hfa
    simp only [Option.getD_some]
    have hb : b = (a, j) := by
      by_cases hc : (List.range count).all
          (fun k => table (Index2D ((k + j) % count) a count length) = temp k)
      · rw [if_pos hc] at hfj; exact (Option.some_inj.mp hfj).symm
      · rw [if_neg hc] at hfj; exact absurd hfj (by simp)
    rw [hb]
    exact Nat.le_of_lt (List.mem_range.mp ha)

/-- Invariant induction for the outer loop of `CubePieceParity`: the
`seen` bitset records exactly the piece types written so far (plus the
always-on padding bits at and above `length`), so a successful run
fills `pieces` with `length` pairwise-distinct values below `length`. -/
theorem pieceParityGo_perm (cube : Cube) (ct pt : Nat → Nat)
    (length count : Nat) (hlen : length < 16) :
    ∀ (n i seen parity : Nat) (pieces p : Nat → Nat),
    n + i = length → seen < 2 ^ 16 →
    (∀ b, b < 16 → (seen.testBit b = true ↔
      (length ≤ b ∨ ∃ j, j < i ∧ pieces j = b))) →
    (∀ j, j < i → pieces j < length) →
    (∀ j, j < i → ∀ k, k < i → pieces j = pieces k → j = k) →
    pieceParityGo cube ct pt length count n i seen parity pieces = some p →
    PermOn p length := by
  intro n
  induction n with
  | zero =>
    intro i seen parity pieces p hni _ _ hrec hinj hrun
    have hi : i = length := by omega
    rw [pieceParityGo] at hrun
    by_cases h1 : seen ≠ 0xFFFF
    · rw [if_pos h1] at hrun; exact absurd hrun (by simp)
    · rw [if_neg h1] at hrun
      by_cases h2 : parity % count ≠ 0
      · rw [if_pos h2] at hrun; exact absurd hrun (by simp)
      · rw [if_neg h2] at hrun
        have hp : p = pieces := (Option.some_inj.mp hrun).symm
        subst hp hi
        exact ⟨hrec, hinj⟩
  | succ n ih =>
    intro i seen parity pieces p hni hslt hinv hrec hinj hrun
    rw [pieceParityGo] at hrun
    by_cases hdup : (List.range count).any (fun j =>
        (List.range count).any (fun k =>
          decide (j < k) &&
            (decide ((fun j => FaceGetTile (cube (ct (Index2D j i count length)))
                (pt (Index2D j i count length))) j
              = (fun j => FaceGetTile (cube (ct (Index2D j i count length)))
                (pt (Index2D j i count length))) k)
             || decide (((fun j => FaceGetTile (cube (ct (Index2D j i count length)))
                (pt (Index2D j i count length))) j + 6 / 2) % 6
              = (fun j => FaceGetTile (cube (ct (Index2D j i count length)))
                (pt (Index2D j i count length))) k)))) = true
    · rw [if_pos hdup] at hrun; exact absurd hrun (by simp)
    · rw [if_neg (by simpa using hdup)] at hrun
      simp only [] at hrun
      set r := CubeParityLookup ct (fun j =>
        FaceGetTile (cube (ct (Index2D j i count length)))
          (pt (Index2D j i count length))) length count with hr
      by_cases hchk : (seen ^^^ (1 <<< r.1)) &&& (1 <<< r.1) = 0
      · rw [if_pos hchk] at hrun; exact absurd hrun (by simp)
      · rw [if_neg hchk] at hrun
        -- the toggle left the bit on, so it was off before
        have hbit : (seen ^^^ (1 <<< r.1)).testBit r.1 = true :=
          (and_one_shiftLeft_ne_zero _ _).mp hchk
        rw [Nat.one_shiftLeft, Nat.testBit_xor, Nat.testBit_two_pow_self] at hbit
        have hoff : seen.testBit r.1 = false := by
          cases h : seen.testBit r.1
          · rfl
          · rw [h] at hbit; exact Bool.noConfusion hbit
        have hr_le : r.1 ≤ length := lookup_fst_le _ _ _ _
        have hr_lt : r.1 < length := by
          rcases Nat.lt_or_ge r.1 length with h | h
          · exact h
          · have heq : r.1 = length := by omega
            have := (hinv r.1 (by omega)).mpr (Or.inl (by omega))
            rw [this] at hoff
            exact Bool.noConfusion hoff
        have hfresh : ¬∃ j, j < i ∧ pieces j = r.1 := by
          intro hex
          have := (hinv r.1 (by omega)).mpr (Or.inr hex)
          rw [this] at hoff
          exact Bool.noConfusion hoff
        -- re-establish the invariants one step in
        refine ih (i + 1) (seen ^^^ (1 <<< r.1)) (parity + r.2)
          (writeIdx pieces i r.1) p (by omega) ?_ ?_ ?_ ?_ hrun
        · rw [Nat.one_shiftLeft]
          exact Nat.xor_lt_two_pow hslt
            (Nat.pow_lt_pow_right (by omega) (by omega))
        · intro b hb
          rw [Nat.one_shiftLeft, Nat.testBit_xor]
          rcases eq_or_ne b r.1 with rfl | hbne
          · rw [hoff, Nat.testBit_two_pow_self]
            simp only [Bool.false_xor]
            constructor
            · intro _
              exact Or.inr ⟨i, by omega, writeIdx_same _ _ _⟩
            · intro _; exact trivial
          · rw [Nat.testBit_two_pow_of_ne (fun he => hbne he.symm)]
            simp only [Bool.xor_false]
            rw [hinv b hb]
            constructor
            · rintro (h | ⟨j, hj, hpj⟩)
              · exact Or.inl h
              · exact Or.inr ⟨j, by omega,
                  by rw [writeIdx_ne _ _ _ _ (by omega)]; exact hpj⟩
            · rintro (h | ⟨j, hj, hpj⟩)
              · exact Or.inl h
              · rcases Nat.lt_succ_iff_lt_or_eq.mp hj with h2 | h2
                · exact Or.inr ⟨j, h2,
                    by rw [writeIdx_ne _ _ _ _ (by omega)] at hpj; exact hpj⟩
                · subst h2
                  rw [writeIdx_same] at hpj
                  exact absurd hpj (fun he => hbne he.symm)
        · intro j hj
          rcases Nat.lt_succ_iff_lt_or_eq.mp hj with h | h
          · rw [writeIdx_ne _ _ _ _ (by omega)]; exact hrec j h
          · subst h; rw [writeIdx_same]; exact hr_lt
        · intro j hj k hk hjk
          rcases Nat.lt_succ_iff_lt_or_eq.mp hj with h1 | h1 <;>
            rcases Nat.lt_succ_iff_lt_or_eq.mp hk with h2 | h2
          · rw [writeIdx_ne _ _ _ _ (by omega),
              writeIdx_ne _ _ _ _ (by omega)] at hjk
            exact hinj j h1 k h2 hjk
          · subst h2
            rw [writeIdx_ne _ _ _ _ (by omega), writeIdx_same] at hjk
            exact absurd ⟨j, h1, hjk⟩ hfresh
          · subst h1
            rw [writeIdx_same, writeIdx_ne _ _ _ _ (by omega)] at hjk
            exact absurd ⟨k, h2, hjk.symm⟩ hfresh
          · omega

/-- A successful `CubePieceParity` fills `pieces` with a permutation of
`[0, length)`. -/
theorem CubePieceParity_perm (cube : Cube) (ct pt : Nat → Nat)
    (length count : Nat) (hlen : length < 16) (p : Nat → Nat)
    (h : CubePieceParity cube ct pt length count = some p) :
    PermOn p length := by
  apply pieceParityGo_perm cube ct pt length count hlen length 0
    ((0xFFFF <<< length) % 65536) 0 (fun _ => 0) p (by omega) ?_ ?_ ?_ ?_ h
  · exact Nat.mod_lt _ (by norm_num)
  · intro b hb
    have h65536 : (65536 : Nat) = 2 ^ 16 := by norm_num
    rw [h65536, Nat.testBit_mod_two_pow, Nat.testBit_shiftLeft]
    have h0xffff : (0xFFFF : Nat) = 2 ^ 16 - 1 := by norm_num
    rw [h0xffff, Nat.testBit_two_pow_sub_one]
    constructor
    · intro hc
      simp only [Bool.and_eq_true, decide_eq_true_eq] at hc
      exact Or.inl hc.2.1
    · rintro (hc | ⟨j, hj, _⟩)
      · simp only [Bool.and_eq_true, decide_eq_true_eq]
        exact ⟨hb, hc, by omega⟩
      · omega
  · intro j hj; omega
  · intro j hj; omega

/-- C9: when both piece-parity checks pass, the position arrays are
permutations of their index ranges, and the permutation-parity sweep on
each never takes its `-1` revisit-abort branch: it terminates with a
count `s` for which `s` transpositions (the very swaps the sweep
performs) sort the array to the identity — the swap count of a cycle
decomposition. -/
theorem C9_sweep_never_aborts (cube : Cube) (ep cp : Nat → Nat)
    (he : CubePieceParity cube CUBE_EDGE_COLOUR_TABLE
      CUBE_EDGE_POSITION_TABLE 12 2 = some ep)
    (hc : CubePieceParity cube CUBE_CORNER_COLOUR_TABLE
      CUBE_CORNER_POSITION_TABLE 8 3 = some cp) :
    PermOn ep 12 ∧ PermOn cp 8 ∧
    (∃ (s : Nat) (l : List (Nat × Nat)),
      CubePermutationParitySwaps ep 12 = some (s : Int) ∧ l.length = s ∧
      (∀ ab ∈ l, ab.1 < 12 ∧ ab.2 < 12 ∧ ab.1 ≠ ab.2) ∧
      ∀ j, j < 12 → applySwapsR ep l j = j) ∧
    (∃ (s : Nat) (l : List (Nat × Nat)),
      CubePermutationParitySwaps cp 8 = some (s : Int) ∧ l.length = s ∧
      (∀ ab ∈ l, ab.1 < 8 ∧ ab.2 < 8 ∧ ab.1 ≠ ab.2) ∧
      ∀ j, j < 8 → applySwapsR cp l j = j) := by
  have hpe := CubePieceParity_perm cube _ _ 12 2 (by omega) ep he
  have hpc := CubePieceParity_perm cube _ _ 8 3 (by omega) cp hc
  exact ⟨hpe, hpc, sweep_total ep 12 (by omega) hpe,
    sweep_total cp 8 (by omega) hpc⟩

theorem C9_sweep_never_aborts_witness :
    ∃ ep cp,
      CubePieceParity solvedCube CUBE_EDGE_COLOUR_TABLE
        CUBE_EDGE_POSITION_TABLE 12 2 = some ep ∧
      CubePieceParity solvedCube CUBE_CORNER_COLOUR_TABLE
        CUBE_CORNER_POSITION_TABLE 8 3 = some cp ∧
      (PermOn ep 12 ∧ PermOn cp 8 ∧
      (∃ (s : Nat) (l : List (Nat × Nat)),
        CubePermutationParitySwaps ep 12 = some (s : Int) ∧ l.length = s ∧
        (∀ ab ∈ l, ab.1 < 12 ∧ ab.2 < 12 ∧ ab.1 ≠ ab.2) ∧
        ∀ j, j < 12 → applySwapsR ep l j = j) ∧
      (∃ (s : Nat) (l : List (Nat × Nat)),
        CubePermutationParitySwaps cp 8 = some (s : Int) ∧ l.length = s ∧
        (∀ ab ∈ l, ab.1 < 8 ∧ ab.2 < 8 ∧ ab.1 ≠ ab.2) ∧
        ∀ j, j < 8 → applySwapsR cp l j = j)) := by
  have h1 : (CubePieceParity solvedCube CUBE_EDGE_COLOUR_TABLE
      CUBE_EDGE_POSITION_TABLE 12 2).isSome = true := by decide
  have h2 : (CubePieceParity solvedCube CUBE_CORNER_COLOUR_TABLE
      CUBE_CORNER_POSITION_TABLE 8 3).isSome = true := by decide
  exact ⟨_, _, (Option.some_get h1).symm, (Option.some_get h2).symm,
    C9_sweep_never_aborts solvedCube _ _ (Option.some_get h1).symm
      (Option.some_get h2).symm⟩

theorem findSome_range_none_iff {β : Type} (f : Nat → Option β) (n : Nat) :
    (List.range n).findSome? f = none ↔ ∀ i, i < n → f i = none := by
  rw [List.findSome?_eq_none_iff]
  constructor
  · intro h i hi; exact h i (List.mem_range.mpr hi)
  · intro h i hi; exact h i (List.mem_range.mp hi)

theorem findSome_range_some {β : Type} (f : Nat → Option β) (n i : Nat)
    (b : β) (hi : i < n) (hfi : f i = some b)
    (hprev : ∀ k, k < i → f k = none) :
    (List.range n).findSome? f = some b := by
  induction n with
  | zero => omega
  | succ n ih =>
    rw [List.range_succ, List.findSome?_append]
    rcases Nat.lt_or_ge i n with h | h
    · rw [ih h]; rfl
    · have hieq : i = n := by omega
      subst hieq
      rw [(findSome_range_none_iff f i).mpr (fun k hk => hprev k hk)]
      simp [hfi]

theorem lookup_of_unique (table temp : Nat → Nat) (length count m d : Nat)
    (hm : m < length) (hd : d < count)
    (hmatch : ∀ k, k < count →
      table (Index2D ((k + d) % count) m count length) = temp k)
    (huniq : ∀ m' j', m' < length → j' < count →
      (∀ k, k < count →
        table (Index2D ((k + j') % count) m' count length) = temp k) →
      m' = m ∧ j' = d) :
    CubeParityLookup table temp length count = (m, d) := by
  unfold CubeParityLookup
  have hinner : ∀ i', i' < length →
      ((List.range count).findSome? (fun j =>
        if (List.range count).all
            (fun k => table (Index2D ((k + j) % count) i' count length) = temp k)
        then some (i', j) else none))
      = if i' = m then some (m, d) else none := by
    intro i' hi'
    by_cases him : i' = m
    · subst him
      rw [if_pos rfl]
      apply findSome_range_some _ _ d _ hd
      · rw [if_pos]
        simp only [List.all_eq_true, List.mem_range, decide_eq_true_eq]
        intro k hk
        exact hmatch k hk
      · intro j' hj'
        rw [if_neg]
        simp only [List.all_eq_true, List.mem_range, decide_eq_true_eq]
        intro hall
        have := (huniq i' j' hi' (by omega) (fun k hk => hall k hk)).2
        omega
    · rw [if_neg him]
      rw [findSome_range_none_iff]
      intro j' hj'
      rw [if_neg]
      simp only [List.all_eq_true, List.mem_range, decide_eq_true_eq]
      intro hall
      exact him (huniq i' j' hi' hj' (fun k hk => hall k hk)).1
  have houter : (List.range length).findSome? (fun i =>
      (List.range count).findSome? (fun j =>
        if (List.range count).all
            (fun k => table (Index2D ((k + j) % count) i count length) = temp k)
        then some (i, j) else none)) = some (m, d) := by
    apply findSome_range_some _ _ m _ hm
    · rw [hinner m hm, if_pos rfl]
    · intro k hk
      rw [hinner k (by omega), if_neg (by omega)]
  rw [houter]
  rfl

theorem lookup_match_of_fst_lt (table temp : Nat → Nat) (length count : Nat)
    (h : (CubeParityLookup table temp length count).1 < length) :
    (CubeParityLookup table temp length count).2 < count ∧
    ∀ k, k < count →
      table (Index2D ((k + (CubeParityLookup table temp length count).2) % count)
        (CubeParityLookup table temp length count).1 count length) = temp k := by
  rcases hfs : (List.range length).findSome? (fun i =>
    (List.range count).findSome? (fun j =>
      if (List.range count).all
          (fun k => table (Index2D ((k + j) % count) i count length) = temp k)
      then some (i, j) else none)) with _ | b
  · exfalso
    unfold CubeParityLookup at h
    rw [hfs] at h
    simp at h
  · obtain ⟨a, ha, hfa⟩ := List.exists_of_findSome?_eq_some hfs
    obtain ⟨j, hj, hfj⟩ := List.exists_of_findSome?_eq_some hfa
    by_cases hc : (List.range count).all
        (fun k => table (Index2D ((k + j) % count) a count length) = temp k)
    · rw [if_pos hc] at hfj
      have hb : b = (a, j) := (Option.some_inj.mp hfj).symm
      have hlk : CubeParityLookup table temp length count = (a, j) := by
        unfold CubeParityLookup
        rw [hfs, hb]
        rfl
      rw [hlk]
      simp only [List.all_eq_true, List.mem_range, decide_eq_true_eq] at hc
      exact ⟨List.mem_range.mp hj, fun k hk => hc k hk⟩
    · rw [if_neg hc] at hfj
      exact absurd hfj (by simp)

theorem pieceParityGo_succ (cube : Cube) (ct pt : Nat → Nat)
    (length count n i seen parity : Nat) (pieces : Nat → Nat) :
    pieceParityGo cube ct pt length count (n + 1) i seen parity pieces
      = if dupB (tempOf cube ct pt length count i) count = true then none
        else if (seen ^^^ (1 <<<
            (CubeParityLookup ct (tempOf cube ct pt length count i) length count).1))
            &&& (1 <<<
            (CubeParityLookup ct (tempOf cube ct pt length count i) length count).1)
            = 0 then none
        else pieceParityGo cube ct pt length count n (i + 1)
          (seen ^^^ (1 <<<
            (CubeParityLookup ct (tempOf cube ct pt length count i) length count).1))
          (parity +
            (CubeParityLookup ct (tempOf cube ct pt length count i) length count).2)
          (writeIdx pieces i
            (CubeParityLookup ct (tempOf cube ct pt length count i) length count).1) :=
  rfl

theorem pieceParityGo_run (cube : Cube) (ct pt : Nat → Nat)
    (length count : Nat) :
    ∀ (n i seen parity : Nat) (pieces p : Nat → Nat),
    n + i = length →
    pieceParityGo cube ct pt length count n i seen parity pieces = some p →
    (∀ x, x < i → p x = pieces x) ∧
    (∀ x, i ≤ x → x < length →
      p x = (CubeParityLookup ct (tempOf cube ct pt length count x) length count).1 ∧
      dupB (tempOf cube ct pt length count x) count = false) ∧
    (parity + ∑ x ∈ Finset.Ico i length,
      (CubeParityLookup ct (tempOf cube ct pt length count x) length count).2)
      % count = 0 := by
  intro n
  induction n with
  | zero =>
    intro i seen parity pieces p hni hrun
    have hi : i = length := by omega
    rw [pieceParityGo] at hrun
    by_cases h1 : seen ≠ 0xFFFF
    · rw [if_pos h1] at hrun; exact absurd hrun (by simp)
    · rw [if_neg h1] at hrun
      by_cases h2 : parity % count ≠ 0
      · rw [if_pos h2] at hrun; exact absurd hrun (by simp)
      · rw [if_neg h2] at hrun
        have hp : p = pieces := (Option.some_inj.mp hrun).symm
        subst hp
        refine ⟨fun x _ => rfl, fun x hx hx2 => absurd (by omega : x < length) (by omega), ?_⟩
        rw [hi, Finset.Ico_self, Finset.sum_empty, Nat.add_zero]
        exact of_not_not h2
  | succ n ih =>
    intro i seen parity pieces p hni hrun
    rw [pieceParityGo_succ] at hrun
    set r := CubeParityLookup ct (tempOf cube ct pt length count i) length count
      with hrdef
    by_cases hdup : dupB (tempOf cube ct pt length count i) count = true
    · rw [if_pos hdup] at hrun; exact absurd hrun (by simp)
    · rw [if_neg hdup] at hrun
      by_cases hchk : (seen ^^^ (1 <<< r.1)) &&& (1 <<< r.1) = 0
      · rw [if_pos hchk] at hrun; exact absurd hrun (by simp)
      · rw [if_neg hchk] at hrun
        obtain ⟨ha, hb, hc⟩ := ih (i + 1) _ _ _ p (by omega) hrun
        have hilt : i < length := by omega
        refine ⟨?_, ?_, ?_⟩
        · intro x hx
          rw [ha x (by omega), writeIdx_ne _ _ _ _ (by omega)]
        · intro x hx hx2
          rcases Nat.eq_or_lt_of_le hx with hxe | hxl
          · refine ⟨?_, by rw [← hxe]; simpa using hdup⟩
            rw [ha x (by omega), ← hxe, writeIdx_same, hrdef]
          · exact hb x (by omega) hx2
        · rw [Finset.sum_eq_sum_Ico_succ_bot hilt, ← hrdef, ← Nat.add_assoc]
          exact hc

theorem pieceParityGo_of (cube : Cube) (ct pt : Nat → Nat)
    (length count : Nat) (hlen : length < 16) :
    ∀ (n i seen parity : Nat) (pieces : Nat → Nat),
    n + i = length → seen < 2 ^ 16 →
    (∀ b, b < 16 → (seen.testBit b = true ↔
      (length ≤ b ∨ ∃ j, j < i ∧ pieces j = b))) →
    (∀ x, i ≤ x → x < length →
      dupB (tempOf cube ct pt length count x) count = false) →
    (∀ x, i ≤ x → x < length →
      (CubeParityLookup ct (tempOf cube ct pt length count x) length count).1
        < length) →
    (∀ x, i ≤ x → x < length →
      (∀ j, j < i → pieces j ≠
        (CubeParityLookup ct (tempOf cube ct pt length count x) length count).1)
      ∧ (∀ y, i ≤ y → y < x →
        (CubeParityLookup ct (tempOf cube ct pt length count y) length count).1
        ≠ (CubeParityLookup ct (tempOf cube ct pt length count x) length count).1)) →
    (∀ b, b < length → (∃ j, j < i ∧ pieces j = b) ∨
      (∃ x, i ≤ x ∧ x < length ∧
        (CubeParityLookup ct (tempOf cube ct pt length count x) length count).1 = b)) →
    ((parity + ∑ x ∈ Finset.Ico i length,
      (CubeParityLookup ct (tempOf cube ct pt length count x) length count).2)
      % count = 0) →
    pieceParityGo cube ct pt length count n i seen parity pieces
      = some (fun x => if i ≤ x ∧ x < length then
          (CubeParityLookup ct (tempOf cube ct pt length count x) length count).1
        else pieces x) := by
  intro n
  induction n with
  | zero =>
    intro i seen parity pieces hni hslt hinv _ _ _ hsurj hpar
    have hi : i = length := by omega
    have hseen : seen = 0xFFFF := by
      apply Nat.eq_of_testBit_eq
      intro b
      rcases Nat.lt_or_ge b 16 with hb | hb
      · have hrhs : (0xFFFF : Nat).testBit b = true := by
          have h16 : (0xFFFF : Nat) = 2 ^ 16 - 1 := by norm_num
          rw [h16, Nat.testBit_two_pow_sub_one]
          simpa using hb
        rw [hrhs, hinv b hb]
        rcases Nat.lt_or_ge b length with hbl | hbl
        · rcases hsurj b hbl with h | ⟨x, hx1, hx2, _⟩
          · exact Or.inr h
          · omega
        · exact Or.inl hbl
      · have h1 : seen.testBit b = false :=
          Nat.testBit_eq_false_of_lt
            (lt_of_lt_of_le hslt (Nat.pow_le_pow_right (by omega) hb))
        have h2 : (0xFFFF : Nat).testBit b = false :=
          Nat.testBit_eq_false_of_lt
            (lt_of_lt_of_le (by norm_num) (Nat.pow_le_pow_right (by omega) hb))
        rw [h1, h2]
    have hpar0 : parity % count = 0 := by
      rw [hi, Finset.Ico_self, Finset.sum_empty, Nat.add_zero] at hpar
      exact hpar
    rw [pieceParityGo, if_neg (by simp [hseen]), if_neg (by omega)]
    congr 1
    funext x
    rw [if_neg (by omega)]
  | succ n ih =>
    intro i seen parity pieces hni hslt hinv hdup hfst hfresh hsurj hpar
    have hilt : i < length := by omega
    rw [pieceParityGo_succ]
    set r := CubeParityLookup ct (tempOf cube ct pt length count i) length count
      with hrdef
    have hrlt : r.1 < length := hfst i (le_refl i) hilt
    have hoff : seen.testBit r.1 = false := by
      rcases h : seen.testBit r.1 with _ | _
      · rfl
      · exfalso
        rcases (hinv r.1 (by omega)).mp h with h2 | ⟨j, hj, hpj⟩
        · omega
        · exact (hfresh i (le_refl i) hilt).1 j hj hpj
    have hbiton : (seen ^^^ (1 <<< r.1)).testBit r.1 = true := by
      rw [Nat.one_shiftLeft, Nat.testBit_xor, hoff, Nat.testBit_two_pow_self]
      rfl
    rw [if_neg (by simp [hdup i (le_refl i) hilt]),
      if_neg ((and_one_shiftLeft_ne_zero _ _).mpr hbiton)]
    have hres := ih (i + 1) (seen ^^^ (1 <<< r.1)) (parity + r.2)
      (writeIdx pieces i r.1) (by omega)
      (by
        rw [Nat.one_shiftLeft]
        exact Nat.xor_lt_two_pow hslt (Nat.pow_lt_pow_right (by omega) (by omega)))
      (by
        intro b hb
        rw [Nat.one_shiftLeft, Nat.testBit_xor]
        rcases eq_or_ne b r.1 with rfl | hbne
        · rw [hoff, Nat.testBit_two_pow_self]
          constructor
          · intro _
            exact Or.inr ⟨i, by omega, writeIdx_same _ _ _⟩
          · intro _; rfl
        · rw [Nat.testBit_two_pow_of_ne (fun he => hbne he.symm)]
          simp only [Bool.xor_false]
          rw [hinv b hb]
          constructor
          · rintro (h | ⟨j, hj, hpj⟩)
            · exact Or.inl h
            · exact Or.inr ⟨j, by omega,
                by rw [writeIdx_ne _ _ _ _ (by omega)]; exact hpj⟩
          · rintro (h | ⟨j, hj, hpj⟩)
            · exact Or.inl h
            · rcases Nat.lt_succ_iff_lt_or_eq.mp hj with h2 | h2
              · exact Or.inr ⟨j, h2,
                  by rw [writeIdx_ne _ _ _ _ (by omega)] at hpj; exact hpj⟩
              · rw [h2, writeIdx_same] at hpj
                exact absurd hpj (fun he => hbne he.symm))
      (fun x hx hx2 => hdup x (by omega) hx2)
      (fun x hx hx2 => hfst x (by omega) hx2)
      (by
        intro x hx hx2
        constructor
        · intro j hj
          rcases Nat.lt_succ_iff_lt_or_eq.mp hj with h2 | h2
          · rw [writeIdx_ne _ _ _ _ (by omega)]
            exact (hfresh x (by omega) hx2).1 j h2
          · rw [h2, writeIdx_same]
            exact (hfresh x (by omega) hx2).2 i (le_refl i) (by omega)
        · intro y hy hy2
          exact (hfresh x (by omega) hx2).2 y (by omega) hy2)
      (by
        intro b hb
        rcases hsurj b hb with ⟨j, hj, hpj⟩ | ⟨x, hx1, hx2, hx3⟩
        · exact Or.inl ⟨j, by omega,
            by rw [writeIdx_ne _ _ _ _ (by omega)]; exact hpj⟩
        · rcases Nat.eq_or_lt_of_le hx1 with hxe | hxl
          · exact Or.inl ⟨i, by omega,
              by rw [writeIdx_same, hrdef, hxe]; exact hx3⟩
          · exact Or.inr ⟨x, by omega, hx2, hx3⟩)
      (by
        rw [Finset.sum_eq_sum_Ico_succ_bot hilt, ← hrdef, ← Nat.add_assoc] at hpar
        exact hpar)
    rw [hres]
    congr 1
    funext x
    by_cases h1 : i + 1 ≤ x ∧ x < length
    · rw [if_pos h1, if_pos (by omega)]
    · rw [if_neg h1]
      by_cases h2 : i ≤ x ∧ x < length
      · have hxe : x = i := by omega
        subst hxe
        rw [if_pos h2, writeIdx_same]
      · rw [if_neg h2, writeIdx_ne _ _ _ _ (by omega)]

theorem swapFn_PermOn (a b n : Nat) (ha : a < n) (hb : b < n) :
    PermOn (swapFn a b) n := by
  constructor
  · intro j hj; exact swapFn_lt a b j n ha hb hj
  · intro j hj k hk hjk
    have := congrArg (swapFn a b) hjk
    rwa [swapFn_invol, swapFn_invol] at this

theorem PermOn.comp_fn {p q : Nat → Nat} {n : Nat} (hp : PermOn p n)
    (hq : PermOn q n) : PermOn (fun x => p (q x)) n := by
  constructor
  · intro j hj; exact hp.1 _ (hq.1 j hj)
  · intro j hj k hk hjk
    exact hq.2 j hj k hk (hp.2 _ (hq.1 j hj) _ (hq.1 k hk) hjk)

theorem PermOn.exists_preimage {p : Nat → Nat} {n : Nat} (hp : PermOn p n)
    (y : Nat) (hy : y < n) : ∃ x, x < n ∧ p x = y := by
  have hmaps : ∀ a ∈ Finset.range n, p a ∈ Finset.range n := by
    intro a ha
    exact Finset.mem_range.mpr (hp.1 a (Finset.mem_range.mp ha))
  have hinj : ∀ a₁ ∈ Finset.range n, ∀ a₂ ∈ Finset.range n,
      p a₁ = p a₂ → a₁ = a₂ := by
    intro a1 h1 a2 h2 he
    exact hp.2 a1 (Finset.mem_range.mp h1) a2 (Finset.mem_range.mp h2) he
  have hsurj := Finset.surj_on_of_inj_on_of_card_le
    (s := Finset.range n) (t := Finset.range n) (f := fun a _ => p a)
    (fun a ha => hmaps a ha) (fun a1 a2 h1 h2 he => hinj a1 h1 a2 h2 he)
    (le_refl _)
  obtain ⟨x, hx, hxe⟩ := hsurj y (Finset.mem_range.mpr hy)
  exact ⟨x, Finset.mem_range.mp hx, hxe.symm⟩

theorem pinv_spec {p : Nat → Nat} {n : Nat} (hp : PermOn p n) (y : Nat)
    (hy : y < n) : pinv p n y < n ∧ p (pinv p n y) = y := by
  obtain ⟨x, hx, hxe⟩ := hp.exists_preimage y hy
  rcases hfind : (List.range n).find? (fun x => p x == y) with _ | z
  · exfalso
    rw [List.find?_eq_none] at hfind
    exact absurd (by simpa using hxe) (by
      simpa using hfind x (List.mem_range.mpr hx))
  · have h1 := List.find?_some hfind
    have h2 := List.mem_of_find?_eq_some hfind
    unfold pinv
    rw [hfind]
    exact ⟨List.mem_range.mp h2, by simpa using h1⟩

theorem toPermFin_apply (p : Nat → Nat) (n : Nat) (h : PermOn p n)
    (x : Fin n) : toPermFin p n h x = ⟨p x, h.1 x x.2⟩ := rfl

theorem toPermFin_congr (p q : Nat → Nat) (n : Nat) (hp : PermOn p n)
    (hq : PermOn q n) (hpq : ∀ x, x < n → p x = q x) :
    toPermFin p n hp = toPermFin q n hq := by
  apply Equiv.ext
  intro x
  apply Fin.ext
  exact hpq x x.2

theorem toPermFin_comp (p q : Nat → Nat) (n : Nat) (hp : PermOn p n)
    (hq : PermOn q n) (hpq : PermOn (fun x => p (q x)) n) :
    toPermFin (fun x => p (q x)) n hpq
      = toPermFin p n hp * toPermFin q n hq := by
  apply Equiv.ext
  intro x
  apply Fin.ext
  rfl

theorem toPermFin_swap (a b n : Nat) (ha : a < n) (hb : b < n)
    (hs : PermOn (swapFn a b) n) :
    toPermFin (swapFn a b) n hs = Equiv.swap ⟨a, ha⟩ ⟨b, hb⟩ := by
  apply Equiv.ext
  intro x
  apply Fin.ext
  show swapFn a b x = _
  rw [Equiv.swap_apply_def]
  unfold swapFn
  by_cases h1 : (x : Nat) = a
  · rw [if_pos h1, if_pos (Fin.ext h1)]
  · rw [if_neg h1, if_neg (fun he => h1 (congrArg Fin.val he))]
    by_cases h2 : (x : Nat) = b
    · rw [if_pos h2, if_pos (Fin.ext h2)]
    · rw [if_neg h2, if_neg (fun he => h2 (congrArg Fin.val he))]

theorem toPermFin_id (p : Nat → Nat) (n : Nat) (hp : PermOn p n)
    (hid : ∀ x, x < n → p x = x) : toPermFin p n hp = 1 := by
  apply Equiv.ext
  intro x
  apply Fin.ext
  exact hid x x.2

theorem sign_of_sorted (n : Nat) :
    ∀ (l : List (Nat × Nat)) (p : Nat → Nat) (hp : PermOn p n),
    (∀ ab ∈ l, ab.1 < n ∧ ab.2 < n ∧ ab.1 ≠ ab.2) →
    (∀ j, j < n → applySwapsR p l j = j) →
    Equiv.Perm.sign (toPermFin p n hp) = (-1) ^ l.length := by
  intro l
  induction l with
  | nil =>
    intro p hp _ hs
    rw [toPermFin_id p n hp hs]
    simp
  | cons ab l ih =>
    intro p hp hbounds hs
    have hab := hbounds ab (List.mem_cons_self _ _)
    have hsw : PermOn (swapFn ab.1 ab.2) n := swapFn_PermOn _ _ n hab.1 hab.2.1
    have hq : PermOn (fun x => p (swapFn ab.1 ab.2 x)) n := hp.comp_fn hsw
    have hrec := ih (fun x => p (swapFn ab.1 ab.2 x)) hq
      (fun cd hcd => hbounds cd (List.mem_cons_of_mem _ hcd))
      (fun j hj => hs j hj)
    rw [toPermFin_comp p (swapFn ab.1 ab.2) n hp hsw hq,
      toPermFin_swap ab.1 ab.2 n hab.1 hab.2.1 hsw] at hrec
    rw [Equiv.Perm.sign_mul, Equiv.Perm.sign_swap
      (fun he => hab.2.2 (congrArg Fin.val he))] at hrec
    have : Equiv.Perm.sign (toPermFin p n hp) * (-1) * (-1)
        = (-1 : ℤˣ) ^ l.length * (-1) := by rw [hrec]
    rw [mul_assoc] at this
    simp only [neg_mul, one_mul, neg_neg, mul_one] at this
    rw [this, List.length_cons, pow_succ]

theorem rot_index_eq (k d s c : Nat) :
    ((k + d) % c + s) % c = (k + (s + d) % c) % c := by
  conv_lhs => rw [Nat.mod_add_mod]
  conv_rhs => rw [Nat.add_mod_mod]
  congr 1
  omega

theorem tempOf_turned (cube : Cube) (T : Cube → Cube) (t : Nat)
    (hchar : TurnChar T (srcTurn t)) (ct pt : Nat → Nat) (L c : Nat)
    (σ δ : Nat → Nat)
    (hptb : ∀ i j, i < L → j < c → pt (Index2D j i c L) < 8)
    (hslot : ∀ i j, i < L → j < c →
      srcTurn t (ct (Index2D j i c L)) (pt (Index2D j i c L))
        = (ct (Index2D ((j + δ i) % c) (σ i) c L),
           pt (Index2D ((j + δ i) % c) (σ i) c L)))
    (i j : Nat) (hi : i < L) (hj : j < c) :
    tempOf (T cube) ct pt L c i j
      = tempOf cube ct pt L c (σ i) ((j + δ i) % c) := by
  show FaceGetTile ((T cube) (ct (Index2D j i c L))) (pt (Index2D j i c L)) = _
  rw [hchar cube _ _ (hptb i j hi hj), hslot i j hi hj]
  rfl

theorem dupB_congr (temp temp' : Nat → Nat) (c : Nat)
    (h : ∀ k, k < c → temp k = temp' k) : dupB temp c = dupB temp' c := by
  rw [Bool.eq_iff_iff]
  simp only [dupB, List.any_eq_true, List.mem_range, Bool.and_eq_true,
    Bool.or_eq_true, decide_eq_true_eq]
  constructor
  · rintro ⟨j, hj, k, hk, h1, h2⟩
    exact ⟨j, hj, k, hk, h1, by rw [← h j hj, ← h k hk]; exact h2⟩
  · rintro ⟨j, hj, k, hk, h1, h2⟩
    exact ⟨j, hj, k, hk, h1, by rw [h j hj, h k hk]; exact h2⟩

/-- Transport of a successful `CubePieceParity` run through a turn:
when the turn's tile-source map sends the tiles of slot `i` to the
tiles of slot `σ i` rotated by `δ i`, the run on the turned cube also
succeeds and records the permuted rows `p ∘ σ`. -/
theorem CubePieceParity_turn (cube : Cube) (T : Cube → Cube) (t : Nat)
    (hchar : TurnChar T (srcTurn t)) (ct pt : Nat → Nat) (L c : Nat)
    (hL : L < 16) (hc : 0 < c)
    (σ δ σinv : Nat → Nat) (hσ : PermOn σ L)
    (hσinv : ∀ i, i < L → σinv i < L ∧ σ (σinv i) = i)
    (hptb : ∀ i j, i < L → j < c → pt (Index2D j i c L) < 8)
    (hslot : ∀ i j, i < L → j < c →
      srcTurn t (ct (Index2D j i c L)) (pt (Index2D j i c L))
        = (ct (Index2D ((j + δ i) % c) (σ i) c L),
           pt (Index2D ((j + δ i) % c) (σ i) c L)))
    (hδsum : (∑ i ∈ Finset.range L, δ i) % c = 0)
    (huniqrows : ∀ m1 d1 m2 d2, m1 < L → d1 < c → m2 < L → d2 < c →
      (∀ k, k < c → ct (Index2D ((k + d1) % c) m1 c L)
        = ct (Index2D ((k + d2) % c) m2 c L)) → m1 = m2 ∧ d1 = d2)
    (hdupfree : ∀ m d, m < L → d < c →
      dupB (fun k => ct (Index2D ((k + d) % c) m c L)) c = false)
    (p : Nat → Nat) (hrun : CubePieceParity cube ct pt L c = some p) :
    CubePieceParity (T cube) ct pt L c
      = some (fun x => if x < L then p (σ x) else 0) := by
  have hperm : PermOn p L := CubePieceParity_perm cube ct pt L c hL p hrun
  obtain ⟨_, hB, hC⟩ := pieceParityGo_run cube ct pt L c L 0 _ _ _ p (by omega) hrun
  have hfstlt : ∀ x, x < L →
      (CubeParityLookup ct (tempOf cube ct pt L c x) L c).1 < L := by
    intro x hx
    rw [← (hB x (by omega) hx).1]
    exact hperm.1 x hx
  have hmatch : ∀ x, x < L →
      (CubeParityLookup ct (tempOf cube ct pt L c x) L c).2 < c ∧
      ∀ k, k < c → ct (Index2D
        ((k + (CubeParityLookup ct (tempOf cube ct pt L c x) L c).2) % c)
        (CubeParityLookup ct (tempOf cube ct pt L c x) L c).1 c L)
        = tempOf cube ct pt L c x k :=
    fun x hx => lookup_match_of_fst_lt ct _ L c (hfstlt x hx)
  have htemp : ∀ i j, i < L → j < c →
      tempOf (T cube) ct pt L c i j
        = tempOf cube ct pt L c (σ i) ((j + δ i) % c) :=
    tempOf_turned cube T t hchar ct pt L c σ δ hptb hslot
  have hmatch' : ∀ i, i < L → ∀ k, k < c → ct (Index2D
      ((k + ((CubeParityLookup ct (tempOf cube ct pt L c (σ i)) L c).2 + δ i) % c) % c)
      (CubeParityLookup ct (tempOf cube ct pt L c (σ i)) L c).1 c L)
      = tempOf (T cube) ct pt L c i k := by
    intro i hi k hk
    rw [htemp i k hi hk,
      ← (hmatch (σ i) (hσ.1 i hi)).2 ((k + δ i) % c) (Nat.mod_lt _ hc)]
    congr 2
    exact (rot_index_eq k (δ i)
      (CubeParityLookup ct (tempOf cube ct pt L c (σ i)) L c).2 c).symm
  have hlk' : ∀ i, i < L →
      CubeParityLookup ct (tempOf (T cube) ct pt L c i) L c
        = ((CubeParityLookup ct (tempOf cube ct pt L c (σ i)) L c).1,
           ((CubeParityLookup ct (tempOf cube ct pt L c (σ i)) L c).2 + δ i) % c) := by
    intro i hi
    apply lookup_of_unique _ _ L c _ _ (hfstlt (σ i) (hσ.1 i hi)) (Nat.mod_lt _ hc)
      (hmatch' i hi)
    intro m' j' hm' hj' hall
    exact huniqrows m' j' _ _ hm' hj' (hfstlt (σ i) (hσ.1 i hi)) (Nat.mod_lt _ hc)
      (fun k hk => by rw [hall k hk, ← hmatch' i hi k hk])
  have hdup' : ∀ x, 0 ≤ x → x < L →
      dupB (tempOf (T cube) ct pt L c x) c = false := by
    intro x _ hx
    have hcg : dupB (tempOf (T cube) ct pt L c x) c
        = dupB (fun k => ct (Index2D
          ((k + ((CubeParityLookup ct (tempOf cube ct pt L c (σ x)) L c).2 + δ x) % c) % c)
          (CubeParityLookup ct (tempOf cube ct pt L c (σ x)) L c).1 c L)) c :=
      dupB_congr _ _ c (fun k hk => (hmatch' x hx k hk).symm)
    rw [hcg]
    exact hdupfree _ _ (hfstlt (σ x) (hσ.1 x hx)) (Nat.mod_lt _ hc)
  have hfst' : ∀ x, 0 ≤ x → x < L →
      (CubeParityLookup ct (tempOf (T cube) ct pt L c x) L c).1 < L := by
    intro x _ hx
    rw [hlk' x hx]
    exact hfstlt (σ x) (hσ.1 x hx)
  have hfsteq : ∀ x, x < L →
      (CubeParityLookup ct (tempOf (T cube) ct pt L c x) L c).1 = p (σ x) := by
    intro x hx
    rw [hlk' x hx]
    exact ((hB (σ x) (by omega) (hσ.1 x hx)).1).symm
  have hfresh' : ∀ x, 0 ≤ x → x < L →
      (∀ j, j < 0 → (fun _ : Nat => 0) j ≠
        (CubeParityLookup ct (tempOf (T cube) ct pt L c x) L c).1)
      ∧ (∀ y, 0 ≤ y → y < x →
        (CubeParityLookup ct (tempOf (T cube) ct pt L c y) L c).1
        ≠ (CubeParityLookup ct (tempOf (T cube) ct pt L c x) L c).1) := by
    intro x _ hx
    refine ⟨fun j hj => absurd hj (by omega), ?_⟩
    intro y _ hy he
    rw [hfsteq y (by omega), hfsteq x hx] at he
    have := hσ.2 y (by omega) x hx
      (hperm.2 _ (hσ.1 y (by omega)) _ (hσ.1 x hx) he)
    omega
  have hsurj' : ∀ b, b < L → (∃ j, j < 0 ∧ (fun _ : Nat => 0) j = b) ∨
      (∃ x, 0 ≤ x ∧ x < L ∧
        (CubeParityLookup ct (tempOf (T cube) ct pt L c x) L c).1 = b) := by
    intro b hb
    obtain ⟨z, hz, hpz⟩ := hperm.exists_preimage b hb
    refine Or.inr ⟨σinv z, by omega, (hσinv z hz).1, ?_⟩
    rw [hfsteq (σinv z) (hσinv z hz).1, (hσinv z hz).2, hpz]
  have hsum' : (0 + ∑ x ∈ Finset.Ico 0 L,
      (CubeParityLookup ct (tempOf (T cube) ct pt L c x) L c).2) % c = 0 := by
    rw [Nat.zero_add, Nat.Ico_zero_eq_range]
    have he1 : ∀ x ∈ Finset.range L,
        (CubeParityLookup ct (tempOf (T cube) ct pt L c x) L c).2
        = ((CubeParityLookup ct (tempOf cube ct pt L c (σ x)) L c).2 + δ x) % c := by
      intro x hx
      rw [hlk' x (Finset.mem_range.mp hx)]
    rw [Finset.sum_congr rfl he1, ← Finset.sum_nat_mod, Finset.sum_add_distrib]
    have he2 : ∑ x ∈ Finset.range L,
        (CubeParityLookup ct (tempOf cube ct pt L c (σ x)) L c).2
        = ∑ x ∈ Finset.range L,
        (CubeParityLookup ct (tempOf cube ct pt L c x) L c).2 := by
      apply Finset.sum_nbij' (fun x => σ x) (fun x => σinv x)
      · intro a ha
        exact Finset.mem_range.mpr (hσ.1 a (Finset.mem_range.mp ha))
      · intro a ha
        exact Finset.mem_range.mpr (hσinv a (Finset.mem_range.mp ha)).1
      · intro a ha
        have haL := Finset.mem_range.mp ha
        have h1 := (hσinv (σ a) (hσ.1 a haL)).2
        exact hσ.2 _ (hσinv (σ a) (hσ.1 a haL)).1 _ haL h1
      · intro a ha
        exact (hσinv a (Finset.mem_range.mp ha)).2
      · intro a _
        rfl
    rw [he2]
    have hC0 : (∑ x ∈ Finset.range L,
        (CubeParityLookup ct (tempOf cube ct pt L c x) L c).2) % c = 0 := by
      rw [Nat.zero_add, Nat.Ico_zero_eq_range] at hC
      exact hC
    rw [Nat.add_mod, hC0, hδsum]
    simp
  have hres := pieceParityGo_of (T cube) ct pt L c hL L 0
    ((0xFFFF <<< L) % 65536) 0 (fun _ => 0) (by omega)
    (Nat.mod_lt _ (by norm_num))
    (by
      intro b hb
      have h65536 : (65536 : Nat) = 2 ^ 16 := by norm_num
      rw [h65536, Nat.testBit_mod_two_pow, Nat.testBit_shiftLeft]
      have h0xffff : (0xFFFF : Nat) = 2 ^ 16 - 1 := by norm_num
      rw [h0xffff, Nat.testBit_two_pow_sub_one]
      constructor
      · intro hcond
        simp only [Bool.and_eq_true, decide_eq_true_eq] at hcond
        exact Or.inl hcond.2.1
      · rintro (hcond | ⟨j, hj, _⟩)
        · simp only [Bool.and_eq_true, decide_eq_true_eq]
          exact ⟨hb, hcond, by omega⟩
        · omega)
    hdup' hfst' hfresh' hsurj' hsum'
  show pieceParityGo (T cube) ct pt L c L 0 ((0xFFFF <<< L) % 65536) 0
    (fun _ => 0) = _
  rw [hres]
  congr 1
  funext x
  by_cases hx : x < L
  · rw [if_pos ⟨by omega, hx⟩, if_pos hx]
    exact hfsteq x hx
  · rw [if_neg (by omega), if_neg hx]

theorem sweep_parity (p : Nat → Nat) (n : Nat) (hn : n < 16)
    (hp : PermOn p n) :
    ∃ s : Nat, CubePermutationParitySwaps p n = some (s : Int) ∧
      Equiv.Perm.sign (toPermFin p n hp) = (-1) ^ s := by
  obtain ⟨s, l, h1, h2, h3, h4⟩ := sweep_total p n hn hp
  exact ⟨s, h1, by rw [← h2]; exact sign_of_sorted n l p hp h3 h4⟩

theorem edge_slot_map_fin : ∀ (t : Fin 18) (i : Fin 12) (j : Fin 2),
    srcTurn t (CUBE_EDGE_COLOUR_TABLE (Index2D j i 2 12))
      (CUBE_EDGE_POSITION_TABLE (Index2D j i 2 12))
    = (CUBE_EDGE_COLOUR_TABLE
        (Index2D ((j + EDGE_SLOT_ROT t i) % 2) (EDGE_SLOT_SRC t i) 2 12),
       CUBE_EDGE_POSITION_TABLE
        (Index2D ((j + EDGE_SLOT_ROT t i) % 2) (EDGE_SLOT_SRC t i) 2 12)) := by
  decide

theorem corner_slot_map_fin : ∀ (t : Fin 18) (i : Fin 8) (j : Fin 3),
    srcTurn t (CUBE_CORNER_COLOUR_TABLE (Index2D j i 3 8))
      (CUBE_CORNER_POSITION_TABLE (Index2D j i 3 8))
    = (CUBE_CORNER_COLOUR_TABLE
        (Index2D ((j + CORNER_SLOT_ROT t i) % 3) (CORNER_SLOT_SRC t i) 3 8),
       CUBE_CORNER_POSITION_TABLE
        (Index2D ((j + CORNER_SLOT_ROT t i) % 3) (CORNER_SLOT_SRC t i) 3 8)) := by
  decide

theorem edge_slot_perm_fin : ∀ t : Fin 18,
    PermOn (EDGE_SLOT_SRC t) 12 ∧
    (∀ i : Fin 12, EDGE_SLOT_SRC_INV t (EDGE_SLOT_SRC t i) = i ∧
      EDGE_SLOT_SRC_INV t i < 12 ∧
      EDGE_SLOT_SRC t (EDGE_SLOT_SRC_INV t i) = i) := by
  decide

theorem corner_slot_perm_fin : ∀ t : Fin 18,
    PermOn (CORNER_SLOT_SRC t) 8 ∧
    (∀ i : Fin 8, CORNER_SLOT_SRC_INV t (CORNER_SLOT_SRC t i) = i ∧
      CORNER_SLOT_SRC_INV t i < 8 ∧
      CORNER_SLOT_SRC t (CORNER_SLOT_SRC_INV t i) = i) := by
  decide

theorem edge_rot_sum_fin : ∀ t : Fin 18,
    (∑ i ∈ Finset.range 12, EDGE_SLOT_ROT t i) % 2 = 0 := by
  decide

theorem corner_rot_sum_fin : ∀ t : Fin 18,
    (∑ i ∈ Finset.range 8, CORNER_SLOT_ROT t i) % 3 = 0 := by
  decide

theorem edge_pt_lt_fin : ∀ (i : Fin 12) (j : Fin 2),
    CUBE_EDGE_POSITION_TABLE (Index2D j i 2 12) < 8 := by
  decide

theorem corner_pt_lt_fin : ∀ (i : Fin 8) (j : Fin 3),
    CUBE_CORNER_POSITION_TABLE (Index2D j i 3 8) < 8 := by
  decide

theorem edge_rows_unique_fin : ∀ (m1 : Fin 12) (d1 : Fin 2) (m2 : Fin 12) (d2 : Fin 2),
    (∀ k : Fin 2, CUBE_EDGE_COLOUR_TABLE (Index2D ((k + d1) % 2) m1 2 12)
      = CUBE_EDGE_COLOUR_TABLE (Index2D ((k + d2) % 2) m2 2 12)) →
    (m1 : Nat) = m2 ∧ (d1 : Nat) = d2 := by
  decide

theorem corner_rows_unique_fin : ∀ (m1 : Fin 8) (d1 : Fin 3) (m2 : Fin 8) (d2 : Fin 3),
    (∀ k : Fin 3, CUBE_CORNER_COLOUR_TABLE (Index2D ((k + d1) % 3) m1 3 8)
      = CUBE_CORNER_COLOUR_TABLE (Index2D ((k + d2) % 3) m2 3 8)) →
    (m1 : Nat) = m2 ∧ (d1 : Nat) = d2 := by
  decide

theorem edge_rows_dupfree_fin : ∀ (m : Fin 12) (d : Fin 2),
    dupB (fun k => CUBE_EDGE_COLOUR_TABLE (Index2D ((k + d) % 2) m 2 12)) 2
      = false := by
  decide

theorem corner_rows_dupfree_fin : ∀ (m : Fin 8) (d : Fin 3),
    dupB (fun k => CUBE_CORNER_COLOUR_TABLE (Index2D ((k + d) % 3) m 3 8)) 3
      = false := by
  decide

theorem sweep_pair_parity_fin : ∀ t : Fin 18, sweepPairParityOK t = true := by
  decide

theorem units_neg_one_pow_even (n : Nat) (h : (-1 : ℤˣ) ^ n = 1) : Even n := by
  rcases Nat.even_or_odd n with he | ho
  · exact he
  · exfalso
    rw [Odd.neg_one_pow ho] at h
    have h2 := congrArg Units.val h
    norm_num at h2

/-- Validity is preserved by any state transformer whose tile reads are
characterised by one of the eighteen turn-source maps. -/
theorem CubeValid_turn (cube : Cube) (t : Nat) (ht : t < 18)
    (T : Cube → Cube) (hchar : TurnChar T (srcTurn t))
    (hv : CubeValid cube = true) : CubeValid (T cube) = true := by
  -- destructure the valid run
  unfold CubeValid at hv
  rcases he : CubePieceParity cube CUBE_EDGE_COLOUR_TABLE
      CUBE_EDGE_POSITION_TABLE 12 2 with _ | ep
  · simp only [he] at hv
    exact Bool.noConfusion hv
  rcases hcn : CubePieceParity cube CUBE_CORNER_COLOUR_TABLE
      CUBE_CORNER_POSITION_TABLE 8 3 with _ | cp
  · simp only [he, hcn] at hv
    exact Bool.noConfusion hv
  simp only [he, hcn] at hv
  rcases hes : CubePermutationParitySwaps ep 12 with _ | es
  · simp only [hes] at hv
    exact Bool.noConfusion hv
  rcases hcs : CubePermutationParitySwaps cp 8 with _ | cs
  · simp only [hes, hcs, ite_self] at hv
    exact Bool.noConfusion hv
  simp only [hes, hcs] at hv
  -- original permutations and their sweep signs
  have hpe : PermOn ep 12 :=
    CubePieceParity_perm cube _ _ 12 2 (by omega) ep he
  have hpc : PermOn cp 8 :=
    CubePieceParity_perm cube _ _ 8 3 (by omega) cp hcn
  obtain ⟨se, hswe, hsgne⟩ := sweep_parity ep 12 (by omega) hpe
  obtain ⟨sc, hswc, hsgnc⟩ := sweep_parity cp 8 (by omega) hpc
  have hese : es = (se : Int) := by
    have := hswe.symm.trans hes
    exact (Option.some_inj.mp this).symm
  have hcse : cs = (sc : Int) := by
    have := hswc.symm.trans hcs
    exact (Option.some_inj.mp this).symm
  subst hese hcse
  rw [if_neg (by omega), if_neg (by omega)] at hv
  have hpar : (se + sc) % 2 = 0 := by
    have := of_decide_eq_true hv
    omega
  -- slot permutation data for this turn
  have hσE : PermOn (EDGE_SLOT_SRC t) 12 := (edge_slot_perm_fin ⟨t, ht⟩).1
  have hσC : PermOn (CORNER_SLOT_SRC t) 8 := (corner_slot_perm_fin ⟨t, ht⟩).1
  -- transported edge run
  have he' := CubePieceParity_turn cube T t hchar
    CUBE_EDGE_COLOUR_TABLE CUBE_EDGE_POSITION_TABLE 12 2 (by omega) (by omega)
    (EDGE_SLOT_SRC t) (EDGE_SLOT_ROT t) (EDGE_SLOT_SRC_INV t) hσE
    (fun i hi => ⟨((edge_slot_perm_fin ⟨t, ht⟩).2 ⟨i, hi⟩).2.1,
      ((edge_slot_perm_fin ⟨t, ht⟩).2 ⟨i, hi⟩).2.2⟩)
    (fun i j hi hj => edge_pt_lt_fin ⟨i, hi⟩ ⟨j, hj⟩)
    (fun i j hi hj => edge_slot_map_fin ⟨t, ht⟩ ⟨i, hi⟩ ⟨j, hj⟩)
    (edge_rot_sum_fin ⟨t, ht⟩)
    (fun m1 d1 m2 d2 h1 h2 h3 h4 hall =>
      edge_rows_unique_fin ⟨m1, h1⟩ ⟨d1, h2⟩ ⟨m2, h3⟩ ⟨d2, h4⟩
        (fun k => hall k k.2))
    (fun m d hm hd => edge_rows_dupfree_fin ⟨m, hm⟩ ⟨d, hd⟩)
    ep he
  have hcn' := CubePieceParity_turn cube T t hchar
    CUBE_CORNER_COLOUR_TABLE CUBE_CORNER_POSITION_TABLE 8 3 (by omega) (by omega)
    (CORNER_SLOT_SRC t) (CORNER_SLOT_ROT t) (CORNER_SLOT_SRC_INV t) hσC
    (fun i hi => ⟨((corner_slot_perm_fin ⟨t, ht⟩).2 ⟨i, hi⟩).2.1,
      ((corner_slot_perm_fin ⟨t, ht⟩).2 ⟨i, hi⟩).2.2⟩)
    (fun i j hi hj => corner_pt_lt_fin ⟨i, hi⟩ ⟨j, hj⟩)
    (fun i j hi hj => corner_slot_map_fin ⟨t, ht⟩ ⟨i, hi⟩ ⟨j, hj⟩)
    (corner_rot_sum_fin ⟨t, ht⟩)
    (fun m1 d1 m2 d2 h1 h2 h3 h4 hall =>
      corner_rows_unique_fin ⟨m1, h1⟩ ⟨d1, h2⟩ ⟨m2, h3⟩ ⟨d2, h4⟩
        (fun k => hall k k.2))
    (fun m d hm hd => corner_rows_dupfree_fin ⟨m, hm⟩ ⟨d, hd⟩)
    cp hcn
  -- turned permutations and their sweep signs
  have hpe' : PermOn (fun x => if x < 12 then ep (EDGE_SLOT_SRC t x) else 0) 12 :=
    CubePieceParity_perm (T cube) _ _ 12 2 (by omega) _ he'
  have hpc' : PermOn (fun x => if x < 8 then cp (CORNER_SLOT_SRC t x) else 0) 8 :=
    CubePieceParity_perm (T cube) _ _ 8 3 (by omega) _ hcn'
  obtain ⟨se', hswe', hsgne'⟩ := sweep_parity _ 12 (by omega) hpe'
  obtain ⟨sc', hswc', hsgnc'⟩ := sweep_parity _ 8 (by omega) hpc'
  obtain ⟨sσe, hswσe, hsgnσe⟩ := sweep_parity _ 12 (by omega) hσE
  obtain ⟨sσc, hswσc, hsgnσc⟩ := sweep_parity _ 8 (by omega) hσC
  -- the slot permutations have even combined parity
  have hOK := sweep_pair_parity_fin ⟨t, ht⟩
  unfold sweepPairParityOK at hOK
  simp only [hswσe, hswσc] at hOK
  have hσpar : (sσe + sσc) % 2 = 0 := by
    have := of_decide_eq_true hOK
    omega
  -- sign decomposition of the turned runs
  have hcompE : PermOn (fun x => ep (EDGE_SLOT_SRC t x)) 12 := hpe.comp_fn hσE
  have hsgn_decompE : ((-1 : ℤˣ)) ^ se' = (-1) ^ se * (-1) ^ sσe := by
    rw [← hsgne', ← hsgne, ← hsgnσe]
    rw [toPermFin_congr _ (fun x => ep (EDGE_SLOT_SRC t x)) 12 hpe' hcompE
      (fun x hx => by simp [hx])]
    rw [toPermFin_comp ep (EDGE_SLOT_SRC t) 12 hpe hσE hcompE]
    exact Equiv.Perm.sign_mul _ _
  have hcompC : PermOn (fun x => cp (CORNER_SLOT_SRC t x)) 8 := hpc.comp_fn hσC
  have hsgn_decompC : ((-1 : ℤˣ)) ^ sc' = (-1) ^ sc * (-1) ^ sσc := by
    rw [← hsgnc', ← hsgnc, ← hsgnσc]
    rw [toPermFin_congr _ (fun x => cp (CORNER_SLOT_SRC t x)) 8 hpc' hcompC
      (fun x hx => by simp [hx])]
    rw [toPermFin_comp cp (CORNER_SLOT_SRC t) 8 hpc hσC hcompC]
    exact Equiv.Perm.sign_mul _ _
  -- hence the turned swap total is even
  have htotal : ((-1 : ℤˣ)) ^ (se' + sc') = 1 := by
    rw [pow_add, hsgn_decompE, hsgn_decompC]
    have h1 : ((-1 : ℤˣ)) ^ se * (-1) ^ sσe * ((-1) ^ sc * (-1) ^ sσc)
        = (-1) ^ (se + sc) * (-1) ^ (sσe + sσc) := by
      rw [pow_add, pow_add]
      exact mul_mul_mul_comm _ _ _ _
    rw [h1, Even.neg_one_pow (Nat.even_iff.mpr hpar),
      Even.neg_one_pow (Nat.even_iff.mpr hσpar), one_mul]
  have hfinal : ((se' : Int) + (sc' : Int)) % 2 = 0 := by
    have := Nat.even_iff.mp (units_neg_one_pow_even _ htotal)
    omega
  -- assemble validity of the turned cube
  unfold CubeValid
  simp only [he', hcn', hswe', hswc']
  rw [if_neg (by omega), if_neg (by omega)]
  exact decide_eq_true hfinal

/-- `CubeTurn`'s tile reads are characterised by the matching
turn-source map. -/
theorem TurnChar_CubeTurn (t : Nat) (ht : t < 18) :
    TurnChar (fun cube => CubeTurn cube t) (srcTurn t) := by
  by_cases h6 : t < 6
  · have e1 : (fun cube => CubeTurn cube t)
        = (fun cube => CubeFaceTurnClockwise cube t) := by
      funext c; unfold CubeTurn; rw [if_pos h6]
    have e2 : srcTurn t = srcCW t := by
      unfold srcTurn; rw [if_pos h6]
    rw [e1, e2]
    exact TurnChar_turnCW t h6
  · by_cases h12 : t < 12
    · have e1 : (fun cube => CubeTurn cube t)
          = (fun cube => CubeFaceTurnAntiClockwise cube (t - 6)) := by
        funext c; unfold CubeTurn; rw [if_neg h6, if_pos h12]; rfl
      have e2 : srcTurn t = srcCCW (t - 6) := by
        unfold srcTurn; rw [if_neg h6, if_pos h12]
      rw [e1, e2]
      exact TurnChar_turnCCW (t - 6) (by omega)
    · have e1 : (fun cube => CubeTurn cube t)
          = (fun cube => CubeFaceTurnDouble cube (t - 12)) := by
        funext c; unfold CubeTurn; rw [if_neg h6, if_neg h12]; rfl
      have e2 : srcTurn t = srcDouble (t - 12) := by
        unfold srcTurn; rw [if_neg h6, if_neg h12]
      rw [e1, e2]
      exact TurnChar_turnDouble (t - 12) (by omega)

/-- C2: `CubeValid` accepts the solved cube, and is preserved by every
one of the 18 turn types, so any finite sequence of legal turns from
the solved cube stays valid. -/
theorem C2_validity_closure (cube : Cube) (t : Nat) (ht : t < 18)
    (hv : CubeValid cube = true) :
    CubeValid solvedCube = true ∧ CubeValid (CubeTurn cube t) = true := by
  refine ⟨by decide, ?_⟩
  exact CubeValid_turn cube t ht (fun c => CubeTurn c t)
    (TurnChar_CubeTurn t ht) hv

theorem C2_validity_closure_witness :
    (0 : Nat) < 18 ∧ CubeValid solvedCube = true ∧
    (CubeValid solvedCube = true ∧ CubeValid (CubeTurn solvedCube 0) = true) :=
  ⟨by decide, by decide,
    C2_validity_closure solvedCube 0 (by decide) (by decide)⟩
